import Mathlib

/-!
# imgui-xeno: driver interception and overlay renderer

A shallow embedding of `src/imgui_backend/imgui_nvn.cpp` (the NVN entry-point
hooks) and of `src/imgui_backend/imgui_impl_nvn.cpp` (the ImGui renderer backend),
followed by theorems about them.

Conventions of the embedding:

* object pointers are addresses (`Nat`), `0` being `nullptr`;
* function pointers are a small inductive type: null, a function of the driver,
  or the address of one of the wrapper functions of this program;
* the process-wide variables of both files are the fields of `State`;
* the calls that leave the program (driver entry points, command recording, the
  frame functions of the ImGui library, user callbacks) are appended to
  `State.trace`; what such a call returns is read from the oracle record `Env`;
* `float` values are exact rationals, `int` values wrap at 32 bits;
* the macros `XENO_ASSERT` and `ALIGN_UP` and the default of
  `NvnBackendData::isUseTestShader` are declared in headers outside the two files;
  each is a definition of its own, marked as modelled;
* `Logger::log` calls and the calls that only configure the ImGui library
  (allocator, style, mouse cursor) have no effect on the modelled state
  and are left out.
-/

namespace ImguiXeno

/-- An object pointer (`nvn::Device *`, `nvn::Queue *`, ...); `0` is `nullptr`. -/
abbrev Ptr := Nat

/-- The driver's boolean, a `uint8_t`. -/
abbrev NVNboolean := Nat

/-- The functions of `imgui_nvn.cpp` whose address is handed out to the host. -/
inductive Wrapper where
  | queueInit
  | cmdBufInit
  | presentTexture
  | deviceInit
  | setSamplerPool
  | setTexturePool
  | setCrop
  | getProc
  deriving DecidableEq, Repr

/-- A `nvn::GenericFuncPtrFunc` (or the `void *` of the bootstrap loader): null, the
address of a driver function, or the address of a wrapper (`&queueInit`, ...), which
is never null and never a driver address. -/
inductive FuncPtr where
  | null
  | driver (addr : Nat)
  | wrapper (w : Wrapper)
  deriving DecidableEq, Repr

/-- The process-wide variables of `imgui_nvn.cpp` that cache driver entry points. -/
structure Slots where
  tempGetProcAddressFuncPtr : FuncPtr
  tempBufferInitFuncPtr : FuncPtr
  tempDeviceInitFuncPtr : FuncPtr
  tempQueueInitFuncPtr : FuncPtr
  tempPresentTexFunc : FuncPtr
  tempSetCropFunc : FuncPtr
  tempCommandSetTexturePoolFunc : FuncPtr
  tempCommandSetSamplerPoolFunc : FuncPtr
  deriving DecidableEq, Repr

/-- A registered callback (`ProcDrawFunc`, `InitFunc`), identified by its address. -/
abbrev Callback := Nat

/-- An `ImVec2`; the two `float` members are exact rationals here. -/
structure ImVec2 where
  x : ℚ
  y : ℚ
  deriving DecidableEq, Repr

/-- An `ImVec4`. -/
structure ImVec4 where
  x : ℚ
  y : ℚ
  z : ℚ
  w : ℚ
  deriving DecidableEq, Repr

/-- The `float[4][4]` of the projection matrix. -/
abbrev Matrix44f := Fin 4 → Fin 4 → ℚ

/-- One vertex of the UI library, `sizeof(ImDrawVert)` bytes in memory. -/
structure ImDrawVert where
  pos : ImVec2
  uv : ImVec2
  col : Nat
  deriving DecidableEq, Repr

/-- The members of `ImDrawCmd` that `renderDrawData` reads. `TexID` is the
`nvn::TextureHandle` that `cmd.GetTexID()` points to. -/
structure ImDrawCmd where
  ClipRect : ImVec4
  TexID : Nat
  VtxOffset : Nat
  IdxOffset : Nat
  ElemCount : Nat
  deriving DecidableEq, Repr

/-- One `ImDrawList`: its commands, its index array and its vertex array. -/
structure ImDrawList where
  CmdBuffer : List ImDrawCmd
  IdxBuffer : List Nat
  VtxBuffer : List ImDrawVert
  deriving DecidableEq, Repr

/-- The `ImDrawData` of a frame. `CmdLists` holds the `CmdListsCount` lists. -/
structure ImDrawData where
  Valid : Bool
  CmdLists : List ImDrawList
  TotalIdxCount : Nat
  TotalVtxCount : Nat
  deriving DecidableEq, Repr

/-- Number of command lists of the frame. -/
def ImDrawData.CmdListsCount (drawData : ImDrawData) : Nat :=
  drawData.CmdLists.length

/-- A `MemoryBuffer` as the renderer sees it: its GPU address, `GetPoolSize()` and
`IsBufferReady()`. The class itself is declared outside the two source files. -/
structure MemoryBuffer where
  address : Nat
  poolSize : Nat
  ready : Bool
  deriving DecidableEq, Repr

/-- The commands recorded into a `nvn::CommandBuffer`. -/
inductive Command where
  | BeginRecording
  | EndRecording
  | BindProgram
  | BindUniformBuffer (size : Nat)
  | UpdateUniformBuffer (size : Nat) (data : Matrix44f)
  | BindPolygonState
  | BindColorState
  | BindBlendState
  | BindVertexAttribState (n : Nat)
  | BindVertexStreamState (n : Nat)
  | SetTexturePool (pool : Ptr)
  | SetSamplerPool (pool : Ptr)
  | BindVertexBuffer (index : Nat) (address : Nat) (size : Nat)
  | SetViewport (x y w h : Int)
  | SetScissor (x y w h : Int)
  | BindTexture (slot : Nat) (handle : Nat)
  | DrawElementsBaseVertex (count : Nat) (indexBuffer : Nat) (baseVertex : Nat)
  | DrawArrays (first : Nat) (count : Nat)
  deriving DecidableEq

/-- Everything the program does to the outside world, in the order it happens. -/
inductive Call where
  /-- A call of the driver resolver held in `tempGetProcAddressFuncPtr`. -/
  | getProcAddress (fn : FuncPtr) (device : Ptr) (procName : String)
  /-- A call of the bootstrap loader `origFn`. -/
  | bootstrapLoader (funcName : String)
  | deviceInitialize (fn : FuncPtr) (device builder : Ptr)
  | loadCPPProcs (device : Ptr) (getProcAddress : FuncPtr)
  | queueInitialize (fn : FuncPtr) (queue builder : Ptr)
  | commandBufferInitialize (fn : FuncPtr) (buffer device : Ptr)
  | commandBufferSetTexturePool (fn : FuncPtr) (cmdBuf pool : Ptr)
  | commandBufferSetSamplerPool (fn : FuncPtr) (cmdBuf pool : Ptr)
  | windowSetCrop (fn : FuncPtr) (window : Ptr) (x y w h : Int)
  | queuePresentTexture (fn : FuncPtr) (queue window : Ptr) (texIndex : Int)
  /-- A command recorded through the C++ entry points loaded by `nvnLoadCPPProcs`. -/
  | record (cmdBuf : Ptr) (c : Command)
  | submitCommands (queue : Ptr) (numCommands : Nat) (handle : Nat)
  /-- Instrumentation: one execution of `nvnImGui::InitImGui`, with what it returned. -/
  | InitImGui (result : Bool)
  | createContext
  /-- Instrumentation: one execution of `ImguiNvnBackend::InitBackend`. -/
  | InitBackend (device queue cmdBuf : Ptr)
  | initKBM
  | setPort
  | initFunc (f : Callback)
  | drawFunc (f : Callback)
  | newFrame
  | imguiNewFrame
  | imguiRender
  | finalizeBuffer (b : MemoryBuffer)
  | freeBuffer (b : MemoryBuffer)
  | newMemoryBuffer (size : Nat)
  | memcpyVtx (dst : Nat) (data : List ImDrawVert)
  | memcpyIdx (dst : Nat) (data : List Nat)
  | createQuad (x y width height : Int)
  | assertFailed (msg : String)
  deriving DecidableEq

/-- The members of `NvnBackendData` that the frame path reads or writes. `texPool`
and `samplerPool` are the addresses of the overlay's own descriptor pools. -/
structure NvnBackendData where
  device : Ptr
  queue : Ptr
  cmdBuf : Ptr
  isInitialized : Bool
  isUseTestShader : Bool
  vtxBuffer : Option MemoryBuffer
  idxBuffer : Option MemoryBuffer
  texPool : Ptr
  samplerPool : Ptr
  deriving DecidableEq, Repr

/-- The process-wide state of the two source files. `DisplaySize` is
`ImGui::GetIO().DisplaySize`, `bd` the record behind
`ImGui::GetIO().BackendRendererUserData`; both are read only once `InitBackend` has
filled them. -/
structure State where
  nvnDevice : Ptr
  nvnQueue : Ptr
  nvnCmdBuf : Ptr
  __cmdBuf : Ptr
  __texturePool : Ptr
  __samplerPool : Ptr
  slots : Slots
  hasInitImGui : Bool
  commandBufferCount : Int
  drawQueue : List Callback
  initQueue : List Callback
  DisplaySize : ImVec2
  projMatrix : Matrix44f
  bd : NvnBackendData
  trace : List Call

/-- What each step of `InitBackend` that can fail reports. -/
structure SetupOutcome where
  shaderBinarySize : Nat
  programInitialize : Bool
  shaderMemoryReady : Bool
  setShaders : Bool
  uniformMemoryReady : Bool
  createSampTexPool : Bool
  samplerPoolInitialize : Bool
  texPoolInitialize : Bool
  createFontPool : Bool
  fontTextureInitialize : Bool
  fontSamplerInitialize : Bool

/-- What lies outside the two source files: the configuration of
`imgui_backend_config.h`, and what the calls into the driver, the allocator and the
user callbacks give back. -/
structure Env where
  IMGUI_XENO_COMMAND_BUFFER_ID : Int
  IMGUI_XENO_DRAW_DEMO : Bool
  /-- Address of the callback that `InitImGui` registers under `IMGUI_XENO_DRAW_DEMO`. -/
  demoWindow : Callback
  /-- Result of calling the function pointer `fn` as a `DeviceGetProcAddressFunc`. -/
  callGetProcAddress : FuncPtr → Ptr → String → FuncPtr
  callDeviceInitialize : FuncPtr → Ptr → Ptr → NVNboolean
  callQueueInitialize : FuncPtr → Ptr → Ptr → NVNboolean
  callCommandBufferInitialize : FuncPtr → Ptr → Ptr → NVNboolean
  /-- The command handle that `EndRecording` returns for a command buffer. -/
  endRecording : Ptr → Nat
  /-- The buffer that `IM_NEW(MemoryBuffer)(size)` yields. -/
  newMemoryBuffer : Nat → MemoryBuffer
  setup : SetupOutcome
  /-- Addresses of `bd->texPool` and `bd->samplerPool`. -/
  texPool : Ptr
  samplerPool : Ptr
  /-- What a draw callback does to `__cmdBuf`, `__texturePool` and `__samplerPool`
  (a callback may reach the hooked pool setters). -/
  drawFuncEffect : Callback → Ptr × Ptr × Ptr → Ptr × Ptr × Ptr

/-- The state before any hook has run: every global is zero-initialised. -/
def State.initial : State where
  nvnDevice := 0
  nvnQueue := 0
  nvnCmdBuf := 0
  __cmdBuf := 0
  __texturePool := 0
  __samplerPool := 0
  slots := ⟨.null, .null, .null, .null, .null, .null, .null, .null⟩
  hasInitImGui := false
  commandBufferCount := 0
  drawQueue := []
  initQueue := []
  DisplaySize := ⟨0, 0⟩
  projMatrix := fun _ _ => 0
  bd := ⟨0, 0, 0, false, false, none, none, 0, 0⟩
  trace := []

/-- Append calls to the trace. -/
def State.emit (st : State) (calls : List Call) : State :=
  { st with trace := st.trace ++ calls }

/-- A 32-bit `int` after an arithmetic step: two's complement wrap-around. -/
def wrapInt32 (x : Int) : Int :=
  (x + 2147483648) % 4294967296 - 2147483648

/-- The conversion `(int) f` of a `float`: truncation toward zero. -/
def truncInt (q : ℚ) : Int :=
  Int.tdiv q.num q.den

/-- Size in bytes of `ImDrawVert` (two `ImVec2` and one `ImU32`). -/
def sizeofImDrawVert : Nat := 20

/-- Size in bytes of `ImDrawIdx` (`unsigned short`). -/
def sizeofImDrawIdx : Nat := 2

/-- Size in bytes of the uniform block. -/
def UBOSIZE : Nat := 0x1000

/-- Size in bytes of `projMatrix`. -/
def sizeofProjMatrix : Nat := 64

/-- Orthographic projection matrix, all sixteen entries assigned. -/
def orthoRH_ZO (left right bottom top zNear zFar : ℚ) : Matrix44f :=
  ![![2 / (right - left), 0, 0, 0],
    ![0, 2 / (top - bottom), 0, 0],
    ![0, 0, -1 / (zFar - zNear), 0],
    ![-(right + left) / (right - left), -(top + bottom) / (top - bottom),
      -zNear / (zFar - zNear), 1]]

/-! ## The renderer backend: `imgui_impl_nvn.cpp` -/

/-- The render state that `setRenderStates` records into `bd->cmdBuf`. -/
def setRenderStates (bd : NvnBackendData) : List Call :=
  [ .record bd.cmdBuf .BindPolygonState,
    .record bd.cmdBuf .BindColorState,
    .record bd.cmdBuf .BindBlendState,
    .record bd.cmdBuf (.BindVertexAttribState 3),
    .record bd.cmdBuf (.BindVertexStreamState 1),
    .record bd.cmdBuf (.SetTexturePool bd.texPool),
    .record bd.cmdBuf (.SetSamplerPool bd.samplerPool) ]

/-- The resize step that `renderDrawData` runs on `bd->vtxBuffer` and again on
`bd->idxBuffer`: a missing or too small buffer is replaced by a new one of
`totalSize` bytes, the old one being finalized and freed first. Returns the buffer
held afterwards and the calls made. -/
def ensureCapacity (env : Env) (buffer : Option MemoryBuffer) (totalSize : Nat) :
    MemoryBuffer × List Call :=
  match buffer with
  | none => (env.newMemoryBuffer totalSize, [.newMemoryBuffer totalSize])
  | some b =>
    if b.poolSize < totalSize then
      (env.newMemoryBuffer totalSize,
        [.finalizeBuffer b, .freeBuffer b, .newMemoryBuffer totalSize])
    else
      (b, [])

/-- The test-shader path of `renderDrawData`, taken when `bd->isUseTestShader`. -/
def renderTestShader (env : Env) (st : State) : State :=
  let pointCount : Nat := 6
  let totalVtxSize := pointCount * sizeofImDrawVert
  let (vtx, resize) := ensureCapacity env st.bd.vtxBuffer totalVtxSize
  let st := { st with bd := { st.bd with vtxBuffer := some vtx }, trace := st.trace ++ resize }
  if !vtx.ready then
    st
  else
    let imageX : ℚ := 3
    let imageY : ℚ := 3
    st.emit
      ([ .createQuad (truncInt (st.DisplaySize.x / 2 - imageX))
            (truncInt (st.DisplaySize.y / 2 - imageY)) (truncInt imageX) (truncInt imageY),
         .record st.bd.cmdBuf .BeginRecording,
         .record st.bd.cmdBuf .BindProgram,
         .record st.bd.cmdBuf (.BindUniformBuffer UBOSIZE),
         .record st.bd.cmdBuf (.UpdateUniformBuffer sizeofProjMatrix st.projMatrix),
         .record st.bd.cmdBuf (.BindVertexBuffer 0 vtx.address vtx.poolSize) ]
        ++ setRenderStates st.bd
        ++ [ .record st.bd.cmdBuf (.DrawArrays 0 pointCount),
             .record st.bd.cmdBuf .EndRecording,
             .submitCommands st.bd.queue 1 (env.endRecording st.bd.cmdBuf) ])

/-- The local variables of the two loops of `renderDrawData`, with the calls
made so far. -/
structure LoopState where
  vtxOffset : Nat
  idxOffset : Nat
  boundTextureHandle : Nat
  calls : List Call

/-- One iteration of the inner loop `for (auto cmd : cmdList->CmdBuffer)`. -/
def drawCmd (cmdBuf : Ptr) (DisplaySize : ImVec2) (idxBuffer : MemoryBuffer)
    (ls : LoopState) (cmd : ImDrawCmd) : LoopState :=
  let clipRect : ImVec4 := ⟨cmd.ClipRect.x, cmd.ClipRect.y, cmd.ClipRect.z, cmd.ClipRect.w⟩
  let clip_min : ImVec2 := ⟨clipRect.x, clipRect.y⟩
  let clip_max : ImVec2 := ⟨clipRect.z, clipRect.w⟩
  let clip_size : ImVec2 := ⟨clip_max.x - clip_min.x, clip_max.y - clip_min.y⟩
  if clip_max.x ≤ clip_min.x ∨ clip_max.y ≤ clip_min.y then
    ls
  else
    let ls := { ls with calls := ls.calls ++
      [ Call.record cmdBuf (.SetViewport 0 0 (truncInt DisplaySize.x) (truncInt DisplaySize.y)),
        Call.record cmdBuf (.SetScissor (truncInt clip_min.x) (truncInt clip_min.y)
          (truncInt clip_size.x) (truncInt clip_size.y)) ] }
    let TexID := cmd.TexID
    let ls :=
      if ls.boundTextureHandle ≠ TexID then
        { ls with boundTextureHandle := TexID,
                  calls := ls.calls ++ [Call.record cmdBuf (.BindTexture 0 TexID)] }
      else
        ls
    { ls with calls := ls.calls ++
      [ Call.record cmdBuf (.DrawElementsBaseVertex cmd.ElemCount
          (idxBuffer.address + cmd.IdxOffset * sizeofImDrawIdx + ls.idxOffset)
          cmd.VtxOffset) ] }

/-- One iteration of the outer loop `for (int i = 0; i < drawData->CmdListsCount; i++)`. -/
def drawList (cmdBuf : Ptr) (DisplaySize : ImVec2) (vtxBuffer idxBuffer : MemoryBuffer)
    (ls : LoopState) (cmdList : ImDrawList) : LoopState :=
  let vtxSize := cmdList.VtxBuffer.length * sizeofImDrawVert
  let idxSize := cmdList.IdxBuffer.length * sizeofImDrawIdx
  let ls := { ls with calls := ls.calls ++
    [ Call.record cmdBuf (.BindVertexBuffer 0 (vtxBuffer.address + ls.vtxOffset) vtxSize),
      Call.memcpyVtx (vtxBuffer.address + ls.vtxOffset) cmdList.VtxBuffer,
      Call.memcpyIdx (idxBuffer.address + ls.idxOffset) cmdList.IdxBuffer ] }
  let ls := cmdList.CmdBuffer.foldl (drawCmd cmdBuf DisplaySize idxBuffer) ls
  { ls with vtxOffset := ls.vtxOffset + vtxSize, idxOffset := ls.idxOffset + idxSize }

/-- `ImguiNvnBackend::renderDrawData`. `getBackendData` asserts that `InitBackend`
has created the backend record; `st.bd` is that record. -/
def renderDrawData (env : Env) (st : State) (drawData : ImDrawData) : State :=
  if !drawData.Valid then
    st
  else if drawData.CmdListsCount = 0 then
    st
  else if !st.bd.isInitialized then
    st
  else if st.bd.isUseTestShader then
    renderTestShader env st
  else
    let totalVtxSize := drawData.TotalVtxCount * sizeofImDrawVert
    let (vtx, resizeVtx) := ensureCapacity env st.bd.vtxBuffer totalVtxSize
    let totalIdxSize := drawData.TotalIdxCount * sizeofImDrawIdx
    let (idx, resizeIdx) := ensureCapacity env st.bd.idxBuffer totalIdxSize
    let st := { st with bd := { st.bd with vtxBuffer := some vtx, idxBuffer := some idx },
                        trace := st.trace ++ resizeVtx ++ resizeIdx }
    if !(vtx.ready && idx.ready) then
      st
    else
      let st := { st with
        projMatrix := orthoRH_ZO 0 st.DisplaySize.x st.DisplaySize.y 0 (-1) 1 }
      let setup : List Call :=
        [ .record st.bd.cmdBuf .BeginRecording,
          .record st.bd.cmdBuf .BindProgram,
          .record st.bd.cmdBuf (.BindUniformBuffer UBOSIZE),
          .record st.bd.cmdBuf (.UpdateUniformBuffer sizeofProjMatrix st.projMatrix) ]
        ++ setRenderStates st.bd
      let ls := drawData.CmdLists.foldl (drawList st.bd.cmdBuf st.DisplaySize vtx idx)
        ⟨0, 0, 0, setup⟩
      st.emit (ls.calls ++
        [ .record st.bd.cmdBuf .EndRecording,
          .submitCommands st.bd.queue 1 (env.endRecording st.bd.cmdBuf) ])

/-- `createShaders`: the pre-compiled shader binary is usable when it is not empty. -/
def createShaders (o : SetupOutcome) : Bool :=
  decide (o.shaderBinarySize > 0)

/-- `setupShaders`: each failing step returns `false` at once. -/
def setupShaders (o : SetupOutcome) : Bool :=
  if !o.programInitialize then false
  else if !o.shaderMemoryReady then false
  else if !o.setShaders then false
  else if !o.uniformMemoryReady then false
  else true

/-- `setupFont`: each failing step returns `false` at once. -/
def setupFont (o : SetupOutcome) : Bool :=
  if !o.createSampTexPool then false
  else if !o.samplerPoolInitialize then false
  else if !o.texPoolInitialize then false
  else if !o.createFontPool then false
  else if !o.fontTextureInitialize then false
  else if !o.fontSamplerInitialize then false
  else true

/-- Modelled from the spec: the default member value of
`NvnBackendData::isUseTestShader`, which a header outside the two source files
declares and no statement of the sources assigns. The spec describes no test-shader
mode of the overlay: the switch is off. -/
def isUseTestShaderDefault : Bool := false

/-- `ImguiNvnBackend::InitBackend`. The call `initTestShader()` under
`bd->isUseTestShader` only fills the test quad and makes no traced call. -/
def InitBackend (env : Env) (st : State) (device queue cmdBuf : Ptr) : State :=
  let st := { st with DisplaySize := ⟨1600, 900⟩ }
  let st := { st with
    projMatrix := orthoRH_ZO 0 st.DisplaySize.x st.DisplaySize.y 0 (-1) 1 }
  let bd : NvnBackendData :=
    { device := device, queue := queue, cmdBuf := cmdBuf, isInitialized := false,
      isUseTestShader := isUseTestShaderDefault, vtxBuffer := none, idxBuffer := none,
      texPool := env.texPool, samplerPool := env.samplerPool }
  let bd :=
    if createShaders env.setup then
      if setupShaders env.setup && setupFont env.setup then
        { bd with isInitialized := true }
      else bd
    else bd
  { st with bd := bd, trace := st.trace ++ [.InitBackend device queue cmdBuf] }

/-! ## The hooks: `imgui_nvn.cpp` -/

/-- `setTexturePool`, the wrapper of `nvnCommandBufferSetTexturePool`. -/
def setTexturePool (st : State) (cmdBuf pool : Ptr) : State :=
  let st := { st with __cmdBuf := cmdBuf, __texturePool := pool }
  st.emit [.commandBufferSetTexturePool st.slots.tempCommandSetTexturePoolFunc cmdBuf pool]

/-- `setSamplerPool`, the wrapper of `nvnCommandBufferSetSamplerPool`. -/
def setSamplerPool (st : State) (cmdBuf pool : Ptr) : State :=
  let st := { st with __samplerPool := pool }
  st.emit [.commandBufferSetSamplerPool st.slots.tempCommandSetSamplerPoolFunc cmdBuf pool]

/-- `setCrop`, the wrapper of `nvnWindowSetCrop`. -/
def setCrop (st : State) (window : Ptr) (x y w h : Int) : State :=
  let st := st.emit [.windowSetCrop st.slots.tempSetCropFunc window x y w h]
  if st.hasInitImGui then
    { st with DisplaySize := ⟨(wrapInt32 (w - x) : Int), (wrapInt32 (h - y) : Int)⟩ }
  else
    st

/-- Modelled from the spec: the macro `XENO_ASSERT`, defined in a header outside the
two source files. A registration whose assertion fails is rejected: the failure is
recorded and the statements after the assertion do not run. -/
def XENO_ASSERT (cond : Bool) (msg : String) (st : State) (rest : State → State) : State :=
  if cond then rest st else st.emit [.assertFailed msg]

/-- `nvnImGui::addDrawFunc`. -/
def addDrawFunc (st : State) (func : Callback) : State :=
  XENO_ASSERT (!st.drawQueue.contains func) "Function has already been added to queue!" st
    (fun st => { st with drawQueue := st.drawQueue ++ [func] })

/-- `nvnImGui::addInitFunc`. -/
def addInitFunc (st : State) (func : Callback) : State :=
  XENO_ASSERT (!st.initQueue.contains func) "Function has already been added to queue!" st
    (fun st => { st with initQueue := st.initQueue ++ [func] })

/-- One call of a draw callback inside `procDraw`. -/
def runDrawFunc (env : Env) (st : State) (drawFunc : Callback) : State :=
  let t := env.drawFuncEffect drawFunc (st.__cmdBuf, st.__texturePool, st.__samplerPool)
  { st with __cmdBuf := t.1, __texturePool := t.2.1, __samplerPool := t.2.2,
            trace := st.trace ++ [.drawFunc drawFunc] }

/-- `nvnImGui::procDraw`. `drawData` is what `ImGui::GetDrawData()` returns after
`ImGui::Render()` in this frame. -/
def procDraw (env : Env) (st : State) (drawData : ImDrawData) : State :=
  let st := st.emit [.newFrame, .imguiNewFrame]
  let st := st.drawQueue.foldl (runDrawFunc env) st
  let st := st.emit [.imguiRender]
  renderDrawData env st drawData

/-- `nvnImGui::InitImGui`. -/
def InitImGui (env : Env) (st : State) : Bool × State :=
  if st.nvnDevice ≠ 0 ∧ st.nvnQueue ≠ 0 ∧ st.nvnCmdBuf ≠ 0 then
    let st := st.emit [.InitImGui true, .createContext]
    let st := InitBackend env st st.nvnDevice st.nvnQueue st.nvnCmdBuf
    let st := st.emit [.initKBM, .setPort]
    let st := st.emit (st.initQueue.map Call.initFunc)
    let st := if env.IMGUI_XENO_DRAW_DEMO then addDrawFunc st env.demoWindow else st
    (true, st)
  else
    (false, st.emit [.InitImGui false])

/-- `presentTexture`, the wrapper of `nvnQueuePresentTexture`. -/
def presentTexture (env : Env) (st : State) (queue window : Ptr) (texIndex : Int)
    (drawData : ImDrawData) : State :=
  let buf := st.__cmdBuf
  let pool := st.__texturePool
  let samplerPool := st.__samplerPool
  let st := st.emit [.record buf .EndRecording]
  let st := if st.hasInitImGui then procDraw env st drawData else st
  let st := st.emit [.record buf .BeginRecording]
  let st := setTexturePool st buf pool
  let st := setSamplerPool st buf samplerPool
  let handle := env.endRecording buf
  let st := st.emit [.record buf .EndRecording, .submitCommands queue 1 handle]
  let st := st.emit [.record buf .BeginRecording]
  st.emit [.queuePresentTexture st.slots.tempPresentTexFunc queue window texIndex]

/-- `deviceInit`, the wrapper of `nvnDeviceInitialize`. -/
def deviceInit (env : Env) (st : State) (device builder : Ptr) : NVNboolean × State :=
  let result := env.callDeviceInitialize st.slots.tempDeviceInitFuncPtr device builder
  let st := st.emit [.deviceInitialize st.slots.tempDeviceInitFuncPtr device builder]
  let st := { st with nvnDevice := device }
  let st := st.emit [.loadCPPProcs st.nvnDevice st.slots.tempGetProcAddressFuncPtr]
  (result, st)

/-- `queueInit`, the wrapper of `nvnQueueInitialize`. -/
def queueInit (env : Env) (st : State) (queue builder : Ptr) : NVNboolean × State :=
  let result := env.callQueueInitialize st.slots.tempQueueInitFuncPtr queue builder
  let st := st.emit [.queueInitialize st.slots.tempQueueInitFuncPtr queue builder]
  let st := { st with nvnQueue := queue }
  (result, st)

/-- `cmdBufInit`, the wrapper of `nvnCommandBufferInitialize`. -/
def cmdBufInit (env : Env) (st : State) (buffer device : Ptr) : NVNboolean × State :=
  let result := env.callCommandBufferInitialize st.slots.tempBufferInitFuncPtr buffer device
  let st := st.emit [.commandBufferInitialize st.slots.tempBufferInitFuncPtr buffer device]
  if !st.hasInitImGui then
    let count := st.commandBufferCount
    let st := { st with commandBufferCount := wrapInt32 (count + 1) }
    if count ≠ env.IMGUI_XENO_COMMAND_BUFFER_ID then
      (result, st)
    else
      let st := { st with nvnCmdBuf := buffer }
      let r := InitImGui env st
      (result, { r.2 with hasInitImGui := r.1 })
  else
    (result, st)

/-- `getProc`, handed to the host in place of `nvnDeviceGetProcAddress`. The
resolver is called with the global `nvnDevice`, not with `device`. -/
def getProc (env : Env) (st : State) (device : Ptr) (procName : String) : FuncPtr × State :=
  let _ := device
  let ptr := env.callGetProcAddress st.slots.tempGetProcAddressFuncPtr st.nvnDevice procName
  let st := st.emit [.getProcAddress st.slots.tempGetProcAddressFuncPtr st.nvnDevice procName]
  if procName = "nvnQueueInitialize" then
    (.wrapper .queueInit, { st with slots := { st.slots with tempQueueInitFuncPtr := ptr } })
  else if procName = "nvnCommandBufferInitialize" then
    (.wrapper .cmdBufInit, { st with slots := { st.slots with tempBufferInitFuncPtr := ptr } })
  else if procName = "nvnQueuePresentTexture" then
    (.wrapper .presentTexture, { st with slots := { st.slots with tempPresentTexFunc := ptr } })
  else if procName = "nvnDeviceInitialize" then
    (.wrapper .deviceInit, { st with slots := { st.slots with tempDeviceInitFuncPtr := ptr } })
  else if procName = "nvnCommandBufferSetSamplerPool" then
    (.wrapper .setSamplerPool,
      { st with slots := { st.slots with tempCommandSetSamplerPoolFunc := ptr } })
  else if procName = "nvnCommandBufferSetTexturePool" then
    (.wrapper .setTexturePool,
      { st with slots := { st.slots with tempCommandSetTexturePoolFunc := ptr } })
  else if procName = "nvnWindowSetCrop" then
    (.wrapper .setCrop, { st with slots := { st.slots with tempSetCropFunc := ptr } })
  else
    (ptr, st)

/-- `nvnImGui::NvnBootstrapHook`. `origFn` is the bootstrap loader of the driver. -/
def NvnBootstrapHook (st : State) (funcName : String) (origFn : String → FuncPtr) :
    FuncPtr × State :=
  let result := origFn funcName
  let st := st.emit [.bootstrapLoader funcName]
  if funcName = "nvnDeviceInitialize" then
    (.wrapper .deviceInit, { st with slots := { st.slots with tempDeviceInitFuncPtr := result } })
  else if funcName = "nvnDeviceGetProcAddress" then
    (.wrapper .getProc,
      { st with slots := { st.slots with tempGetProcAddressFuncPtr := result } })
  else
    (result, st)

/-- The seven names that `getProc` answers with a wrapper. -/
def hookedNames : List String :=
  [ "nvnQueueInitialize", "nvnCommandBufferInitialize", "nvnQueuePresentTexture",
    "nvnDeviceInitialize", "nvnCommandBufferSetSamplerPool",
    "nvnCommandBufferSetTexturePool", "nvnWindowSetCrop" ]

/-- A sample environment: target ordinal 2, a resolver that knows every name, an
allocator that rounds sizes up to whole pages. -/
def Env.sample : Env where
  IMGUI_XENO_COMMAND_BUFFER_ID := 2
  IMGUI_XENO_DRAW_DEMO := false
  demoWindow := 1
  callGetProcAddress := fun _ _ procName => .driver (4096 + procName.length)
  callDeviceInitialize := fun _ _ _ => 1
  callQueueInitialize := fun _ _ _ => 1
  callCommandBufferInitialize := fun _ _ _ => 1
  endRecording := fun cmdBuf => cmdBuf + 1
  newMemoryBuffer := fun size => ⟨65536, (size + 4095) / 4096 * 4096, true⟩
  setup := ⟨16, true, true, true, true, true, true, true, true, true, true⟩
  texPool := 700
  samplerPool := 800
  drawFuncEffect := fun _ t => t

/-- A driver that resolves no name at all: every lookup yields null. -/
def Env.unresolving : Env :=
  { Env.sample with callGetProcAddress := fun _ _ _ => .null }

/-- Whether a trace entry marks an execution of `InitImGui`. -/
def Call.isInitImGui : Call → Bool
  | .InitImGui _ => true
  | _ => false

/-- Number of executions of `InitImGui` recorded so far. -/
def State.initImGuiRuns (st : State) : Nat :=
  st.trace.countP Call.isInitImGui

/-- A sequence of `cmdBufInit` calls; each entry is the `(buffer, device)` pair of
one call, in call order. -/
def cmdBufInits (env : Env) (st : State) (calls : List (Ptr × Ptr)) : State :=
  calls.foldl (fun s c => (cmdBufInit env s c.1 c.2).2) st

/-- A long run of creations: two buffers, then buffer `7` at ordinal 2, then
`2^32 - 1` further buffers, then buffer `9` at ordinal `2^32 + 2`. -/
def wrapAroundCalls : List (Ptr × Ptr) :=
  [(5, 0), (5, 0), (7, 0)] ++ (List.replicate 4294967295 (5, 0) ++ [(9, 0)])

/-- The skip test of the inner loop:
`clip_max.x <= clip_min.x || clip_max.y <= clip_min.y`. -/
def ImDrawCmd.clipped (cmd : ImDrawCmd) : Prop :=
  cmd.ClipRect.z ≤ cmd.ClipRect.x ∨ cmd.ClipRect.w ≤ cmd.ClipRect.y

instance (cmd : ImDrawCmd) : Decidable cmd.clipped :=
  inferInstanceAs (Decidable (_ ∨ _))

/-- Closed form of the inner loop: the calls made for the commands of one list,
given the texture handle bound on entry. -/
def cmdBufferCalls (cmdBuf : Ptr) (DisplaySize : ImVec2) (idxBuffer : MemoryBuffer)
    (idxOffset : Nat) : Nat → List ImDrawCmd → List Call
  | _, [] => []
  | bound, cmd :: cmds =>
    if cmd.clipped then
      cmdBufferCalls cmdBuf DisplaySize idxBuffer idxOffset bound cmds
    else
      [ Call.record cmdBuf (.SetViewport 0 0 (truncInt DisplaySize.x) (truncInt DisplaySize.y)),
        Call.record cmdBuf (.SetScissor (truncInt cmd.ClipRect.x) (truncInt cmd.ClipRect.y)
          (truncInt (cmd.ClipRect.z - cmd.ClipRect.x))
          (truncInt (cmd.ClipRect.w - cmd.ClipRect.y))) ]
      ++ (if bound ≠ cmd.TexID then [Call.record cmdBuf (.BindTexture 0 cmd.TexID)] else [])
      ++ [ Call.record cmdBuf (.DrawElementsBaseVertex cmd.ElemCount
            (idxBuffer.address + cmd.IdxOffset * sizeofImDrawIdx + idxOffset) cmd.VtxOffset) ]
      ++ cmdBufferCalls cmdBuf DisplaySize idxBuffer idxOffset cmd.TexID cmds

/-- Closed form of the inner loop: the texture handle bound after the commands. -/
def boundAfter : Nat → List ImDrawCmd → Nat
  | bound, [] => bound
  | bound, cmd :: cmds => if cmd.clipped then boundAfter bound cmds else boundAfter cmd.TexID cmds

/-- Closed form of the outer loop: the calls made for the lists of a frame, given
the running offsets and the texture handle bound on entry. -/
def cmdListsCalls (cmdBuf : Ptr) (DisplaySize : ImVec2) (vtxBuffer idxBuffer : MemoryBuffer) :
    Nat → Nat → Nat → List ImDrawList → List Call
  | _, _, _, [] => []
  | vtxOffset, idxOffset, bound, cmdList :: rest =>
    [ Call.record cmdBuf (.BindVertexBuffer 0 (vtxBuffer.address + vtxOffset)
        (cmdList.VtxBuffer.length * sizeofImDrawVert)),
      Call.memcpyVtx (vtxBuffer.address + vtxOffset) cmdList.VtxBuffer,
      Call.memcpyIdx (idxBuffer.address + idxOffset) cmdList.IdxBuffer ]
    ++ cmdBufferCalls cmdBuf DisplaySize idxBuffer idxOffset bound cmdList.CmdBuffer
    ++ cmdListsCalls cmdBuf DisplaySize vtxBuffer idxBuffer
        (vtxOffset + cmdList.VtxBuffer.length * sizeofImDrawVert)
        (idxOffset + cmdList.IdxBuffer.length * sizeofImDrawIdx)
        (boundAfter bound cmdList.CmdBuffer) rest

/-- Whether `renderDrawData` records a frame: the draw data is valid and not empty,
the backend is initialized and not in test-shader mode, and both buffers are ready
after the resize step. -/
def recordsFrame (env : Env) (st : State) (drawData : ImDrawData) : Prop :=
  drawData.Valid = true ∧ drawData.CmdListsCount ≠ 0 ∧ st.bd.isInitialized = true
    ∧ st.bd.isUseTestShader = false
    ∧ (ensureCapacity env st.bd.vtxBuffer (drawData.TotalVtxCount * sizeofImDrawVert)).1.ready
        = true
    ∧ (ensureCapacity env st.bd.idxBuffer (drawData.TotalIdxCount * sizeofImDrawIdx)).1.ready
        = true

instance (env : Env) (st : State) (drawData : ImDrawData) :
    Decidable (recordsFrame env st drawData) :=
  inferInstanceAs (Decidable (_ ∧ _))

/-- The calls with which a recorded frame opens, up to `setRenderStates`. -/
def frameSetup (bd : NvnBackendData) (projMatrix : Matrix44f) : List Call :=
  [ Call.record bd.cmdBuf .BeginRecording,
    Call.record bd.cmdBuf .BindProgram,
    Call.record bd.cmdBuf (.BindUniformBuffer UBOSIZE),
    Call.record bd.cmdBuf (.UpdateUniformBuffer sizeofProjMatrix projMatrix) ]
  ++ setRenderStates bd

/-- The calls by which a wrapper forwards to a cached original entry point. -/
def Call.isForward : Call → Bool
  | .deviceInitialize _ _ _ => true
  | .queueInitialize _ _ _ => true
  | .commandBufferInitialize _ _ _ => true
  | .commandBufferSetTexturePool _ _ _ => true
  | .commandBufferSetSamplerPool _ _ _ => true
  | .windowSetCrop _ _ _ _ _ _ => true
  | .queuePresentTexture _ _ _ _ => true
  | _ => false

/-- Calls of the original `nvnDeviceInitialize`. -/
def Call.isDeviceInitialize : Call → Bool
  | .deviceInitialize _ _ _ => true
  | _ => false

/-- Calls of the original `nvnQueueInitialize`. -/
def Call.isQueueInitialize : Call → Bool
  | .queueInitialize _ _ _ => true
  | _ => false

/-- Calls of the original `nvnCommandBufferInitialize`. -/
def Call.isCommandBufferInitialize : Call → Bool
  | .commandBufferInitialize _ _ _ => true
  | _ => false

/-- Calls of the original `nvnCommandBufferSetTexturePool`. -/
def Call.isSetTexturePool : Call → Bool
  | .commandBufferSetTexturePool _ _ _ => true
  | _ => false

/-- Calls of the original `nvnCommandBufferSetSamplerPool`. -/
def Call.isSetSamplerPool : Call → Bool
  | .commandBufferSetSamplerPool _ _ _ => true
  | _ => false

/-- Calls of the original `nvnWindowSetCrop`. -/
def Call.isSetCrop : Call → Bool
  | .windowSetCrop _ _ _ _ _ _ => true
  | _ => false

/-- Calls of the original `nvnQueuePresentTexture`. -/
def Call.isPresentTexture : Call → Bool
  | .queuePresentTexture _ _ _ _ => true
  | _ => false

/-- The calls made by one execution of `renderDrawData`. -/
def frameCalls (env : Env) (st : State) (drawData : ImDrawData) : List Call :=
  (renderDrawData env st drawData).trace.drop st.trace.length

/-- A clip rectangle of strictly positive width and height. -/
def ImDrawCmd.hasPositiveExtent (cmd : ImDrawCmd) : Prop :=
  0 < cmd.ClipRect.z - cmd.ClipRect.x ∧ 0 < cmd.ClipRect.w - cmd.ClipRect.y

instance (cmd : ImDrawCmd) : Decidable cmd.hasPositiveExtent :=
  inferInstanceAs (Decidable (_ ∧ _))

/-- All draw commands of a frame: the command lists concatenated in the order given. -/
def ImDrawData.commands (drawData : ImDrawData) : List ImDrawCmd :=
  drawData.CmdLists.flatMap (fun cmdList => cmdList.CmdBuffer)

/-- The commands of a frame that are drawn: those with a non-degenerate clip, in order. -/
def ImDrawData.drawnCommands (drawData : ImDrawData) : List ImDrawCmd :=
  drawData.commands.filter (fun cmd => decide cmd.hasPositiveExtent)

/-- A `DrawElementsBaseVertex` call as the claims describe it. -/
structure DrawCall where
  count : Nat
  baseVertex : Nat
  indexAddress : Nat
  deriving DecidableEq, Repr

/-- The draw call behind a trace entry, if it is a `DrawElementsBaseVertex`. -/
def Call.drawCall? : Call → Option DrawCall
  | .record _ (.DrawElementsBaseVertex count indexBuffer baseVertex) =>
    some ⟨count, baseVertex, indexBuffer⟩
  | _ => none

/-- The `DrawElementsBaseVertex` calls of a trace, in order. -/
def drawCalls (calls : List Call) : List DrawCall :=
  calls.filterMap Call.drawCall?

/-- The command lists concatenated in the order given, each command paired with the
address at which the indices of its list start in the index buffer: the lists are
laid out one after the other from `start`. -/
def indexedCommands : Nat → List ImDrawList → List (Nat × ImDrawCmd)
  | _, [] => []
  | start, cmdList :: rest =>
    cmdList.CmdBuffer.map (fun cmd => (start, cmd))
      ++ indexedCommands (start + cmdList.IdxBuffer.length * sizeofImDrawIdx) rest

/-- The draw calls a frame is expected to make: the concatenated commands, those
with a non-degenerate clip kept in order, one call each. -/
def expectedDrawCalls (indexBuffer : Nat) (lists : List ImDrawList) : List DrawCall :=
  ((indexedCommands indexBuffer lists).filter (fun p => decide p.2.hasPositiveExtent)).map
    (fun p => ⟨p.2.ElemCount, p.2.VtxOffset, p.1 + p.2.IdxOffset * sizeofImDrawIdx⟩)

/-- A sample state in which the overlay is ready: device, queue and command buffer
recorded, backend initialized, no geometry buffer allocated yet. -/
def State.ready : State :=
  { State.initial with
    nvnDevice := 11, nvnQueue := 12, nvnCmdBuf := 13, hasInitImGui := true,
    commandBufferCount := 3, DisplaySize := ⟨1600, 900⟩,
    bd := ⟨11, 12, 13, true, false, none, none, 700, 800⟩ }

/-- A sample draw command: a quad of six indices with the given clip and texture. -/
def sampleCmd (clip : ImVec4) (texID idxOffset : Nat) : ImDrawCmd :=
  ⟨clip, texID, 0, idxOffset, 6⟩

/-- A sample frame of one list with two quads, both with a valid clip and texture
handle 257. -/
def twoQuads : ImDrawData :=
  { Valid := true,
    CmdLists := [⟨[sampleCmd ⟨0, 0, 100, 100⟩ 257 0, sampleCmd ⟨10, 10, 50, 50⟩ 257 6],
      List.replicate 12 0, List.replicate 8 ⟨⟨0, 0⟩, ⟨0, 0⟩, 0⟩⟩],
    TotalIdxCount := 12, TotalVtxCount := 8 }

/-- The command behind a trace entry, if it is a `BindTexture` or a
`DrawElementsBaseVertex`. -/
def Call.bindOrDraw? : Call → Option Command
  | .record _ (.BindTexture slot handle) => some (.BindTexture slot handle)
  | .record _ (.DrawElementsBaseVertex count indexBuffer baseVertex) =>
    some (.DrawElementsBaseVertex count indexBuffer baseVertex)
  | _ => none

/-- The texture binds and draw calls of a trace, in order. -/
def bindsAndDraws (calls : List Call) : List Command :=
  calls.filterMap Call.bindOrDraw?

/-- The sample frame `twoQuads`, marked invalid. -/
def invalidQuads : ImDrawData :=
  { twoQuads with Valid := false }

/-- A sample state whose backend setup has failed: `isInitialized` is false. -/
def State.setupFailed : State :=
  { State.ready with bd := { State.ready.bd with isInitialized := false } }

/-- The drawn commands of a frame, each with the address at which the indices of its
list start: the concatenated lists, commands with a degenerate clip left out. -/
def drawnIndexed (indexBuffer : Nat) (lists : List ImDrawList) : List (Nat × ImDrawCmd) :=
  (indexedCommands indexBuffer lists).filter (fun p => decide p.2.hasPositiveExtent)

/-- The maximal runs of consecutive drawn commands that share a texture handle. -/
def textureRuns (cmds : List (Nat × ImDrawCmd)) : List (List (Nat × ImDrawCmd)) :=
  cmds.splitBy (fun a b => a.2.TexID == b.2.TexID)

/-- The draw call of one drawn command. -/
def drawCommand (p : Nat × ImDrawCmd) : Command :=
  .DrawElementsBaseVertex p.2.ElemCount (p.1 + p.2.IdxOffset * sizeofImDrawIdx) p.2.VtxOffset

/-- What one run is expected to record: one `BindTexture` of the handle of the run,
then the draw calls of its commands. -/
def runCommands : List (Nat × ImDrawCmd) → List Command
  | [] => []
  | p :: ps => .BindTexture 0 p.2.TexID :: (p :: ps).map drawCommand

/-- The binds and draw calls a frame is expected to record: for each maximal run of
drawn commands with the same texture handle, one bind right before its draw calls. -/
def expectedBindsAndDraws (indexBuffer : Nat) (lists : List ImDrawList) : List Command :=
  (textureRuns (drawnIndexed indexBuffer lists)).flatMap runCommands

/-- Closed form of the rebind test over the drawn commands: the binds and draw calls
recorded when `bound` is the value of `boundTextureHandle` on entry. -/
def texStream : Nat → List (Nat × ImDrawCmd) → List Command
  | _, [] => []
  | bound, p :: ps =>
    (if bound ≠ p.2.TexID then [Command.BindTexture 0 p.2.TexID] else [])
      ++ drawCommand p :: texStream p.2.TexID ps

/-- The texture handle bound after the drawn commands `cmds`. -/
def lastBound : Nat → List (Nat × ImDrawCmd) → Nat
  | bound, [] => bound
  | _, p :: ps => lastBound p.2.TexID ps

/-- A sample frame of one quad with a valid clip and texture handle 0. -/
def zeroHandleQuad : ImDrawData :=
  { Valid := true,
    CmdLists := [⟨[sampleCmd ⟨0, 0, 100, 100⟩ 0 0],
      List.replicate 6 0, List.replicate 4 ⟨⟨0, 0⟩, ⟨0, 0⟩, 0⟩⟩],
    TotalIdxCount := 6, TotalVtxCount := 4 }

/-- The resize step repeated on one buffer for a sequence of required sizes; returns
the buffer held at the end and all calls made. -/
def ensureCapacities (env : Env) (buffer : MemoryBuffer) (sizes : List Nat) :
    MemoryBuffer × List Call :=
  sizes.foldl
    (fun acc totalSize =>
      ((ensureCapacity env (some acc.1) totalSize).1,
        acc.2 ++ (ensureCapacity env (some acc.1) totalSize).2))
    (buffer, [])

/-- Trace entries that are a `BindTexture`. -/
def Call.isBindTexture : Call → Bool
  | .record _ (.BindTexture _ _) => true
  | _ => false

/-- Trace entries that are a `DrawElementsBaseVertex`. -/
def Call.isDrawElements : Call → Bool
  | .record _ (.DrawElementsBaseVertex _ _ _) => true
  | _ => false

/-- Whether every `BindTexture` of a trace is directly followed by a
`DrawElementsBaseVertex`, with no other call in between. -/
def bindsDirectlyBeforeDraws : List Call → Bool
  | [] => true
  | c :: rest =>
    (!c.isBindTexture || (match rest with
      | d :: _ => d.isDrawElements
      | [] => false))
    && bindsDirectlyBeforeDraws rest

/-- The clip-space `x` and `y` of the point `(x, y, 0, 1)` under a projection matrix
whose first index is the column, as `orthoRH_ZO` fills it: the product of the
matrix with the column vector of the point. -/
def clipPosition (m : Matrix44f) (x y : ℚ) : ℚ × ℚ :=
  (m 0 0 * x + m 1 0 * y + m 2 0 * 0 + m 3 0 * 1,
   m 0 1 * x + m 1 1 * y + m 2 1 * 0 + m 3 1 * 1)

/-- A sample run of the start-up: device 11 and queue 12 are known, three command
buffers are created, and the third one (ordinal 2, buffer 13) starts the overlay. -/
def State.started : State :=
  cmdBufInits Env.sample { State.initial with nvnDevice := 11, nvnQueue := 12 }
    [(5, 11), (6, 11), (13, 11)]

/-- A valid frame without any command list: nothing was drawn in this frame. -/
def emptyFrame : ImDrawData :=
  { Valid := true, CmdLists := [], TotalIdxCount := 0, TotalVtxCount := 0 }

/-- One registration of a callback: a call of `addDrawFunc` or of `addInitFunc`. -/
inductive Registration where
  | draw (func : Callback)
  | init (func : Callback)
  deriving DecidableEq, Repr

/-- The call behind one registration. -/
def register (st : State) : Registration → State
  | .draw func => addDrawFunc st func
  | .init func => addInitFunc st func

/-- A sequence of registrations, in call order. -/
def registerAll (st : State) (regs : List Registration) : State :=
  regs.foldl register st

/-- The callbacks handed to `addDrawFunc` in a sequence of registrations, in call order. -/
def drawRegistrations (regs : List Registration) : List Callback :=
  regs.filterMap (fun r => match r with
    | .draw func => some func
    | .init _ => none)

/-- The callbacks handed to `addInitFunc` in a sequence of registrations, in call order. -/
def initRegistrations (regs : List Registration) : List Callback :=
  regs.filterMap (fun r => match r with
    | .draw _ => none
    | .init func => some func)

/-- First-registration order: every callback of the sequence once, at the place of
its first registration. -/
def firstRegistrations : List Callback → List Callback
  | [] => []
  | func :: rest => func :: (firstRegistrations rest).filter (fun g => decide (g ≠ func))

/-- The kinds of call that the two loops of `renderDrawData` make: vertex-buffer,
viewport, scissor and texture binds and draw calls recorded into `cmdBuf`, and the
two copies. -/
def Call.isLoopCall (cmdBuf : Ptr) : Call → Bool
  | .record b (.BindVertexBuffer _ _ _) => b == cmdBuf
  | .record b (.SetViewport _ _ _ _) => b == cmdBuf
  | .record b (.SetScissor _ _ _ _) => b == cmdBuf
  | .record b (.BindTexture _ _) => b == cmdBuf
  | .record b (.DrawElementsBaseVertex _ _ _) => b == cmdBuf
  | .memcpyVtx _ _ => true
  | .memcpyIdx _ _ => true
  | _ => false

/-- Calls that record a command into a command buffer or submit one to a queue. -/
def Call.isCommand : Call → Bool
  | .record _ _ => true
  | .submitCommands _ _ _ => true
  | _ => false

/-- Calls that open or close a recording, or submit one. -/
def Call.isFrameBoundary : Call → Bool
  | .record _ .BeginRecording => true
  | .record _ .EndRecording => true
  | .submitCommands _ _ _ => true
  | _ => false

/-- The `BeginRecording` and `EndRecording` calls that a trace makes on the command
buffer `buf`, in order. -/
def recordingCalls (buf : Ptr) (calls : List Call) : List Command :=
  calls.filterMap (fun c => match c with
    | .record b .BeginRecording => if b = buf then some Command.BeginRecording else none
    | .record b .EndRecording => if b = buf then some Command.EndRecording else none
    | _ => none)

/-- Whether a sequence of recording calls strictly alternates, starts with
`EndRecording` and finishes with `BeginRecording`. -/
def alternatesEndBegin : List Command → Bool
  | .EndRecording :: .BeginRecording :: rest => rest.isEmpty || alternatesEndBegin rest
  | _ => false

/-- What `renderTestShader` records once its vertex buffer `vtx` is ready. -/
def testShaderCalls (env : Env) (st : State) (vtx : MemoryBuffer) : List Call :=
  [ Call.createQuad (truncInt (st.DisplaySize.x / 2 - 3)) (truncInt (st.DisplaySize.y / 2 - 3))
      (truncInt 3) (truncInt 3),
    Call.record st.bd.cmdBuf .BeginRecording,
    Call.record st.bd.cmdBuf .BindProgram,
    Call.record st.bd.cmdBuf (.BindUniformBuffer UBOSIZE),
    Call.record st.bd.cmdBuf (.UpdateUniformBuffer sizeofProjMatrix st.projMatrix),
    Call.record st.bd.cmdBuf (.BindVertexBuffer 0 vtx.address vtx.poolSize) ]
  ++ setRenderStates st.bd
  ++ [ Call.record st.bd.cmdBuf (.DrawArrays 0 6),
       Call.record st.bd.cmdBuf .EndRecording,
       Call.submitCommands st.bd.queue 1 (env.endRecording st.bd.cmdBuf) ]

/-- The calls made by one execution of `presentTexture`. -/
def presentCalls (env : Env) (st : State) (queue window : Ptr) (texIndex : Int)
    (drawData : ImDrawData) : List Call :=
  (presentTexture env st queue window texIndex drawData).trace.drop st.trace.length

/-- The state in which `procDraw` calls `renderDrawData`: the frame is begun, the
draw callbacks have run in queue order and `ImGui::Render` has been called. -/
def procDrawMid (env : Env) (st : State) : State :=
  let st := st.emit [.newFrame, .imguiNewFrame]
  let st := st.drawQueue.foldl (runDrawFunc env) st
  st.emit [.imguiRender]

/-- The calls of the overlay pass inside `presentTexture`: those of `procDraw` once
the overlay is started, none before. -/
def overlayCalls (env : Env) (st : State) (drawData : ImDrawData) : List Call :=
  if st.hasInitImGui = true then
    [Call.newFrame, Call.imguiNewFrame] ++ st.drawQueue.map Call.drawFunc ++ [Call.imguiRender]
      ++ frameCalls env (procDrawMid env (st.emit [.record st.__cmdBuf .EndRecording])) drawData
  else []

/-- A sample environment whose draw callbacks overwrite all three tracked values. -/
def Env.clobbering : Env :=
  { Env.sample with drawFuncEffect := fun _ _ => (99, 98, 97) }

/-- A sample state of a running host: the overlay is ready, one draw callback is
registered, and the host tracks command buffer 21 with pools 22 and 23. -/
def State.hostRecording : State :=
  { State.ready with drawQueue := [4], __cmdBuf := 21, __texturePool := 22, __samplerPool := 23 }

/-- A sample environment whose allocator has no memory left: every new buffer
comes back not ready. -/
def Env.outOfMemory : Env :=
  { Env.sample with newMemoryBuffer := fun _ => ⟨0, 0, false⟩ }

/-- One call of the host into the overlay, as far as the callbacks are concerned:
a registration, the creation of a command buffer, or a present. -/
inductive HostCall where
  | addDrawFunc (func : Callback)
  | addInitFunc (func : Callback)
  | cmdBufInit (buffer device : Ptr)
  | presentTexture (queue window : Ptr) (texIndex : Int) (drawData : ImDrawData)

/-- The state after one call of the host. -/
def hostStep (env : Env) (st : State) : HostCall → State
  | .addDrawFunc func => addDrawFunc st func
  | .addInitFunc func => addInitFunc st func
  | .cmdBufInit buffer device => (cmdBufInit env st buffer device).2
  | .presentTexture queue window texIndex drawData =>
    presentTexture env st queue window texIndex drawData

/-- The state after a sequence of calls of the host, in call order. -/
def hostRun (env : Env) (st : State) (calls : List HostCall) : State :=
  calls.foldl (hostStep env) st

/-- The trace entries that a sequence of calls of the host appends. -/
def hostCalls (env : Env) (st : State) (calls : List HostCall) : List Call :=
  (hostRun env st calls).trace.drop st.trace.length

/-- The callback behind a trace entry, if it is the invocation of an init callback. -/
def Call.initFunc? : Call → Option Callback
  | .initFunc f => some f
  | _ => none

/-- The init callbacks that a trace invokes, in order. -/
def initCalls (calls : List Call) : List Callback :=
  calls.filterMap Call.initFunc?

/-- The callback behind a trace entry, if it is the invocation of a draw callback. -/
def Call.drawFunc? : Call → Option Callback
  | .drawFunc f => some f
  | _ => none

/-- The draw callbacks that a trace invokes, in order. -/
def drawFuncCalls (calls : List Call) : List Callback :=
  calls.filterMap Call.drawFunc?

/-- Trace entries that open a per-frame pass: the `newFrame` call at the start of
`procDraw`. -/
def Call.isNewFrame : Call → Bool
  | .newFrame => true
  | _ => false

/-- Whether no init callback is invoked once the first per-frame pass has begun. -/
def noInitAfterFrame : List Call → Bool
  | [] => true
  | c :: rest => if c.isNewFrame then (initCalls rest).isEmpty else noInitAfterFrame rest

/-- The kinds of call that `renderDrawData` makes: commands, submissions, buffer
management and copies. -/
def Call.isBackendCall : Call → Bool
  | .record _ _ => true
  | .submitCommands _ _ _ => true
  | .finalizeBuffer _ => true
  | .freeBuffer _ => true
  | .newMemoryBuffer _ => true
  | .memcpyVtx _ _ => true
  | .memcpyIdx _ _ => true
  | .createQuad _ _ _ _ => true
  | _ => false

/-- The callbacks handed to `addDrawFunc` in a sequence of calls of the host. -/
def HostCall.drawFuncs (calls : List HostCall) : List Callback :=
  calls.filterMap (fun c => match c with
    | .addDrawFunc func => some func
    | _ => none)

/-- The callbacks handed to `addInitFunc` in a sequence of calls of the host. -/
def HostCall.initFuncs (calls : List HostCall) : List Callback :=
  calls.filterMap (fun c => match c with
    | .addInitFunc func => some func
    | _ => none)

/-- A sample start of the host: device 11 and queue 12 are known, nothing else has
happened. -/
def State.booted : State :=
  { State.initial with nvnDevice := 11, nvnQueue := 12 }

/-- A sample run in which an init callback is registered too late: callback 41 is
registered, three command buffers are created (the third one starts the overlay),
then callback 42 is registered, then a frame is presented. -/
def lateRegistration : List HostCall :=
  [ .addInitFunc 41, .addDrawFunc 51, .cmdBufInit 5 11, .cmdBufInit 6 11, .cmdBufInit 13 11,
    .addInitFunc 42, .presentTexture 12 30 0 twoQuads ]

/-- Modelled from the spec: the macro `ALIGN_UP`, defined in a header outside the two
source files: `x` rounded up to the next multiple of the alignment `a`. -/
def ALIGN_UP (x a : Int) : Int :=
  (x + (a - 1)) / a * a

/-- What `setupFont` asks of the memory pool of the two descriptor pools: the size
handed to `createPool`, and the offset and descriptor count handed to
`samplerPool.Initialize` and to `texPool.Initialize`. -/
structure DescriptorPools where
  totalPoolSize : Int
  samplerOffset : Int
  samplerCount : Int
  textureOffset : Int
  textureCount : Int
  deriving DecidableEq, Repr

/-- The pool sizing of `setupFont`. `sampDescSize` and `texDescSize` are what the
driver reports for `SAMPLER_DESCRIPTOR_SIZE` and `TEXTURE_DESCRIPTOR_SIZE`;
`MaxSampDescriptors` and `MaxTexDescriptors` are constants of a header outside the
two source files. All three sizes are computed in `int`. -/
def setupFontPools (MaxSampDescriptors MaxTexDescriptors : Nat)
    (sampDescSize texDescSize : Int) : DescriptorPools :=
  let sampMemPoolSize := wrapInt32 (sampDescSize * MaxSampDescriptors)
  let texMemPoolSize := wrapInt32 (texDescSize * MaxTexDescriptors)
  let totalPoolSize := wrapInt32 (ALIGN_UP (wrapInt32 (sampMemPoolSize + texMemPoolSize)) 0x1000)
  { totalPoolSize := totalPoolSize,
    samplerOffset := 0, samplerCount := MaxSampDescriptors,
    textureOffset := sampMemPoolSize, textureCount := MaxTexDescriptors }

/-- Trace entries that open a recording. -/
def Call.isBeginRecording : Call → Bool
  | .record _ .BeginRecording => true
  | _ => false

/-- Trace entries that close a recording. -/
def Call.isEndRecording : Call → Bool
  | .record _ .EndRecording => true
  | _ => false

/-- Trace entries that submit a command handle to a queue. -/
def Call.isSubmit : Call → Bool
  | .submitCommands _ _ _ => true
  | _ => false

/-- Trace entries that record a draw call of either kind. -/
def Call.isDrawCall : Call → Bool
  | .record _ (.DrawElementsBaseVertex _ _ _) => true
  | .record _ (.DrawArrays _ _) => true
  | _ => false

/-- A sample frame of one list whose only command has a clip rectangle of zero width. -/
def degenerateQuad : ImDrawData :=
  { Valid := true,
    CmdLists := [⟨[sampleCmd ⟨10, 10, 10, 50⟩ 257 0],
      List.replicate 6 0, List.replicate 4 ⟨⟨0, 0⟩, ⟨0, 0⟩, 0⟩⟩],
    TotalIdxCount := 6, TotalVtxCount := 4 }

/-- The destination address and byte size of a trace entry that copies vertices. -/
def Call.vtxCopy? : Call → Option (Nat × Nat)
  | .memcpyVtx dst data => some (dst, data.length * sizeofImDrawVert)
  | _ => none

/-- The vertex copies of a trace, in order: destination address and byte size. -/
def vtxCopies (calls : List Call) : List (Nat × Nat) :=
  calls.filterMap Call.vtxCopy?

/-- The destination address and byte size of a trace entry that copies indices. -/
def Call.idxCopy? : Call → Option (Nat × Nat)
  | .memcpyIdx dst data => some (dst, data.length * sizeofImDrawIdx)
  | _ => none

/-- The index copies of a trace, in order: destination address and byte size. -/
def idxCopies (calls : List Call) : List (Nat × Nat) :=
  calls.filterMap Call.idxCopy?

/-- Arrays of the given byte sizes laid out one after the other from the address
`start`: the destination address and the byte size of each. -/
def copyPlan : Nat → List Nat → List (Nat × Nat)
  | _, [] => []
  | start, size :: rest => (start, size) :: copyPlan (start + size) rest

/-- Byte sizes of the vertex arrays of the command lists, in order. -/
def vtxSizes (lists : List ImDrawList) : List Nat :=
  lists.map (fun cmdList => cmdList.VtxBuffer.length * sizeofImDrawVert)

/-- Byte sizes of the index arrays of the command lists, in order. -/
def idxSizes (lists : List ImDrawList) : List Nat :=
  lists.map (fun cmdList => cmdList.IdxBuffer.length * sizeofImDrawIdx)

/-- A sample frame of two lists: a quad of four vertices and six indices, then a
triangle of three vertices and three indices. -/
def twoLists : ImDrawData :=
  { Valid := true,
    CmdLists :=
      [ ⟨[sampleCmd ⟨0, 0, 100, 100⟩ 257 0], List.replicate 6 0,
          List.replicate 4 ⟨⟨0, 0⟩, ⟨0, 0⟩, 0⟩⟩,
        ⟨[⟨⟨0, 0, 50, 50⟩, 257, 0, 0, 3⟩], List.replicate 3 0,
          List.replicate 3 ⟨⟨0, 0⟩, ⟨0, 0⟩, 0⟩⟩ ],
    TotalIdxCount := 9, TotalVtxCount := 7 }

/-! ## Theorems -/

/-- C1: for a name outside the seven hooked ones `getProc` returns what the driver
resolver returns for that name and leaves every cached slot as it was, whatever
the `device` argument; `NvnBootstrapHook` returns `origFn(name)` for every name
other than `nvnDeviceInitialize` and `nvnDeviceGetProcAddress`. -/
theorem getProc_unhooked_passthrough (env : Env) (st : State) (device : Ptr)
    (procName funcName : String) (origFn : String → FuncPtr) :
    (procName ∉ hookedNames →
      (getProc env st device procName).1
          = env.callGetProcAddress st.slots.tempGetProcAddressFuncPtr st.nvnDevice procName
        ∧ (getProc env st device procName).2.slots = st.slots)
    ∧ (funcName ≠ "nvnDeviceInitialize" → funcName ≠ "nvnDeviceGetProcAddress" →
        (NvnBootstrapHook st funcName origFn).1 = origFn funcName) := by
  refine ⟨fun h => ?_, fun h1 h2 => ?_⟩
  · simp only [hookedNames, List.mem_cons, List.mem_singleton, not_or, List.not_mem_nil,
      or_false] at h
    obtain ⟨h1, h2, h3, h4, h5, h6, h7⟩ := h
    simp [getProc, h1, h2, h3, h4, h5, h6, h7, State.emit]
  · simp [NvnBootstrapHook, h1, h2]

/-- Witness of C1 on the sample environment: `nvnCommandBufferBeginRecording` and
the bootstrap name `nvnBootstrapLoader` are passed through. -/
theorem getProc_unhooked_passthrough_witness :
    ((getProc Env.sample State.initial 7 "nvnCommandBufferBeginRecording").1
        = FuncPtr.driver 4126
      ∧ (getProc Env.sample State.initial 7 "nvnCommandBufferBeginRecording").2.slots
        = State.initial.slots)
    ∧ (NvnBootstrapHook State.initial "nvnBootstrapLoader" (fun _ => FuncPtr.driver 9)).1
        = FuncPtr.driver 9 :=
  ⟨(getProc_unhooked_passthrough Env.sample State.initial 7
      "nvnCommandBufferBeginRecording" "nvnBootstrapLoader" (fun _ => FuncPtr.driver 9)).1
      (by decide),
   (getProc_unhooked_passthrough Env.sample State.initial 7
      "nvnCommandBufferBeginRecording" "nvnBootstrapLoader" (fun _ => FuncPtr.driver 9)).2
      (by decide) (by decide)⟩

/-- Counterexample to C2 as stated: the driver resolves `nvnQueueInitialize` to null,
yet `getProc` answers with the address of `queueInit`, which is not null. -/
theorem getProc_null_hooked_counterexample :
    Env.unresolving.callGetProcAddress State.initial.slots.tempGetProcAddressFuncPtr
        State.initial.nvnDevice "nvnQueueInitialize" = FuncPtr.null
      ∧ (getProc Env.unresolving State.initial 0 "nvnQueueInitialize").1
          = FuncPtr.wrapper Wrapper.queueInit
      ∧ (getProc Env.unresolving State.initial 0 "nvnQueueInitialize").1 ≠ FuncPtr.null := by
  decide

/-- C2, amended: for a name outside the seven hooked ones, a null answer of the
driver resolver makes `getProc` return null; for each hooked name `getProc` returns
a wrapper address, which is never null, whatever the driver answered. -/
theorem getProc_null_propagation (env : Env) (st : State) (device : Ptr)
    (procName : String) :
    (procName ∉ hookedNames →
      env.callGetProcAddress st.slots.tempGetProcAddressFuncPtr st.nvnDevice procName
          = FuncPtr.null →
      (getProc env st device procName).1 = FuncPtr.null)
    ∧ (procName ∈ hookedNames →
        (∃ w, (getProc env st device procName).1 = FuncPtr.wrapper w)
          ∧ (getProc env st device procName).1 ≠ FuncPtr.null) := by
  refine ⟨fun h hnull => ?_, fun h => ?_⟩
  · simp only [hookedNames, List.mem_cons, List.mem_singleton, not_or, List.not_mem_nil,
      or_false] at h
    obtain ⟨h1, h2, h3, h4, h5, h6, h7⟩ := h
    simp [getProc, h1, h2, h3, h4, h5, h6, h7, hnull]
  · simp only [hookedNames, List.mem_cons, List.mem_singleton, List.not_mem_nil,
      or_false] at h
    rcases h with h | h | h | h | h | h | h <;> subst h <;> simp [getProc]

/-- Witness of the amended C2: an unresolved unhooked name gives null, the hooked
name `nvnWindowSetCrop` gives a wrapper. -/
theorem getProc_null_propagation_witness :
    (getProc Env.unresolving State.initial 0 "nvnQueueFinish").1 = FuncPtr.null
      ∧ (∃ w, (getProc Env.sample State.initial 0 "nvnWindowSetCrop").1 = FuncPtr.wrapper w)
      ∧ (getProc Env.sample State.initial 0 "nvnWindowSetCrop").1 ≠ FuncPtr.null :=
  ⟨(getProc_null_propagation Env.unresolving State.initial 0 "nvnQueueFinish").1
      (by decide) rfl,
   (getProc_null_propagation Env.sample State.initial 0 "nvnWindowSetCrop").2 (by decide)⟩

/-- C3: for each of the seven hooked names `getProc` returns the address of the
wrapper registered for it, stores the address resolved by the driver in the slot of
that name, and leaves the other slots as they were. -/
theorem getProc_hooked_installs (env : Env) (st : State) (device : Ptr) :
    let resolved := env.callGetProcAddress st.slots.tempGetProcAddressFuncPtr st.nvnDevice
    ((getProc env st device "nvnQueueInitialize").1 = FuncPtr.wrapper Wrapper.queueInit
      ∧ (getProc env st device "nvnQueueInitialize").2.slots
          = { st.slots with tempQueueInitFuncPtr := resolved "nvnQueueInitialize" })
    ∧ ((getProc env st device "nvnCommandBufferInitialize").1
          = FuncPtr.wrapper Wrapper.cmdBufInit
      ∧ (getProc env st device "nvnCommandBufferInitialize").2.slots
          = { st.slots with tempBufferInitFuncPtr := resolved "nvnCommandBufferInitialize" })
    ∧ ((getProc env st device "nvnQueuePresentTexture").1
          = FuncPtr.wrapper Wrapper.presentTexture
      ∧ (getProc env st device "nvnQueuePresentTexture").2.slots
          = { st.slots with tempPresentTexFunc := resolved "nvnQueuePresentTexture" })
    ∧ ((getProc env st device "nvnDeviceInitialize").1 = FuncPtr.wrapper Wrapper.deviceInit
      ∧ (getProc env st device "nvnDeviceInitialize").2.slots
          = { st.slots with tempDeviceInitFuncPtr := resolved "nvnDeviceInitialize" })
    ∧ ((getProc env st device "nvnCommandBufferSetSamplerPool").1
          = FuncPtr.wrapper Wrapper.setSamplerPool
      ∧ (getProc env st device "nvnCommandBufferSetSamplerPool").2.slots
          = { st.slots with
              tempCommandSetSamplerPoolFunc := resolved "nvnCommandBufferSetSamplerPool" })
    ∧ ((getProc env st device "nvnCommandBufferSetTexturePool").1
          = FuncPtr.wrapper Wrapper.setTexturePool
      ∧ (getProc env st device "nvnCommandBufferSetTexturePool").2.slots
          = { st.slots with
              tempCommandSetTexturePoolFunc := resolved "nvnCommandBufferSetTexturePool" })
    ∧ ((getProc env st device "nvnWindowSetCrop").1 = FuncPtr.wrapper Wrapper.setCrop
      ∧ (getProc env st device "nvnWindowSetCrop").2.slots
          = { st.slots with tempSetCropFunc := resolved "nvnWindowSetCrop" }) := by
  intro resolved
  refine ⟨?_, ?_, ?_, ?_, ?_, ?_, ?_⟩ <;> simp [getProc, State.emit, resolved]

/-! ### Building blocks for the command-buffer tracking -/

theorem InitImGui_fst (env : Env) (st : State) :
    (InitImGui env st).1 = decide (st.nvnDevice ≠ 0 ∧ st.nvnQueue ≠ 0 ∧ st.nvnCmdBuf ≠ 0) := by
  unfold InitImGui
  split <;> simp_all

theorem InitImGui_snd_fields (env : Env) (st : State) :
    (InitImGui env st).2.nvnCmdBuf = st.nvnCmdBuf
      ∧ (InitImGui env st).2.nvnDevice = st.nvnDevice
      ∧ (InitImGui env st).2.nvnQueue = st.nvnQueue
      ∧ (InitImGui env st).2.commandBufferCount = st.commandBufferCount
      ∧ (InitImGui env st).2.hasInitImGui = st.hasInitImGui
      ∧ (InitImGui env st).2.slots = st.slots := by
  unfold InitImGui
  split
  · simp only [InitBackend, State.emit, addDrawFunc, XENO_ASSERT]
    split <;> [split; skip] <;> simp
  · simp [State.emit]

theorem InitImGui_runs (env : Env) (st : State) :
    (InitImGui env st).2.initImGuiRuns = st.initImGuiRuns + 1 := by
  unfold InitImGui
  split
  · simp only [InitBackend, State.emit, addDrawFunc, XENO_ASSERT, State.initImGuiRuns]
    split <;> [split; skip] <;>
      simp [List.countP_append, List.countP_cons, Call.isInitImGui, List.countP_map,
        List.countP_eq_zero, Function.comp_def]
  · simp [State.emit, State.initImGuiRuns, List.countP_append, Call.isInitImGui]

theorem cmdBufInit_frozen (env : Env) (st : State) (buffer device : Ptr)
    (h : st.hasInitImGui = true) :
    (cmdBufInit env st buffer device).2.hasInitImGui = true
      ∧ (cmdBufInit env st buffer device).2.nvnCmdBuf = st.nvnCmdBuf
      ∧ (cmdBufInit env st buffer device).2.commandBufferCount = st.commandBufferCount
      ∧ (cmdBufInit env st buffer device).2.initImGuiRuns = st.initImGuiRuns := by
  simp [cmdBufInit, State.emit, h, State.initImGuiRuns, List.countP_append, Call.isInitImGui]

theorem cmdBufInit_skip (env : Env) (st : State) (buffer device : Ptr)
    (h : st.hasInitImGui = false)
    (hne : st.commandBufferCount ≠ env.IMGUI_XENO_COMMAND_BUFFER_ID) :
    (cmdBufInit env st buffer device).2.hasInitImGui = false
      ∧ (cmdBufInit env st buffer device).2.nvnCmdBuf = st.nvnCmdBuf
      ∧ (cmdBufInit env st buffer device).2.commandBufferCount
          = wrapInt32 (st.commandBufferCount + 1)
      ∧ (cmdBufInit env st buffer device).2.initImGuiRuns = st.initImGuiRuns
      ∧ (cmdBufInit env st buffer device).2.nvnDevice = st.nvnDevice
      ∧ (cmdBufInit env st buffer device).2.nvnQueue = st.nvnQueue := by
  simp [cmdBufInit, State.emit, h, hne, State.initImGuiRuns, List.countP_append,
    Call.isInitImGui]

theorem cmdBufInit_capture (env : Env) (st : State) (buffer device : Ptr)
    (h : st.hasInitImGui = false)
    (heq : st.commandBufferCount = env.IMGUI_XENO_COMMAND_BUFFER_ID) :
    (cmdBufInit env st buffer device).2.hasInitImGui
        = decide (st.nvnDevice ≠ 0 ∧ st.nvnQueue ≠ 0 ∧ buffer ≠ 0)
      ∧ (cmdBufInit env st buffer device).2.nvnCmdBuf = buffer
      ∧ (cmdBufInit env st buffer device).2.commandBufferCount
          = wrapInt32 (st.commandBufferCount + 1)
      ∧ (cmdBufInit env st buffer device).2.initImGuiRuns = st.initImGuiRuns + 1
      ∧ (cmdBufInit env st buffer device).2.nvnDevice = st.nvnDevice
      ∧ (cmdBufInit env st buffer device).2.nvnQueue = st.nvnQueue := by
  have hstep : (cmdBufInit env st buffer device).2
      = { (InitImGui env { (st.emit [Call.commandBufferInitialize
              st.slots.tempBufferInitFuncPtr buffer device]) with
            commandBufferCount := wrapInt32 (st.commandBufferCount + 1),
            nvnCmdBuf := buffer }).2 with
          hasInitImGui := (InitImGui env { (st.emit [Call.commandBufferInitialize
              st.slots.tempBufferInitFuncPtr buffer device]) with
            commandBufferCount := wrapInt32 (st.commandBufferCount + 1),
            nvnCmdBuf := buffer }).1 } := by
    simp [cmdBufInit, State.emit, h, heq]
  rw [hstep]
  generalize hS : ({ (st.emit [Call.commandBufferInitialize
              st.slots.tempBufferInitFuncPtr buffer device]) with
            commandBufferCount := wrapInt32 (st.commandBufferCount + 1),
            nvnCmdBuf := buffer } : State) = S
  have hb : S.nvnCmdBuf = buffer := by rw [← hS]
  have hd : S.nvnDevice = st.nvnDevice := by rw [← hS]; rfl
  have hq : S.nvnQueue = st.nvnQueue := by rw [← hS]; rfl
  have hc : S.commandBufferCount = wrapInt32 (st.commandBufferCount + 1) := by rw [← hS]
  have hr : S.initImGuiRuns = st.initImGuiRuns := by
    rw [← hS]; simp [State.initImGuiRuns, State.emit, List.countP_append, Call.isInitImGui]
  obtain ⟨f1, f2, f3, f4, _, _⟩ := InitImGui_snd_fields env S
  have fr := InitImGui_runs env S
  refine ⟨?_, ?_, ?_, ?_, ?_, ?_⟩
  · show (InitImGui env S).1 = _
    rw [InitImGui_fst, hb, hd, hq]
  · show (InitImGui env S).2.nvnCmdBuf = _
    rw [f1, hb]
  · show (InitImGui env S).2.commandBufferCount = _
    rw [f4, hc]
  · show (InitImGui env S).2.initImGuiRuns = _
    rw [fr, hr]
  · show (InitImGui env S).2.nvnDevice = _
    rw [f2, hd]
  · show (InitImGui env S).2.nvnQueue = _
    rw [f3, hq]

theorem cmdBufInits_cons (env : Env) (st : State) (c : Ptr × Ptr) (calls : List (Ptr × Ptr)) :
    cmdBufInits env st (c :: calls) = cmdBufInits env (cmdBufInit env st c.1 c.2).2 calls := by
  simp [cmdBufInits]

theorem cmdBufInits_append (env : Env) (st : State) (pre post : List (Ptr × Ptr)) :
    cmdBufInits env st (pre ++ post) = cmdBufInits env (cmdBufInits env st pre) post := by
  simp [cmdBufInits]

/-- Once `hasInitImGui` is set, further creations change nothing that is tracked. -/
theorem cmdBufInits_frozen (env : Env) (calls : List (Ptr × Ptr)) :
    ∀ st : State, st.hasInitImGui = true →
      (cmdBufInits env st calls).hasInitImGui = true
        ∧ (cmdBufInits env st calls).nvnCmdBuf = st.nvnCmdBuf
        ∧ (cmdBufInits env st calls).initImGuiRuns = st.initImGuiRuns := by
  induction calls with
  | nil => intro st h; simp [cmdBufInits, h]
  | cons c calls ih =>
    intro st h
    rw [cmdBufInits_cons]
    obtain ⟨h1, h2, _, h4⟩ := cmdBufInit_frozen env st c.1 c.2 h
    obtain ⟨i1, i2, i3⟩ := ih _ h1
    exact ⟨i1, by rw [i2, h2], by rw [i3, h4]⟩

/-- While `hasInitImGui` stays false and the wrapping counter misses the target,
creations only advance the counter modulo `2^32`. -/
theorem cmdBufInits_wrapping (env : Env) (calls : List (Ptr × Ptr)) :
    ∀ (st : State) (k : Nat), st.hasInitImGui = false →
      st.commandBufferCount = wrapInt32 k →
      (∀ i, i < calls.length → wrapInt32 ((k + i : Nat) : Int) ≠ env.IMGUI_XENO_COMMAND_BUFFER_ID) →
      (cmdBufInits env st calls).hasInitImGui = false
        ∧ (cmdBufInits env st calls).nvnCmdBuf = st.nvnCmdBuf
        ∧ (cmdBufInits env st calls).commandBufferCount
            = wrapInt32 ((k + calls.length : Nat) : Int)
        ∧ (cmdBufInits env st calls).initImGuiRuns = st.initImGuiRuns := by
  induction calls with
  | nil => intro st k h hc _; simp [cmdBufInits, h, hc]
  | cons a calls ih =>
    intro st k h hc hmiss
    rw [cmdBufInits_cons]
    have hne : st.commandBufferCount ≠ env.IMGUI_XENO_COMMAND_BUFFER_ID := by
      rw [hc]; exact hmiss 0 (by simp)
    obtain ⟨h1, h2, h3, h4, _, _⟩ := cmdBufInit_skip env st a.1 a.2 h hne
    have h3' : (cmdBufInit env st a.1 a.2).2.commandBufferCount
        = wrapInt32 ((k + 1 : Nat) : Int) := by
      rw [h3, hc]; unfold wrapInt32; omega
    have hmiss' : ∀ i, i < calls.length →
        wrapInt32 ((k + 1 + i : Nat) : Int) ≠ env.IMGUI_XENO_COMMAND_BUFFER_ID := by
      intro i hi
      have := hmiss (i + 1) (by simp only [List.length_cons]; omega)
      rwa [show k + (i + 1) = k + 1 + i by omega] at this
    obtain ⟨i1, i2, i3, i4⟩ := ih _ (k + 1) h1 h3' hmiss'
    refine ⟨i1, by rw [i2, h2], ?_, by rw [i4, h4]⟩
    rw [i3]; simp only [List.length_cons]; congr 2; omega

/-- Past the target, the 32-bit counter does not meet it again within `2^32 - 1`
further creations. -/
theorem wrapInt32_miss (n k i : Nat) (hk : n < k)
    (hi : k + i < 2 ^ 32 + n) : wrapInt32 ((k + i : Nat) : Int) ≠ (n : Int) := by
  unfold wrapInt32; omega

/-- From a counter at or below the target: what a sequence of creations leaves
behind, when either the 32-bit counter has not come round to the target again or
`InitImGui` succeeds at the capture. -/
theorem cmdBufInits_before (env : Env) (n : Nat) (hID : env.IMGUI_XENO_COMMAND_BUFFER_ID = n)
    (hn : n < 2 ^ 31) (calls : List (Ptr × Ptr)) :
    ∀ (st : State) (c : Nat), st.hasInitImGui = false → st.commandBufferCount = c → c ≤ n →
      (c + calls.length ≤ 2 ^ 32 + n
        ∨ (st.nvnDevice ≠ 0 ∧ st.nvnQueue ≠ 0 ∧ (calls[n - c]?).map Prod.fst ≠ some 0)) →
      (c + calls.length ≤ n →
        (cmdBufInits env st calls).hasInitImGui = false
          ∧ (cmdBufInits env st calls).commandBufferCount = ((c + calls.length : Nat) : Int)
          ∧ (cmdBufInits env st calls).nvnCmdBuf = st.nvnCmdBuf
          ∧ (cmdBufInits env st calls).initImGuiRuns = st.initImGuiRuns)
      ∧ (n < c + calls.length →
        some (cmdBufInits env st calls).nvnCmdBuf = (calls[n - c]?).map Prod.fst
          ∧ (cmdBufInits env st calls).initImGuiRuns = st.initImGuiRuns + 1
          ∧ ((cmdBufInits env st calls).hasInitImGui = true
            ∨ ((cmdBufInits env st calls).hasInitImGui = false
              ∧ (cmdBufInits env st calls).commandBufferCount
                  = wrapInt32 ((c + calls.length : Nat) : Int)))) := by
  induction calls with
  | nil =>
    intro st c h hc hcn _
    refine ⟨fun _ => by simp [cmdBufInits, h, hc], fun hlt => ?_⟩
    simp only [List.length_nil] at hlt
    omega
  | cons a calls ih =>
    intro st c h hc hcn hor
    rw [cmdBufInits_cons]
    simp only [List.length_cons] at hor ⊢
    rcases Nat.lt_or_eq_of_le hcn with hlt | heq
    · -- the counter has not reached the target: this creation is skipped
      have hne : st.commandBufferCount ≠ env.IMGUI_XENO_COMMAND_BUFFER_ID := by
        rw [hc, hID]; omega
      obtain ⟨h1, h2, h3, h4, h5, h6⟩ := cmdBufInit_skip env st a.1 a.2 h hne
      have h3' : (cmdBufInit env st a.1 a.2).2.commandBufferCount = ((c + 1 : Nat) : Int) := by
        rw [h3, hc]; unfold wrapInt32; omega
      have hidx : (a :: calls)[n - c]? = calls[n - (c + 1)]? := by
        have : n - c = (n - (c + 1)) + 1 := by omega
        rw [this, List.getElem?_cons_succ]
      have hor' : c + 1 + calls.length ≤ 2 ^ 32 + n
          ∨ ((cmdBufInit env st a.1 a.2).2.nvnDevice ≠ 0
            ∧ (cmdBufInit env st a.1 a.2).2.nvnQueue ≠ 0
            ∧ (calls[n - (c + 1)]?).map Prod.fst ≠ some 0) := by
        rcases hor with hb | ⟨hd, hq, hz⟩
        · left; omega
        · right; rw [h5, h6, ← hidx]; exact ⟨hd, hq, hz⟩
      obtain ⟨ihA, ihB⟩ := ih _ (c + 1) h1 h3' (by omega) hor'
      refine ⟨fun hle => ?_, fun hgt => ?_⟩
      · obtain ⟨i1, i2, i3, i4⟩ := ihA (by omega)
        refine ⟨i1, ?_, by rw [i3, h2], by rw [i4, h4]⟩
        rw [i2]; congr 1; omega
      · obtain ⟨i1, i2, i3⟩ := ihB (by omega)
        refine ⟨by rw [i1, hidx], by rw [i2, h4], ?_⟩
        rcases i3 with i3 | ⟨i3, i4⟩
        · exact Or.inl i3
        · refine Or.inr ⟨i3, ?_⟩
          rw [i4]; congr 2; omega
    · -- the counter equals the target: this creation is captured
      subst heq
      have heq' : st.commandBufferCount = env.IMGUI_XENO_COMMAND_BUFFER_ID := by
        rw [hc, hID]
      obtain ⟨h1, h2, h3, h4, _, _⟩ := cmdBufInit_capture env st a.1 a.2 h heq'
      refine ⟨fun hle => by omega, fun _ => ?_⟩
      have hhead : ((a :: calls)[c - c]?).map Prod.fst = some a.1 := by simp
      cases hinit : (cmdBufInit env st a.1 a.2).2.hasInitImGui with
      | true =>
        obtain ⟨f1, f2, f3⟩ := cmdBufInits_frozen env calls _ hinit
        exact ⟨by rw [f2, h2, hhead], by rw [f3, h4], Or.inl f1⟩
      | false =>
        have hbound : c + (calls.length + 1) ≤ 2 ^ 32 + c := by
          rcases hor with hb | ⟨hd, hq, hz⟩
          · exact hb
          · exfalso
            rw [hhead] at hz
            have hz' : a.1 ≠ 0 := fun e => hz (by rw [e])
            rw [h1] at hinit
            simp [hd, hq, hz'] at hinit
        have h3' : (cmdBufInit env st a.1 a.2).2.commandBufferCount
            = wrapInt32 ((c + 1 : Nat) : Int) := by
          rw [h3, hc]; rfl
        have hmiss : ∀ i, i < calls.length →
            wrapInt32 ((c + 1 + i : Nat) : Int) ≠ env.IMGUI_XENO_COMMAND_BUFFER_ID := by
          intro i hi
          rw [hID]
          exact wrapInt32_miss c (c + 1) i (by omega) (by omega)
        obtain ⟨p1, p2, p3, p4⟩ := cmdBufInits_wrapping env calls _ (c + 1) hinit h3' hmiss
        refine ⟨by rw [p2, h2, hhead], by rw [p4, h4], Or.inr ⟨p1, ?_⟩⟩
        rw [p3]; congr 2; omega

theorem wrapInt32_miss_target : ∀ i, i < 4294967295 →
    wrapInt32 ((3 + i : Nat) : Int) ≠ Env.sample.IMGUI_XENO_COMMAND_BUFFER_ID := by
  intro i hi
  have e : Env.sample.IMGUI_XENO_COMMAND_BUFFER_ID = 2 := rfl
  rw [e]
  unfold wrapInt32; omega

theorem cmdBufInits_recapture (T : State) (h : T.hasInitImGui = false)
    (hc : T.commandBufferCount = wrapInt32 ((3 + 4294967295 : Nat) : Int)) :
    (cmdBufInits Env.sample T [(9, 0)]).nvnCmdBuf = 9 := by
  have hc' : T.commandBufferCount = Env.sample.IMGUI_XENO_COMMAND_BUFFER_ID := by
    rw [hc]; decide
  exact (cmdBufInit_capture Env.sample T 9 0 h hc').2.1

theorem cmdBufInits_wrapAroundCalls :
    (cmdBufInits Env.sample State.initial wrapAroundCalls).nvnCmdBuf = 9 := by
  unfold wrapAroundCalls
  rw [cmdBufInits_append, cmdBufInits_append]
  have s1 : (cmdBufInits Env.sample State.initial [(5, 0), (5, 0), (7, 0)]).hasInitImGui
      = false := rfl
  have s2 : (cmdBufInits Env.sample State.initial [(5, 0), (5, 0), (7, 0)]).commandBufferCount
      = wrapInt32 ((3 : Nat) : Int) := rfl
  have hw := cmdBufInits_wrapping Env.sample (List.replicate 4294967295 ((5, 0) : Ptr × Ptr))
    _ 3 s1 s2 (by rw [List.length_replicate]; exact wrapInt32_miss_target)
  rw [List.length_replicate] at hw
  exact cmdBufInits_recapture _ hw.1 hw.2.2.1

theorem wrapAroundCalls_target : wrapAroundCalls[2]? = some (7, 0) := by
  unfold wrapAroundCalls
  rw [List.getElem?_append_left (by decide)]
  rfl

/-- Counterexample to C4 as stated: with no device recorded `InitImGui` fails, the
32-bit counter keeps running, and after `2^32` further creations it equals the
target again; the buffer recorded at the end is buffer `9` of ordinal `2^32 + 2`,
not buffer `7` of ordinal 2. -/
theorem cmdBufInits_wraparound_counterexample :
    Env.sample.IMGUI_XENO_COMMAND_BUFFER_ID = 2
      ∧ State.initial.commandBufferCount = 0 ∧ State.initial.hasInitImGui = false
      ∧ wrapAroundCalls[2]? = some (7, 0)
      ∧ (cmdBufInits Env.sample State.initial wrapAroundCalls).nvnCmdBuf = 9
      ∧ (cmdBufInits Env.sample State.initial wrapAroundCalls).nvnCmdBuf ≠ 7 := by
  refine ⟨rfl, rfl, rfl, wrapAroundCalls_target, cmdBufInits_wrapAroundCalls, ?_⟩
  rw [cmdBufInits_wrapAroundCalls]; decide

/-- C4, amended: starting with `commandBufferCount = 0`, `hasInitImGui = false` and
no buffer recorded, for a target ordinal that fits an `int`, and provided that the
sequence of `cmdBufInit` calls has at most `2^32 + IMGUI_XENO_COMMAND_BUFFER_ID`
entries (the 32-bit counter has not come round to the target again; this covers
every sequence of fewer than `2^31` calls) or that `InitImGui` succeeds at the
capture (device and queue recorded, target buffer not null), `nvnCmdBuf` is unset
while fewer than `IMGUI_XENO_COMMAND_BUFFER_ID + 1` calls have been made and
otherwise is the buffer of the call of ordinal `IMGUI_XENO_COMMAND_BUFFER_ID`,
however many calls come before or after it. -/
theorem cmdBufInits_captures_target (env : Env) (st : State) (calls : List (Ptr × Ptr))
    (n : Nat) (hID : env.IMGUI_XENO_COMMAND_BUFFER_ID = n) (hn : n < 2 ^ 31)
    (hcount : st.commandBufferCount = 0) (hinit : st.hasInitImGui = false)
    (hbuf : st.nvnCmdBuf = 0)
    (hlen : calls.length ≤ 2 ^ 32 + n
      ∨ (st.nvnDevice ≠ 0 ∧ st.nvnQueue ≠ 0 ∧ (calls[n]?).map Prod.fst ≠ some 0)) :
    (calls.length < n + 1 → (cmdBufInits env st calls).nvnCmdBuf = 0)
      ∧ (n + 1 ≤ calls.length →
          some (cmdBufInits env st calls).nvnCmdBuf = (calls[n]?).map Prod.fst) := by
  have hc : st.commandBufferCount = ((0 : Nat) : Int) := by rw [hcount]; rfl
  obtain ⟨hA, hB⟩ := cmdBufInits_before env n hID hn calls st 0 hinit hc (Nat.zero_le n)
    (by simpa using hlen)
  refine ⟨fun h => ?_, fun h => ?_⟩
  · rw [(hA (by omega)).2.2.1, hbuf]
  · simpa using (hB (by omega)).1

/-- Witness of the amended C4: with target ordinal 2, four creations leave buffer
`7` recorded. -/
theorem cmdBufInits_captures_target_witness :
    some (cmdBufInits Env.sample State.initial [(5, 1), (6, 1), (7, 1), (8, 1)]).nvnCmdBuf
      = some 7 :=
  (cmdBufInits_captures_target Env.sample State.initial [(5, 1), (6, 1), (7, 1), (8, 1)] 2
    rfl (by decide) rfl rfl rfl (Or.inl (by decide))).2 (by decide)

/-- C5: over fewer than `2^31` `cmdBufInit` calls from `commandBufferCount = 0` and
`hasInitImGui = false`, `InitImGui` (which runs right after the capture
`nvnCmdBuf = buffer`) is executed at most once, not at all while the sequence is no
longer than the target index and exactly once when it is longer, whatever
`InitImGui` returns; every creation after the capture leaves `nvnCmdBuf` and
`hasInitImGui` as they were. -/
theorem cmdBufInits_init_once (env : Env) (st : State) (calls : List (Ptr × Ptr))
    (n : Nat) (hID : env.IMGUI_XENO_COMMAND_BUFFER_ID = n)
    (hcount : st.commandBufferCount = 0) (hinit : st.hasInitImGui = false)
    (hlen : calls.length < 2 ^ 31) :
    (cmdBufInits env st calls).initImGuiRuns ≤ st.initImGuiRuns + 1
      ∧ (calls.length ≤ n → (cmdBufInits env st calls).initImGuiRuns = st.initImGuiRuns)
      ∧ (n < calls.length →
          (cmdBufInits env st calls).initImGuiRuns = st.initImGuiRuns + 1)
      ∧ (∀ pre post, calls = pre ++ post → n < pre.length →
          (cmdBufInits env st calls).nvnCmdBuf = (cmdBufInits env st pre).nvnCmdBuf
            ∧ (cmdBufInits env st calls).hasInitImGui
                = (cmdBufInits env st pre).hasInitImGui) := by
  by_cases hn : n < 2 ^ 31
  · have hc : st.commandBufferCount = ((0 : Nat) : Int) := by rw [hcount]; rfl
    obtain ⟨hA, hB⟩ := cmdBufInits_before env n hID hn calls st 0 hinit hc (Nat.zero_le n)
      (Or.inl (by omega))
    refine ⟨?_, fun h => (hA (by omega)).2.2.2, fun h => (hB (by omega)).2.1, ?_⟩
    · rcases Nat.lt_or_ge n calls.length with h | h
      · rw [(hB (by omega)).2.1]
      · rw [(hA (by omega)).2.2.2]; omega
    · intro pre post hsplit hpre
      subst hsplit
      rw [List.length_append] at hlen
      obtain ⟨_, hP⟩ := cmdBufInits_before env n hID hn pre st 0 hinit hc (Nat.zero_le n)
        (Or.inl (by omega))
      obtain ⟨_, _, hstate⟩ := hP (by omega)
      rw [cmdBufInits_append]
      rcases hstate with ht | ⟨hf, hcnt⟩
      · obtain ⟨f1, f2, _⟩ := cmdBufInits_frozen env post _ ht
        exact ⟨f2, by rw [f1, ht]⟩
      · have hmiss : ∀ i, i < post.length →
            wrapInt32 ((0 + pre.length + i : Nat) : Int)
              ≠ env.IMGUI_XENO_COMMAND_BUFFER_ID := by
          intro i hi
          rw [hID]
          exact wrapInt32_miss n (0 + pre.length) i (by omega) (by omega)
        obtain ⟨p1, p2, _, _⟩ :=
          cmdBufInits_wrapping env post _ (0 + pre.length) hf hcnt hmiss
        exact ⟨p2, by rw [p1, hf]⟩
  · -- a target beyond the range of `int` is never met
    have hc : st.commandBufferCount = wrapInt32 ((0 : Nat) : Int) := by rw [hcount]; rfl
    have hmiss : ∀ i, i < calls.length →
        wrapInt32 ((0 + i : Nat) : Int) ≠ env.IMGUI_XENO_COMMAND_BUFFER_ID := by
      intro i hi
      rw [hID]
      unfold wrapInt32; omega
    obtain ⟨_, _, _, w4⟩ := cmdBufInits_wrapping env calls st 0 hinit hc hmiss
    refine ⟨by rw [w4]; omega, fun _ => w4, fun h => by omega, ?_⟩
    intro pre post hsplit hpre
    subst hsplit
    rw [List.length_append] at hlen
    omega

/-- Witness of C5: with target ordinal 2 and no device recorded (`InitImGui` returns
false), four creations run `InitImGui` exactly once. -/
theorem cmdBufInits_init_once_witness :
    (cmdBufInits Env.sample State.initial [(5, 1), (6, 1), (7, 1), (8, 1)]).initImGuiRuns
      = State.initial.initImGuiRuns + 1 :=
  (cmdBufInits_init_once Env.sample State.initial [(5, 1), (6, 1), (7, 1), (8, 1)] 2
    rfl rfl rfl (by decide)).2.2.1 (by decide)

/-! ### Closed form of the frame loops -/

theorem foldl_drawCmd (cmdBuf : Ptr) (DisplaySize : ImVec2) (idxBuffer : MemoryBuffer)
    (cmds : List ImDrawCmd) :
    ∀ ls : LoopState,
      cmds.foldl (drawCmd cmdBuf DisplaySize idxBuffer) ls
        = { ls with
            boundTextureHandle := boundAfter ls.boundTextureHandle cmds,
            calls := ls.calls ++ cmdBufferCalls cmdBuf DisplaySize idxBuffer ls.idxOffset
              ls.boundTextureHandle cmds } := by
  induction cmds with
  | nil => intro ls; simp [boundAfter, cmdBufferCalls]
  | cons cmd cmds ih =>
    intro ls
    rw [List.foldl_cons, ih]
    by_cases hc : cmd.clipped
    · have hc' := hc
      unfold ImDrawCmd.clipped at hc'
      simp [drawCmd, boundAfter, cmdBufferCalls, hc, hc']
    · have hc' := hc
      unfold ImDrawCmd.clipped at hc'
      by_cases hb : ls.boundTextureHandle = cmd.TexID
      · simp [drawCmd, boundAfter, cmdBufferCalls, hc, hc', hb]
      · simp [drawCmd, boundAfter, cmdBufferCalls, hc, hc', hb]

theorem foldl_drawList (cmdBuf : Ptr) (DisplaySize : ImVec2) (vtxBuffer idxBuffer : MemoryBuffer)
    (lists : List ImDrawList) :
    ∀ ls : LoopState,
      (lists.foldl (drawList cmdBuf DisplaySize vtxBuffer idxBuffer) ls).calls
        = ls.calls ++ cmdListsCalls cmdBuf DisplaySize vtxBuffer idxBuffer
            ls.vtxOffset ls.idxOffset ls.boundTextureHandle lists := by
  induction lists with
  | nil => intro ls; simp [cmdListsCalls]
  | cons l lists ih =>
    intro ls
    rw [List.foldl_cons, ih]
    simp [drawList, foldl_drawCmd, cmdListsCalls, List.append_assoc]

theorem setRenderStates_update (bd : NvnBackendData) (v i : Option MemoryBuffer) :
    setRenderStates { bd with vtxBuffer := v, idxBuffer := i } = setRenderStates bd := rfl

/-- What a recorded frame appends to the trace: the two resize steps, the frame
setup, the calls of the loops, then `EndRecording` and the submission. -/
theorem renderDrawData_recorded (env : Env) (st : State) (drawData : ImDrawData)
    (h : recordsFrame env st drawData) :
    (renderDrawData env st drawData).trace
      = st.trace
        ++ ((ensureCapacity env st.bd.vtxBuffer (drawData.TotalVtxCount * sizeofImDrawVert)).2
        ++ (ensureCapacity env st.bd.idxBuffer (drawData.TotalIdxCount * sizeofImDrawIdx)).2
        ++ frameSetup st.bd (orthoRH_ZO 0 st.DisplaySize.x st.DisplaySize.y 0 (-1) 1)
        ++ cmdListsCalls st.bd.cmdBuf st.DisplaySize
            (ensureCapacity env st.bd.vtxBuffer (drawData.TotalVtxCount * sizeofImDrawVert)).1
            (ensureCapacity env st.bd.idxBuffer (drawData.TotalIdxCount * sizeofImDrawIdx)).1
            0 0 0 drawData.CmdLists
        ++ [ Call.record st.bd.cmdBuf .EndRecording,
             Call.submitCommands st.bd.queue 1 (env.endRecording st.bd.cmdBuf) ]) := by
  obtain ⟨h1, h2, h3, h4, h5, h6⟩ := h
  simp [renderDrawData, h1, h2, h3, h4, h5, h6, State.emit, foldl_drawList, frameSetup,
    setRenderStates, List.append_assoc]

theorem ensureCapacity_noForward (env : Env) (buffer : Option MemoryBuffer) (totalSize : Nat) :
    ∀ c ∈ (ensureCapacity env buffer totalSize).2, Call.isForward c = false := by
  unfold ensureCapacity
  cases buffer with
  | none => simp [Call.isForward]
  | some b =>
    by_cases hb : b.poolSize < totalSize <;> simp [hb, Call.isForward]

theorem frameSetup_noForward (bd : NvnBackendData) (m : Matrix44f) :
    ∀ c ∈ frameSetup bd m, Call.isForward c = false := by
  simp [frameSetup, setRenderStates, Call.isForward]

theorem cmdBufferCalls_noForward (cmdBuf : Ptr) (DisplaySize : ImVec2)
    (idxBuffer : MemoryBuffer) (idxOffset : Nat) (cmds : List ImDrawCmd) :
    ∀ bound, ∀ c ∈ cmdBufferCalls cmdBuf DisplaySize idxBuffer idxOffset bound cmds,
      Call.isForward c = false := by
  induction cmds with
  | nil => intro bound c hc; simp [cmdBufferCalls] at hc
  | cons cmd cmds ih =>
    intro bound c hc
    unfold cmdBufferCalls at hc
    split at hc
    · exact ih _ c hc
    · simp only [List.mem_append, List.mem_cons, List.mem_singleton, List.not_mem_nil,
        or_false] at hc
      rcases hc with ((hc | hc) | hc) | hc
      · rcases hc with hc | hc <;> subst hc <;> rfl
      · split at hc
        · simp only [List.mem_singleton] at hc; subst hc; rfl
        · simp at hc
      · subst hc; rfl
      · exact ih _ c hc

theorem cmdListsCalls_noForward (cmdBuf : Ptr) (DisplaySize : ImVec2)
    (vtxBuffer idxBuffer : MemoryBuffer) (lists : List ImDrawList) :
    ∀ vtxOffset idxOffset bound,
      ∀ c ∈ cmdListsCalls cmdBuf DisplaySize vtxBuffer idxBuffer vtxOffset idxOffset bound lists,
        Call.isForward c = false := by
  induction lists with
  | nil => intro _ _ _ c hc; simp [cmdListsCalls] at hc
  | cons l lists ih =>
    intro vtxOffset idxOffset bound c hc
    unfold cmdListsCalls at hc
    simp only [List.mem_append, List.mem_cons, List.mem_singleton, List.not_mem_nil,
      or_false] at hc
    rcases hc with (hc | hc) | hc
    · rcases hc with hc | hc | hc <;> subst hc <;> rfl
    · exact cmdBufferCalls_noForward _ _ _ _ _ _ c hc
    · exact ih _ _ _ c hc

theorem filter_forward_nil {l : List Call} (h : ∀ c ∈ l, Call.isForward c = false) :
    l.filter Call.isForward = [] :=
  List.filter_eq_nil_iff.mpr (fun c hc => by simp [h c hc])

theorem renderTestShader_appends (env : Env) (st : State) :
    (renderTestShader env st).slots = st.slots
      ∧ (renderTestShader env st).hasInitImGui = st.hasInitImGui
      ∧ ∃ delta, (renderTestShader env st).trace = st.trace ++ delta
          ∧ delta.filter Call.isForward = [] := by
  unfold renderTestShader
  by_cases hr : (ensureCapacity env st.bd.vtxBuffer (6 * sizeofImDrawVert)).1.ready = true
  · refine ⟨by simp [hr, State.emit], by simp [hr, State.emit], ?_⟩
    simp only [hr, State.emit, Bool.not_true, Bool.false_eq_true, if_false, List.append_assoc]
    refine ⟨_, rfl, ?_⟩
    simp [List.filter_append, filter_forward_nil (ensureCapacity_noForward _ _ _),
      setRenderStates, Call.isForward]
  · refine ⟨by simp [hr], by simp [hr], ?_⟩
    simp only [hr, Bool.not_false, if_true]
    exact ⟨_, rfl, filter_forward_nil (ensureCapacity_noForward _ _ _)⟩

theorem renderDrawData_appends (env : Env) (st : State) (drawData : ImDrawData) :
    (renderDrawData env st drawData).slots = st.slots
      ∧ (renderDrawData env st drawData).hasInitImGui = st.hasInitImGui
      ∧ ∃ delta, (renderDrawData env st drawData).trace = st.trace ++ delta
          ∧ delta.filter Call.isForward = [] := by
  by_cases h1 : drawData.Valid = true
  swap
  · simp [renderDrawData, h1]
  by_cases h2 : drawData.CmdListsCount = 0
  · simp [renderDrawData, h1, h2]
  by_cases h3 : st.bd.isInitialized = true
  swap
  · simp [renderDrawData, h1, h2, h3]
  by_cases h4 : st.bd.isUseTestShader = true
  · have := renderTestShader_appends env st
    simpa [renderDrawData, h1, h2, h3, h4] using this
  by_cases h5 : ((ensureCapacity env st.bd.vtxBuffer
        (drawData.TotalVtxCount * sizeofImDrawVert)).1.ready
      && (ensureCapacity env st.bd.idxBuffer
        (drawData.TotalIdxCount * sizeofImDrawIdx)).1.ready) = true
  · have hrec : recordsFrame env st drawData := by
      simp only [Bool.and_eq_true] at h5
      exact ⟨h1, h2, h3, by simpa using h4, h5.1, h5.2⟩
    refine ⟨?_, ?_, _, renderDrawData_recorded env st drawData hrec, ?_⟩
    · simp [renderDrawData, h1, h2, h3, h4, h5, State.emit]
    · simp [renderDrawData, h1, h2, h3, h4, h5, State.emit]
    · simp [List.filter_append, filter_forward_nil (ensureCapacity_noForward _ _ _),
        filter_forward_nil (frameSetup_noForward _ _),
        filter_forward_nil (cmdListsCalls_noForward _ _ _ _ _ _ _ _), Call.isForward]
  · refine ⟨?_, ?_, ?_⟩
    · simp [renderDrawData, h1, h2, h3, h4, h5]
    · simp [renderDrawData, h1, h2, h3, h4, h5]
    · refine ⟨(ensureCapacity env st.bd.vtxBuffer
          (drawData.TotalVtxCount * sizeofImDrawVert)).2
        ++ (ensureCapacity env st.bd.idxBuffer
          (drawData.TotalIdxCount * sizeofImDrawIdx)).2, ?_, ?_⟩
      · simp [renderDrawData, h1, h2, h3, h4, h5, List.append_assoc]
      · simp [List.filter_append, filter_forward_nil (ensureCapacity_noForward _ _ _)]

theorem filter_kind_nil {l : List Call} (p : Call → Bool)
    (hp : ∀ c, p c = true → Call.isForward c = true)
    (h : l.filter Call.isForward = []) : l.filter p = [] := by
  rw [List.filter_eq_nil_iff] at h ⊢
  intro c hc hpc
  exact h c hc (hp c hpc)

theorem foldl_runDrawFunc (env : Env) (fs : List Callback) :
    ∀ st : State,
      (fs.foldl (runDrawFunc env) st).slots = st.slots
        ∧ (fs.foldl (runDrawFunc env) st).hasInitImGui = st.hasInitImGui
        ∧ (fs.foldl (runDrawFunc env) st).drawQueue = st.drawQueue
        ∧ (fs.foldl (runDrawFunc env) st).trace = st.trace ++ fs.map Call.drawFunc := by
  induction fs with
  | nil => intro st; simp
  | cons f fs ih =>
    intro st
    obtain ⟨h1, h2, h3, h4⟩ := ih (runDrawFunc env st f)
    rw [List.foldl_cons]
    refine ⟨by rw [h1]; rfl, by rw [h2]; rfl, by rw [h3]; rfl, ?_⟩
    rw [h4]
    simp [runDrawFunc]

theorem procDraw_appends (env : Env) (st : State) (drawData : ImDrawData) :
    (procDraw env st drawData).slots = st.slots
      ∧ (procDraw env st drawData).hasInitImGui = st.hasInitImGui
      ∧ ∃ delta, (procDraw env st drawData).trace = st.trace ++ delta
          ∧ delta.filter Call.isForward = [] := by
  unfold procDraw
  obtain ⟨f1, f2, _, f4⟩ := foldl_runDrawFunc env (st.emit [.newFrame, .imguiNewFrame]).drawQueue
    (st.emit [.newFrame, .imguiNewFrame])
  obtain ⟨r1, r2, delta, r3, r4⟩ := renderDrawData_appends env
    (((st.emit [.newFrame, .imguiNewFrame]).drawQueue.foldl (runDrawFunc env)
      (st.emit [.newFrame, .imguiNewFrame])).emit [.imguiRender]) drawData
  refine ⟨?_, ?_, [Call.newFrame, Call.imguiNewFrame]
    ++ (st.emit [.newFrame, .imguiNewFrame]).drawQueue.map Call.drawFunc
    ++ [Call.imguiRender] ++ delta, ?_, ?_⟩
  · rw [r1]; simp only [State.emit] at f1 ⊢; rw [f1]
  · rw [r2]; simp only [State.emit] at f2 ⊢; rw [f2]
  · rw [r3]; simp only [State.emit] at f4 ⊢; rw [f4]; simp [List.append_assoc]
  · simp [List.filter_append, r4, Call.isForward, List.filter_map, Function.comp_def]

theorem InitImGui_appends (env : Env) (st : State) :
    ∃ delta, (InitImGui env st).2.trace = st.trace ++ delta
      ∧ delta.filter Call.isForward = [] := by
  unfold InitImGui
  split
  · by_cases hd : env.IMGUI_XENO_DRAW_DEMO = true
    · simp only [InitBackend, State.emit, addDrawFunc, XENO_ASSERT, hd, if_true]
      split
      · refine ⟨_, by simp only [List.append_assoc]; rfl, ?_⟩
        simp [List.filter_append, Call.isForward, List.filter_map, Function.comp_def]
      · refine ⟨_, by simp only [List.append_assoc]; rfl, ?_⟩
        simp [List.filter_append, Call.isForward, List.filter_map, Function.comp_def]
    · simp only [InitBackend, State.emit, hd, Bool.false_eq_true, if_false]
      refine ⟨_, by simp only [List.append_assoc]; rfl, ?_⟩
      simp [List.filter_append, Call.isForward, List.filter_map, Function.comp_def]
  · exact ⟨[Call.InitImGui false], rfl, by simp [Call.isForward]⟩

/-- C6: every wrapper forwards to the cached original exactly once, with the
arguments it received, in every state. `deviceInit`, `queueInit` and `cmdBufInit`
return what the original returned, whether or not the ordinal matches and whatever
`InitImGui` returns; `setTexturePool`, `setSamplerPool`, `setCrop` and
`presentTexture` call their originals with the arguments unchanged. For each wrapper
the calls it adds to the trace contain exactly one call of its original. -/
theorem wrappers_forward_once (env : Env) (st : State) (device builder queue buffer
    cmdBuf pool window : Ptr) (x y w h texIndex : Int) (drawData : ImDrawData) :
    ((deviceInit env st device builder).1
        = env.callDeviceInitialize st.slots.tempDeviceInitFuncPtr device builder
      ∧ ∃ delta, (deviceInit env st device builder).2.trace = st.trace ++ delta
          ∧ delta.filter Call.isDeviceInitialize
              = [Call.deviceInitialize st.slots.tempDeviceInitFuncPtr device builder])
    ∧ ((queueInit env st queue builder).1
        = env.callQueueInitialize st.slots.tempQueueInitFuncPtr queue builder
      ∧ ∃ delta, (queueInit env st queue builder).2.trace = st.trace ++ delta
          ∧ delta.filter Call.isQueueInitialize
              = [Call.queueInitialize st.slots.tempQueueInitFuncPtr queue builder])
    ∧ ((cmdBufInit env st buffer device).1
        = env.callCommandBufferInitialize st.slots.tempBufferInitFuncPtr buffer device
      ∧ ∃ delta, (cmdBufInit env st buffer device).2.trace = st.trace ++ delta
          ∧ delta.filter Call.isCommandBufferInitialize
              = [Call.commandBufferInitialize st.slots.tempBufferInitFuncPtr buffer device])
    ∧ (∃ delta, (setTexturePool st cmdBuf pool).trace = st.trace ++ delta
          ∧ delta.filter Call.isSetTexturePool
              = [Call.commandBufferSetTexturePool st.slots.tempCommandSetTexturePoolFunc
                  cmdBuf pool])
    ∧ (∃ delta, (setSamplerPool st cmdBuf pool).trace = st.trace ++ delta
          ∧ delta.filter Call.isSetSamplerPool
              = [Call.commandBufferSetSamplerPool st.slots.tempCommandSetSamplerPoolFunc
                  cmdBuf pool])
    ∧ (∃ delta, (setCrop st window x y w h).trace = st.trace ++ delta
          ∧ delta.filter Call.isSetCrop
              = [Call.windowSetCrop st.slots.tempSetCropFunc window x y w h])
    ∧ (∃ delta, (presentTexture env st queue window texIndex drawData).trace
            = st.trace ++ delta
          ∧ delta.filter Call.isPresentTexture
              = [Call.queuePresentTexture st.slots.tempPresentTexFunc queue window
                  texIndex]) := by
  refine ⟨⟨rfl, ?_⟩, ⟨rfl, ?_⟩, ⟨?_, ?_⟩, ?_, ?_, ?_, ?_⟩
  · exact ⟨[Call.deviceInitialize st.slots.tempDeviceInitFuncPtr device builder,
      Call.loadCPPProcs device st.slots.tempGetProcAddressFuncPtr],
      by simp [deviceInit, State.emit], rfl⟩
  · exact ⟨[Call.queueInitialize st.slots.tempQueueInitFuncPtr queue builder],
      by simp [queueInit, State.emit], rfl⟩
  · unfold cmdBufInit
    simp only
    split <;> [split; skip] <;> rfl
  · -- cmdBufInit: the three branches
    cases hinit : st.hasInitImGui with
    | true =>
      exact ⟨[Call.commandBufferInitialize st.slots.tempBufferInitFuncPtr buffer device],
        by simp [cmdBufInit, State.emit, hinit], rfl⟩
    | false =>
      by_cases hcount : st.commandBufferCount = env.IMGUI_XENO_COMMAND_BUFFER_ID
      · obtain ⟨delta, hd, hf⟩ := InitImGui_appends env
          { (st.emit [Call.commandBufferInitialize
                st.slots.tempBufferInitFuncPtr buffer device]) with
            commandBufferCount := wrapInt32 (st.commandBufferCount + 1),
            nvnCmdBuf := buffer }
        refine ⟨Call.commandBufferInitialize st.slots.tempBufferInitFuncPtr buffer device
          :: delta, ?_, ?_⟩
        · simp only [cmdBufInit, State.emit, hinit, hcount, Bool.not_false, if_true, ne_eq,
            not_true, if_false]
          simp only [State.emit, hinit] at hd
          rw [← hcount, hd]
          simp
        · rw [List.filter_cons]
          simp only [Call.isCommandBufferInitialize, if_true]
          rw [filter_kind_nil Call.isCommandBufferInitialize _ hf]
          intro c hc
          cases c <;> simp_all [Call.isCommandBufferInitialize, Call.isForward]
      · exact ⟨[Call.commandBufferInitialize st.slots.tempBufferInitFuncPtr buffer device],
          by simp [cmdBufInit, State.emit, hinit, hcount], rfl⟩
  · exact ⟨[Call.commandBufferSetTexturePool st.slots.tempCommandSetTexturePoolFunc
      cmdBuf pool], by simp [setTexturePool, State.emit], rfl⟩
  · exact ⟨[Call.commandBufferSetSamplerPool st.slots.tempCommandSetSamplerPoolFunc
      cmdBuf pool], by simp [setSamplerPool, State.emit], rfl⟩
  · refine ⟨[Call.windowSetCrop st.slots.tempSetCropFunc window x y w h], ?_, rfl⟩
    cases hinit : st.hasInitImGui <;> simp [setCrop, State.emit, hinit]
  · -- presentTexture: the overlay pass makes no forwarding call
    cases hinit : st.hasInitImGui with
    | false =>
      refine ⟨[ Call.record st.__cmdBuf Command.EndRecording,
          Call.record st.__cmdBuf Command.BeginRecording,
          Call.commandBufferSetTexturePool st.slots.tempCommandSetTexturePoolFunc
            st.__cmdBuf st.__texturePool,
          Call.commandBufferSetSamplerPool st.slots.tempCommandSetSamplerPoolFunc
            st.__cmdBuf st.__samplerPool,
          Call.record st.__cmdBuf Command.EndRecording,
          Call.submitCommands queue 1 (env.endRecording st.__cmdBuf),
          Call.record st.__cmdBuf Command.BeginRecording,
          Call.queuePresentTexture st.slots.tempPresentTexFunc queue window texIndex ],
        ?_, rfl⟩
      simp [presentTexture, State.emit, hinit, setTexturePool, setSamplerPool]
    | true =>
      obtain ⟨p1, _, delta, p3, p4⟩ := procDraw_appends env
        (st.emit [Call.record st.__cmdBuf Command.EndRecording]) drawData
      refine ⟨[Call.record st.__cmdBuf Command.EndRecording] ++ delta ++
        [ Call.record st.__cmdBuf Command.BeginRecording,
          Call.commandBufferSetTexturePool st.slots.tempCommandSetTexturePoolFunc
            st.__cmdBuf st.__texturePool,
          Call.commandBufferSetSamplerPool st.slots.tempCommandSetSamplerPoolFunc
            st.__cmdBuf st.__samplerPool,
          Call.record st.__cmdBuf Command.EndRecording,
          Call.submitCommands queue 1 (env.endRecording st.__cmdBuf),
          Call.record st.__cmdBuf Command.BeginRecording,
          Call.queuePresentTexture st.slots.tempPresentTexFunc queue window texIndex ],
        ?_, ?_⟩
      · simp only [State.emit, hinit] at p1 p3
        simp only [presentTexture, State.emit, hinit, setTexturePool, setSamplerPool, if_true,
          p1, p3, List.append_assoc, List.cons_append, List.nil_append]
      · have hk : delta.filter Call.isPresentTexture = [] := by
          apply filter_kind_nil Call.isPresentTexture _ p4
          intro c hc
          cases c <;> simp_all [Call.isPresentTexture, Call.isForward]
        simp [List.filter_append, hk, Call.isPresentTexture]

/-! ### Draw calls of a frame -/

theorem not_clipped_iff (cmd : ImDrawCmd) : ¬ cmd.clipped ↔ cmd.hasPositiveExtent := by
  unfold ImDrawCmd.clipped ImDrawCmd.hasPositiveExtent
  rw [not_or, not_le, not_le, sub_pos, sub_pos]

theorem drawCalls_append (a b : List Call) : drawCalls (a ++ b) = drawCalls a ++ drawCalls b := by
  simp [drawCalls, List.filterMap_append]

theorem drawCalls_cmdBufferCalls (cmdBuf : Ptr) (DisplaySize : ImVec2)
    (idxBuffer : MemoryBuffer) (idxOffset : Nat) (cmds : List ImDrawCmd) :
    ∀ bound,
      drawCalls (cmdBufferCalls cmdBuf DisplaySize idxBuffer idxOffset bound cmds)
        = ((cmds.map (fun cmd => (idxBuffer.address + idxOffset, cmd))).filter
            (fun p => decide p.2.hasPositiveExtent)).map
          (fun p => ⟨p.2.ElemCount, p.2.VtxOffset, p.1 + p.2.IdxOffset * sizeofImDrawIdx⟩) := by
  induction cmds with
  | nil => intro bound; simp [cmdBufferCalls, drawCalls]
  | cons cmd cmds ih =>
    intro bound
    unfold cmdBufferCalls
    by_cases hc : cmd.clipped
    · have hp : ¬ cmd.hasPositiveExtent := fun h => (not_clipped_iff cmd).mpr h hc
      rw [if_pos hc, ih]
      simp [hp]
    · have hp : cmd.hasPositiveExtent := (not_clipped_iff cmd).mp hc
      rw [if_neg hc, drawCalls_append, drawCalls_append, drawCalls_append, ih]
      have e1 : drawCalls [ Call.record cmdBuf (.SetViewport 0 0 (truncInt DisplaySize.x)
            (truncInt DisplaySize.y)),
          Call.record cmdBuf (.SetScissor (truncInt cmd.ClipRect.x) (truncInt cmd.ClipRect.y)
            (truncInt (cmd.ClipRect.z - cmd.ClipRect.x))
            (truncInt (cmd.ClipRect.w - cmd.ClipRect.y))) ] = [] := rfl
      have e2 : drawCalls (if bound ≠ cmd.TexID
          then [Call.record cmdBuf (.BindTexture 0 cmd.TexID)] else []) = [] := by
        split <;> rfl
      rw [e1, e2]
      simp [drawCalls, Call.drawCall?, hp]
      omega

theorem drawCalls_cmdListsCalls (cmdBuf : Ptr) (DisplaySize : ImVec2)
    (vtxBuffer idxBuffer : MemoryBuffer) (lists : List ImDrawList) :
    ∀ vtxOffset idxOffset bound,
      drawCalls (cmdListsCalls cmdBuf DisplaySize vtxBuffer idxBuffer vtxOffset idxOffset
          bound lists)
        = expectedDrawCalls (idxBuffer.address + idxOffset) lists := by
  induction lists with
  | nil => intro _ _ _; simp [cmdListsCalls, drawCalls, expectedDrawCalls, indexedCommands]
  | cons l lists ih =>
    intro vtxOffset idxOffset bound
    unfold cmdListsCalls
    rw [drawCalls_append, drawCalls_append, ih, drawCalls_cmdBufferCalls]
    simp only [expectedDrawCalls, indexedCommands, List.filter_append, List.map_append,
      Nat.add_assoc]
    rfl

theorem drawCalls_ensureCapacity (env : Env) (buffer : Option MemoryBuffer) (totalSize : Nat) :
    drawCalls (ensureCapacity env buffer totalSize).2 = [] := by
  unfold ensureCapacity
  cases buffer with
  | none => rfl
  | some b => by_cases hb : b.poolSize < totalSize <;> simp [hb, drawCalls, Call.drawCall?]

theorem drawCalls_frameSetup (bd : NvnBackendData) (m : Matrix44f) :
    drawCalls (frameSetup bd m) = [] := rfl

theorem frameCalls_recorded (env : Env) (st : State) (drawData : ImDrawData)
    (h : recordsFrame env st drawData) :
    frameCalls env st drawData
      = (ensureCapacity env st.bd.vtxBuffer (drawData.TotalVtxCount * sizeofImDrawVert)).2
        ++ (ensureCapacity env st.bd.idxBuffer (drawData.TotalIdxCount * sizeofImDrawIdx)).2
        ++ frameSetup st.bd (orthoRH_ZO 0 st.DisplaySize.x st.DisplaySize.y 0 (-1) 1)
        ++ cmdListsCalls st.bd.cmdBuf st.DisplaySize
            (ensureCapacity env st.bd.vtxBuffer (drawData.TotalVtxCount * sizeofImDrawVert)).1
            (ensureCapacity env st.bd.idxBuffer (drawData.TotalIdxCount * sizeofImDrawIdx)).1
            0 0 0 drawData.CmdLists
        ++ [ Call.record st.bd.cmdBuf .EndRecording,
             Call.submitCommands st.bd.queue 1 (env.endRecording st.bd.cmdBuf) ] := by
  unfold frameCalls
  rw [renderDrawData_recorded env st drawData h, List.drop_left]

/-- The draw calls of a recorded frame. -/
theorem drawCalls_recorded (env : Env) (st : State) (drawData : ImDrawData)
    (h : recordsFrame env st drawData) :
    drawCalls (frameCalls env st drawData)
      = expectedDrawCalls
          (ensureCapacity env st.bd.idxBuffer
            (drawData.TotalIdxCount * sizeofImDrawIdx)).1.address
          drawData.CmdLists := by
  rw [frameCalls_recorded env st drawData h]
  simp only [drawCalls_append, drawCalls_ensureCapacity, drawCalls_frameSetup,
    drawCalls_cmdListsCalls, List.nil_append, Nat.add_zero]
  simp [drawCalls, Call.drawCall?]

theorem drawCall?_of_bindOrDraw? (c : Call) (h : Call.bindOrDraw? c = none) :
    Call.drawCall? c = none := by
  cases c with
  | record cmdBuf cmd => cases cmd <;> simp_all [Call.bindOrDraw?, Call.drawCall?]
  | _ => rfl

theorem bindOrDraw?_ensureCapacity (env : Env) (buffer : Option MemoryBuffer) (totalSize : Nat) :
    ∀ c ∈ (ensureCapacity env buffer totalSize).2, Call.bindOrDraw? c = none := by
  unfold ensureCapacity
  cases buffer with
  | none => simp [Call.bindOrDraw?]
  | some b => by_cases hb : b.poolSize < totalSize <;> simp [hb, Call.bindOrDraw?]

/-- A frame that is not recorded binds no texture and makes no draw call. -/
theorem frameCalls_skipped (env : Env) (st : State) (drawData : ImDrawData)
    (h : ¬ recordsFrame env st drawData) :
    ∀ c ∈ frameCalls env st drawData, Call.bindOrDraw? c = none := by
  unfold frameCalls
  by_cases h1 : drawData.Valid = true
  swap
  · simp [renderDrawData, h1]
  by_cases h2 : drawData.CmdListsCount = 0
  · simp [renderDrawData, h1, h2]
  by_cases h3 : st.bd.isInitialized = true
  swap
  · simp [renderDrawData, h1, h2, h3]
  by_cases h4 : st.bd.isUseTestShader = true
  · by_cases hr : (ensureCapacity env st.bd.vtxBuffer (6 * sizeofImDrawVert)).1.ready = true
    · have e : (renderDrawData env st drawData).trace = st.trace
          ++ ((ensureCapacity env st.bd.vtxBuffer (6 * sizeofImDrawVert)).2
          ++ ([ Call.createQuad (truncInt (st.DisplaySize.x / 2 - 3))
                  (truncInt (st.DisplaySize.y / 2 - 3)) (truncInt 3) (truncInt 3),
                Call.record st.bd.cmdBuf .BeginRecording,
                Call.record st.bd.cmdBuf .BindProgram,
                Call.record st.bd.cmdBuf (.BindUniformBuffer UBOSIZE),
                Call.record st.bd.cmdBuf (.UpdateUniformBuffer sizeofProjMatrix st.projMatrix),
                Call.record st.bd.cmdBuf (.BindVertexBuffer 0
                  (ensureCapacity env st.bd.vtxBuffer (6 * sizeofImDrawVert)).1.address
                  (ensureCapacity env st.bd.vtxBuffer (6 * sizeofImDrawVert)).1.poolSize) ]
              ++ setRenderStates st.bd
              ++ [ Call.record st.bd.cmdBuf (.DrawArrays 0 6),
                   Call.record st.bd.cmdBuf .EndRecording,
                   Call.submitCommands st.bd.queue 1 (env.endRecording st.bd.cmdBuf) ])) := by
        simp [renderDrawData, renderTestShader, h1, h2, h3, h4, hr, State.emit,
          setRenderStates, List.append_assoc]
      rw [e, List.drop_left]
      intro c hc
      rw [List.mem_append] at hc
      rcases hc with hc | hc
      · exact bindOrDraw?_ensureCapacity _ _ _ c hc
      · revert c
        simp [setRenderStates, Call.bindOrDraw?]
    · have e : (renderDrawData env st drawData).trace = st.trace
          ++ (ensureCapacity env st.bd.vtxBuffer (6 * sizeofImDrawVert)).2 := by
        simp [renderDrawData, renderTestShader, h1, h2, h3, h4, hr]
      rw [e, List.drop_left]
      exact bindOrDraw?_ensureCapacity _ _ _
  by_cases h5 : ((ensureCapacity env st.bd.vtxBuffer
        (drawData.TotalVtxCount * sizeofImDrawVert)).1.ready
      && (ensureCapacity env st.bd.idxBuffer
        (drawData.TotalIdxCount * sizeofImDrawIdx)).1.ready) = true
  · exfalso
    simp only [Bool.and_eq_true] at h5
    exact h ⟨h1, h2, h3, by simpa using h4, h5.1, h5.2⟩
  · have e : (renderDrawData env st drawData).trace = st.trace
        ++ ((ensureCapacity env st.bd.vtxBuffer (drawData.TotalVtxCount * sizeofImDrawVert)).2
        ++ (ensureCapacity env st.bd.idxBuffer
            (drawData.TotalIdxCount * sizeofImDrawIdx)).2) := by
      simp [renderDrawData, h1, h2, h3, h4, h5, List.append_assoc]
    rw [e, List.drop_left]
    intro c hc
    rw [List.mem_append] at hc
    rcases hc with hc | hc <;> exact bindOrDraw?_ensureCapacity _ _ _ c hc

theorem drawCalls_skipped (env : Env) (st : State) (drawData : ImDrawData)
    (h : ¬ recordsFrame env st drawData) :
    drawCalls (frameCalls env st drawData) = [] := by
  unfold drawCalls
  rw [List.filterMap_eq_nil_iff]
  intro c hc
  exact drawCall?_of_bindOrDraw? c (frameCalls_skipped env st drawData h c hc)

theorem bindsAndDraws_skipped (env : Env) (st : State) (drawData : ImDrawData)
    (h : ¬ recordsFrame env st drawData) :
    bindsAndDraws (frameCalls env st drawData) = [] := by
  unfold bindsAndDraws
  rw [List.filterMap_eq_nil_iff]
  exact frameCalls_skipped env st drawData h

theorem indexedCommands_snd (lists : List ImDrawList) :
    ∀ start, (indexedCommands start lists).map Prod.snd
      = lists.flatMap (fun cmdList => cmdList.CmdBuffer) := by
  induction lists with
  | nil => intro _; simp [indexedCommands]
  | cons l lists ih =>
    intro start
    simp [indexedCommands, ih, List.flatMap_cons, Function.comp_def]

theorem expectedDrawCalls_length (indexBuffer : Nat) (drawData : ImDrawData) :
    (expectedDrawCalls indexBuffer drawData.CmdLists).length
      = drawData.drawnCommands.length := by
  unfold expectedDrawCalls ImDrawData.drawnCommands ImDrawData.commands
  rw [List.length_map, ← indexedCommands_snd drawData.CmdLists indexBuffer, List.filter_map,
    List.length_map]
  rfl

/-- Counterexample to C7 as stated: the draw data holds two commands with a clip
rectangle of positive width and height, but it is marked invalid and
`renderDrawData` returns at once: no `DrawElementsBaseVertex` call is made. -/
theorem renderDrawData_invalid_counterexample :
    (invalidQuads.commands.filter (fun cmd => decide cmd.hasPositiveExtent)).length = 2
      ∧ (drawCalls (frameCalls Env.sample State.ready invalidQuads)).length = 0 := by
  refine ⟨?_, by decide⟩
  norm_num [invalidQuads, twoQuads, ImDrawData.commands, sampleCmd,
    ImDrawCmd.hasPositiveExtent, List.filter_cons]

/-- C7, amended: a draw command with `clip_max.x <= clip_min.x` or
`clip_max.y <= clip_min.y` leaves the loop state as it was: no viewport, scissor,
texture bind or draw call is recorded for it. When `renderDrawData` records the
frame (valid draw data with at least one list, backend initialized and not in
test-shader mode, both buffers ready after the resize step) the number of
`DrawElementsBaseVertex` calls equals the number of commands whose clip rectangle
has strictly positive width and height; when the frame is skipped it is zero. -/
theorem degenerate_clip_draws_nothing (env : Env) (st : State) (drawData : ImDrawData)
    (cmdBuf : Ptr) (DisplaySize : ImVec2) (idxBuffer : MemoryBuffer) (ls : LoopState)
    (cmd : ImDrawCmd) :
    (cmd.ClipRect.z ≤ cmd.ClipRect.x ∨ cmd.ClipRect.w ≤ cmd.ClipRect.y →
        drawCmd cmdBuf DisplaySize idxBuffer ls cmd = ls)
      ∧ (drawCalls (frameCalls env st drawData)).length
          = if recordsFrame env st drawData then drawData.drawnCommands.length else 0 := by
  refine ⟨fun h => by simp [drawCmd, h], ?_⟩
  by_cases hrec : recordsFrame env st drawData
  · rw [if_pos hrec, drawCalls_recorded env st drawData hrec, expectedDrawCalls_length]
  · rw [if_neg hrec, drawCalls_skipped env st drawData hrec]
    rfl

/-- Witness of the amended C7: a command of zero width leaves the loop state as it
was, and the sample frame of two valid quads makes two draw calls. -/
theorem degenerate_clip_draws_nothing_witness :
    drawCmd 13 ⟨1600, 900⟩ ⟨65536, 4096, true⟩ ⟨0, 0, 0, []⟩ (sampleCmd ⟨10, 10, 10, 50⟩ 257 0)
        = ⟨0, 0, 0, []⟩
      ∧ (drawCalls (frameCalls Env.sample State.ready twoQuads)).length = 2 :=
  ⟨(degenerate_clip_draws_nothing Env.sample State.ready twoQuads 13 ⟨1600, 900⟩
      ⟨65536, 4096, true⟩ ⟨0, 0, 0, []⟩ (sampleCmd ⟨10, 10, 10, 50⟩ 257 0)).1
      (Or.inl (by decide)),
   (degenerate_clip_draws_nothing Env.sample State.ready twoQuads 13 ⟨1600, 900⟩
      ⟨65536, 4096, true⟩ ⟨0, 0, 0, []⟩ (sampleCmd ⟨10, 10, 10, 50⟩ 257 0)).2.trans
      (by
        rw [if_pos (by decide)]
        norm_num [ImDrawData.drawnCommands, twoQuads, ImDrawData.commands, sampleCmd,
          ImDrawCmd.hasPositiveExtent, List.filter_cons])⟩

/-- Counterexample to C9 as stated: the backend setup has failed
(`isInitialized` is false), `renderDrawData` returns before recording, and the two
commands with a valid clip give no draw call at all. -/
theorem renderDrawData_setupFailed_counterexample :
    expectedDrawCalls 65536 twoQuads.CmdLists = [⟨6, 0, 65536⟩, ⟨6, 0, 65548⟩]
      ∧ drawCalls (frameCalls Env.sample State.setupFailed twoQuads) = [] := by
  refine ⟨?_, by decide⟩
  norm_num [expectedDrawCalls, indexedCommands, twoQuads, sampleCmd,
    ImDrawCmd.hasPositiveExtent, sizeofImDrawIdx, List.filter_cons]

/-- C9, amended: when `renderDrawData` records the frame (valid draw data with at
least one list, backend initialized and not in test-shader mode, both buffers ready
after the resize step), the sequence of draw calls it emits (element count, base
vertex, index address) is exactly the sequence obtained by concatenating the command
lists in the order given and keeping, in order, the commands with a non-degenerate
clip: nothing is reordered, duplicated or merged, within a list or across lists.
When the frame is skipped no draw call is emitted. -/
theorem draw_order_preserved (env : Env) (st : State) (drawData : ImDrawData) :
    drawCalls (frameCalls env st drawData)
      = if recordsFrame env st drawData then
          expectedDrawCalls
            (ensureCapacity env st.bd.idxBuffer
              (drawData.TotalIdxCount * sizeofImDrawIdx)).1.address
            drawData.CmdLists
        else [] := by
  by_cases hrec : recordsFrame env st drawData
  · rw [if_pos hrec, drawCalls_recorded env st drawData hrec]
  · rw [if_neg hrec, drawCalls_skipped env st drawData hrec]

/-! ### Texture binds of a frame -/

theorem bindsAndDraws_append (a b : List Call) :
    bindsAndDraws (a ++ b) = bindsAndDraws a ++ bindsAndDraws b := by
  simp [bindsAndDraws, List.filterMap_append]

theorem texStream_append (l₁ l₂ : List (Nat × ImDrawCmd)) :
    ∀ bound, texStream bound (l₁ ++ l₂)
      = texStream bound l₁ ++ texStream (lastBound bound l₁) l₂ := by
  induction l₁ with
  | nil => intro bound; simp [texStream, lastBound]
  | cons p ps ih =>
    intro bound
    show texStream bound (p :: (ps ++ l₂))
      = texStream bound (p :: ps) ++ texStream (lastBound bound (p :: ps)) l₂
    simp only [texStream, lastBound]
    rw [ih]
    simp

theorem bindsAndDraws_cmdBufferCalls (cmdBuf : Ptr) (DisplaySize : ImVec2)
    (idxBuffer : MemoryBuffer) (idxOffset : Nat) (cmds : List ImDrawCmd) :
    ∀ bound,
      bindsAndDraws (cmdBufferCalls cmdBuf DisplaySize idxBuffer idxOffset bound cmds)
          = texStream bound
              ((cmds.map (fun cmd => (idxBuffer.address + idxOffset, cmd))).filter
                (fun p => decide p.2.hasPositiveExtent))
        ∧ boundAfter bound cmds
          = lastBound bound
              ((cmds.map (fun cmd => (idxBuffer.address + idxOffset, cmd))).filter
                (fun p => decide p.2.hasPositiveExtent)) := by
  induction cmds with
  | nil => intro bound; simp [cmdBufferCalls, bindsAndDraws, texStream, boundAfter, lastBound]
  | cons cmd cmds ih =>
    intro bound
    unfold cmdBufferCalls boundAfter
    by_cases hc : cmd.clipped
    · have hp : ¬ cmd.hasPositiveExtent := fun h => (not_clipped_iff cmd).mpr h hc
      rw [if_pos hc, if_pos hc, (ih bound).1, (ih bound).2]
      simp [hp]
    · have hp : cmd.hasPositiveExtent := (not_clipped_iff cmd).mp hc
      rw [if_neg hc, if_neg hc, bindsAndDraws_append, bindsAndDraws_append,
        bindsAndDraws_append, (ih cmd.TexID).1, (ih cmd.TexID).2]
      have e1 : bindsAndDraws [ Call.record cmdBuf (.SetViewport 0 0 (truncInt DisplaySize.x)
            (truncInt DisplaySize.y)),
          Call.record cmdBuf (.SetScissor (truncInt cmd.ClipRect.x) (truncInt cmd.ClipRect.y)
            (truncInt (cmd.ClipRect.z - cmd.ClipRect.x))
            (truncInt (cmd.ClipRect.w - cmd.ClipRect.y))) ] = [] := rfl
      have e2 : bindsAndDraws (if bound ≠ cmd.TexID
          then [Call.record cmdBuf (.BindTexture 0 cmd.TexID)] else [])
          = if bound ≠ cmd.TexID then [Command.BindTexture 0 cmd.TexID] else [] := by
        split <;> rfl
      rw [e1, e2]
      constructor
      · simp [bindsAndDraws, Call.bindOrDraw?, hp, texStream, drawCommand]
        omega
      · simp only [List.map_cons, List.filter_cons, hp, decide_True, if_true, lastBound]

theorem bindsAndDraws_cmdListsCalls (cmdBuf : Ptr) (DisplaySize : ImVec2)
    (vtxBuffer idxBuffer : MemoryBuffer) (lists : List ImDrawList) :
    ∀ vtxOffset idxOffset bound,
      bindsAndDraws (cmdListsCalls cmdBuf DisplaySize vtxBuffer idxBuffer vtxOffset idxOffset
          bound lists)
        = texStream bound (drawnIndexed (idxBuffer.address + idxOffset) lists) := by
  induction lists with
  | nil => intro _ _ _; simp [cmdListsCalls, bindsAndDraws, texStream, drawnIndexed,
      indexedCommands]
  | cons l lists ih =>
    intro vtxOffset idxOffset bound
    unfold cmdListsCalls
    rw [bindsAndDraws_append, bindsAndDraws_append, ih,
      (bindsAndDraws_cmdBufferCalls cmdBuf DisplaySize idxBuffer idxOffset l.CmdBuffer bound).1,
      (bindsAndDraws_cmdBufferCalls cmdBuf DisplaySize idxBuffer idxOffset l.CmdBuffer bound).2]
    simp only [drawnIndexed, indexedCommands, List.filter_append, texStream_append,
      Nat.add_assoc]
    rfl

theorem splitBy_loop_append {α : Type} (r : α → α → Bool) (l : List α) :
    ∀ (a : α) (g : List α) (gs : List (List α)),
      List.splitBy.loop r l a g gs = gs.reverse ++ List.splitBy.loop r l a g [] := by
  induction l with
  | nil => intro a g gs; simp [List.splitBy.loop]
  | cons b l ih =>
    intro a g gs
    simp only [List.splitBy.loop]
    cases r a b with
    | true => exact ih b (a :: g) gs
    | false =>
      simp only
      rw [ih b [] ((a :: g).reverse :: gs), ih b [] [(a :: g).reverse]]
      simp

theorem runCommands_snoc (l : List (Nat × ImDrawCmd)) (a p : Nat × ImDrawCmd) :
    runCommands (l ++ [a] ++ [p]) = runCommands (l ++ [a]) ++ [drawCommand p] := by
  cases l with
  | nil => simp [runCommands]
  | cons q l => simp [runCommands]

theorem flatMap_runCommands_loop (cmds : List (Nat × ImDrawCmd)) :
    ∀ (a : Nat × ImDrawCmd) (g : List (Nat × ImDrawCmd)),
      (List.splitBy.loop (fun x y => x.2.TexID == y.2.TexID) cmds a g []).flatMap runCommands
        = runCommands (g.reverse ++ [a]) ++ texStream a.2.TexID cmds := by
  induction cmds with
  | nil => intro a g; simp [List.splitBy.loop, texStream]
  | cons b cmds ih =>
    intro a g
    simp only [List.splitBy.loop]
    by_cases hab : a.2.TexID = b.2.TexID
    · have hr : (a.2.TexID == b.2.TexID) = true := by simp [hab]
      rw [hr]
      simp only
      rw [ih b (a :: g)]
      simp only [List.reverse_cons, texStream]
      rw [runCommands_snoc]
      simp [hab]
    · have hr : (a.2.TexID == b.2.TexID) = false := by simp [hab]
      rw [hr]
      simp only
      rw [splitBy_loop_append, List.flatMap_append, ih b []]
      simp [texStream, hab, runCommands]

/-- The rebind test against maximal runs: starting from the handle `bound`, the
recorded binds and draws are those of the maximal runs, one bind per run, except
that the first run gets no bind when its handle is `bound` already. -/
theorem texStream_eq_runs (bound : Nat) (cmds : List (Nat × ImDrawCmd)) :
    texStream bound cmds
      = if cmds.head?.map (fun p => p.2.TexID) = some bound then
          ((textureRuns cmds).flatMap runCommands).tail
        else (textureRuns cmds).flatMap runCommands := by
  cases cmds with
  | nil => simp [texStream, textureRuns, List.splitBy]
  | cons p ps =>
    have e : (textureRuns (p :: ps)).flatMap runCommands
        = Command.BindTexture 0 p.2.TexID :: drawCommand p :: texStream p.2.TexID ps := by
      unfold textureRuns
      simp only [List.splitBy]
      rw [flatMap_runCommands_loop]
      simp [runCommands]
    rw [e]
    by_cases hb : bound = p.2.TexID
    · simp [texStream, hb]
    · have hb' : ¬ p.2.TexID = bound := fun h => hb h.symm
      simp [texStream, hb, hb']

theorem bindsAndDraws_ensureCapacity (env : Env) (buffer : Option MemoryBuffer)
    (totalSize : Nat) : bindsAndDraws (ensureCapacity env buffer totalSize).2 = [] := by
  unfold bindsAndDraws
  rw [List.filterMap_eq_nil_iff]
  exact bindOrDraw?_ensureCapacity env buffer totalSize

/-- The binds and draw calls of a recorded frame, in closed form. -/
theorem bindsAndDraws_recorded (env : Env) (st : State) (drawData : ImDrawData)
    (h : recordsFrame env st drawData) :
    bindsAndDraws (frameCalls env st drawData)
      = texStream 0
          (drawnIndexed
            (ensureCapacity env st.bd.idxBuffer
              (drawData.TotalIdxCount * sizeofImDrawIdx)).1.address
            drawData.CmdLists) := by
  rw [frameCalls_recorded env st drawData h]
  simp only [bindsAndDraws_append, bindsAndDraws_ensureCapacity, bindsAndDraws_cmdListsCalls,
    List.nil_append, Nat.add_zero]
  simp [bindsAndDraws, Call.bindOrDraw?, frameSetup, setRenderStates]

/-- A trace in which every bind is directly followed by a draw call and which
does not end in a bind. -/
theorem bindsDirectlyBeforeDraws_append (a b : List Call)
    (ha : bindsDirectlyBeforeDraws a = true) (hlast : ∀ c, a.getLast? = some c → c.isBindTexture = false)
    (hb : bindsDirectlyBeforeDraws b = true) :
    bindsDirectlyBeforeDraws (a ++ b) = true := by
  induction a with
  | nil => simpa using hb
  | cons c rest ih =>
    cases rest with
    | nil =>
      have hc : c.isBindTexture = false := hlast c rfl
      simp [bindsDirectlyBeforeDraws, hc, hb]
    | cons d rest =>
      have ha' : ((!c.isBindTexture || d.isDrawElements)
          && bindsDirectlyBeforeDraws (d :: rest)) = true := ha
      rw [Bool.and_eq_true] at ha'
      have hrest := ih ha'.2 (fun c hc => hlast c (by rw [List.getLast?_cons_cons]; exact hc))
      show ((!c.isBindTexture || d.isDrawElements)
          && bindsDirectlyBeforeDraws (d :: rest ++ b)) = true
      rw [Bool.and_eq_true]
      exact ⟨ha'.1, hrest⟩

theorem bindsDirectlyBeforeDraws_of_noBind (l : List Call)
    (h : ∀ c ∈ l, Call.isBindTexture c = false) : bindsDirectlyBeforeDraws l = true := by
  induction l with
  | nil => rfl
  | cons c rest ih =>
    simp [bindsDirectlyBeforeDraws, h c (List.mem_cons_self _ _),
      ih (fun d hd => h d (List.mem_cons_of_mem _ hd))]

theorem getLast?_noBind (l : List Call) (h : ∀ c ∈ l, Call.isBindTexture c = false) :
    ∀ c, l.getLast? = some c → c.isBindTexture = false :=
  fun c hc => h c (List.mem_of_getLast?_eq_some hc)

theorem isBindTexture_of_bindOrDraw? (c : Call) (h : Call.bindOrDraw? c = none) :
    Call.isBindTexture c = false := by
  cases c with
  | record cmdBuf cmd => cases cmd <;> simp_all [Call.bindOrDraw?, Call.isBindTexture]
  | _ => rfl

theorem cmdBufferCalls_bindsDirectlyBeforeDraws (cmdBuf : Ptr) (DisplaySize : ImVec2)
    (idxBuffer : MemoryBuffer) (idxOffset : Nat) (cmds : List ImDrawCmd) :
    ∀ bound,
      bindsDirectlyBeforeDraws
          (cmdBufferCalls cmdBuf DisplaySize idxBuffer idxOffset bound cmds) = true
        ∧ ∀ c, (cmdBufferCalls cmdBuf DisplaySize idxBuffer idxOffset bound cmds).getLast?
            = some c → c.isBindTexture = false := by
  induction cmds with
  | nil => intro bound; simp [cmdBufferCalls, bindsDirectlyBeforeDraws]
  | cons cmd cmds ih =>
    intro bound
    unfold cmdBufferCalls
    by_cases hc : cmd.clipped
    · rw [if_pos hc]; exact ih bound
    · rw [if_neg hc]
      obtain ⟨ih1, ih2⟩ := ih cmd.TexID
      have hhead : bindsDirectlyBeforeDraws
            ([ Call.record cmdBuf (.SetViewport 0 0 (truncInt DisplaySize.x)
                  (truncInt DisplaySize.y)),
                Call.record cmdBuf (.SetScissor (truncInt cmd.ClipRect.x)
                  (truncInt cmd.ClipRect.y) (truncInt (cmd.ClipRect.z - cmd.ClipRect.x))
                  (truncInt (cmd.ClipRect.w - cmd.ClipRect.y))) ]
              ++ (if bound ≠ cmd.TexID then [Call.record cmdBuf (.BindTexture 0 cmd.TexID)]
                  else [])
              ++ [ Call.record cmdBuf (.DrawElementsBaseVertex cmd.ElemCount
                    (idxBuffer.address + cmd.IdxOffset * sizeofImDrawIdx + idxOffset)
                    cmd.VtxOffset) ]) = true
          ∧ ∀ c, ([ Call.record cmdBuf (.SetViewport 0 0 (truncInt DisplaySize.x)
                  (truncInt DisplaySize.y)),
                Call.record cmdBuf (.SetScissor (truncInt cmd.ClipRect.x)
                  (truncInt cmd.ClipRect.y) (truncInt (cmd.ClipRect.z - cmd.ClipRect.x))
                  (truncInt (cmd.ClipRect.w - cmd.ClipRect.y))) ]
              ++ (if bound ≠ cmd.TexID then [Call.record cmdBuf (.BindTexture 0 cmd.TexID)]
                  else [])
              ++ [ Call.record cmdBuf (.DrawElementsBaseVertex cmd.ElemCount
                    (idxBuffer.address + cmd.IdxOffset * sizeofImDrawIdx + idxOffset)
                    cmd.VtxOffset) ]).getLast? = some c → c.isBindTexture = false := by
        by_cases hb : bound = cmd.TexID
        · simp [hb, bindsDirectlyBeforeDraws, Call.isBindTexture, Call.isDrawElements]
        · simp [hb, bindsDirectlyBeforeDraws, Call.isBindTexture, Call.isDrawElements]
      refine ⟨bindsDirectlyBeforeDraws_append _ _ hhead.1 hhead.2 ih1, ?_⟩
      intro c hc
      cases hl : (cmdBufferCalls cmdBuf DisplaySize idxBuffer idxOffset cmd.TexID cmds) with
      | nil =>
        rw [hl, List.append_nil] at hc
        exact hhead.2 c hc
      | cons d ds =>
        rw [List.getLast?_append_of_ne_nil _ (by rw [hl]; simp)] at hc
        exact ih2 c hc

theorem cmdListsCalls_bindsDirectlyBeforeDraws (cmdBuf : Ptr) (DisplaySize : ImVec2)
    (vtxBuffer idxBuffer : MemoryBuffer) (lists : List ImDrawList) :
    ∀ vtxOffset idxOffset bound,
      bindsDirectlyBeforeDraws
          (cmdListsCalls cmdBuf DisplaySize vtxBuffer idxBuffer vtxOffset idxOffset bound
            lists) = true
        ∧ ∀ c, (cmdListsCalls cmdBuf DisplaySize vtxBuffer idxBuffer vtxOffset idxOffset bound
            lists).getLast? = some c → c.isBindTexture = false := by
  induction lists with
  | nil => intro _ _ _; simp [cmdListsCalls, bindsDirectlyBeforeDraws]
  | cons l lists ih =>
    intro vtxOffset idxOffset bound
    unfold cmdListsCalls
    obtain ⟨ih1, ih2⟩ := ih (vtxOffset + l.VtxBuffer.length * sizeofImDrawVert)
      (idxOffset + l.IdxBuffer.length * sizeofImDrawIdx) (boundAfter bound l.CmdBuffer)
    obtain ⟨c1, c2⟩ := cmdBufferCalls_bindsDirectlyBeforeDraws cmdBuf DisplaySize idxBuffer
      idxOffset l.CmdBuffer bound
    have hhead : ∀ c ∈ [ Call.record cmdBuf (.BindVertexBuffer 0 (vtxBuffer.address + vtxOffset)
          (l.VtxBuffer.length * sizeofImDrawVert)),
        Call.memcpyVtx (vtxBuffer.address + vtxOffset) l.VtxBuffer,
        Call.memcpyIdx (idxBuffer.address + idxOffset) l.IdxBuffer ],
        Call.isBindTexture c = false := by
      simp [Call.isBindTexture]
    have h12 := bindsDirectlyBeforeDraws_append _ _
      (bindsDirectlyBeforeDraws_of_noBind _ hhead) (getLast?_noBind _ hhead) c1
    have h12last : ∀ c, ([ Call.record cmdBuf (.BindVertexBuffer 0
          (vtxBuffer.address + vtxOffset) (l.VtxBuffer.length * sizeofImDrawVert)),
        Call.memcpyVtx (vtxBuffer.address + vtxOffset) l.VtxBuffer,
        Call.memcpyIdx (idxBuffer.address + idxOffset) l.IdxBuffer ]
        ++ cmdBufferCalls cmdBuf DisplaySize idxBuffer idxOffset bound l.CmdBuffer).getLast?
          = some c → c.isBindTexture = false := by
      intro c hc
      cases hl : (cmdBufferCalls cmdBuf DisplaySize idxBuffer idxOffset bound l.CmdBuffer) with
      | nil =>
        rw [hl, List.append_nil] at hc
        exact getLast?_noBind _ hhead c hc
      | cons d ds =>
        rw [List.getLast?_append_of_ne_nil _ (by rw [hl]; simp)] at hc
        exact c2 c hc
    refine ⟨bindsDirectlyBeforeDraws_append _ _ h12 h12last ih1, ?_⟩
    intro c hc
    cases hl : (cmdListsCalls cmdBuf DisplaySize vtxBuffer idxBuffer
        (vtxOffset + l.VtxBuffer.length * sizeofImDrawVert)
        (idxOffset + l.IdxBuffer.length * sizeofImDrawIdx)
        (boundAfter bound l.CmdBuffer) lists) with
    | nil =>
      rw [hl, List.append_nil] at hc
      exact h12last c hc
    | cons d ds =>
      rw [List.getLast?_append_of_ne_nil _ (by rw [hl]; simp)] at hc
      exact ih2 c hc

/-- In every frame each `BindTexture` is directly followed by a draw call. -/
theorem frameCalls_bindsDirectlyBeforeDraws (env : Env) (st : State) (drawData : ImDrawData) :
    bindsDirectlyBeforeDraws (frameCalls env st drawData) = true := by
  by_cases hrec : recordsFrame env st drawData
  · rw [frameCalls_recorded env st drawData hrec]
    have hr1 := fun c hc => isBindTexture_of_bindOrDraw? c
      (bindOrDraw?_ensureCapacity env st.bd.vtxBuffer
        (drawData.TotalVtxCount * sizeofImDrawVert) c hc)
    have hr2 := fun c hc => isBindTexture_of_bindOrDraw? c
      (bindOrDraw?_ensureCapacity env st.bd.idxBuffer
        (drawData.TotalIdxCount * sizeofImDrawIdx) c hc)
    have hs : ∀ c ∈ frameSetup st.bd (orthoRH_ZO 0 st.DisplaySize.x st.DisplaySize.y 0 (-1) 1),
        Call.isBindTexture c = false := by
      simp [frameSetup, setRenderStates, Call.isBindTexture]
    have hpre : ∀ c ∈ (ensureCapacity env st.bd.vtxBuffer
          (drawData.TotalVtxCount * sizeofImDrawVert)).2
        ++ (ensureCapacity env st.bd.idxBuffer (drawData.TotalIdxCount * sizeofImDrawIdx)).2
        ++ frameSetup st.bd (orthoRH_ZO 0 st.DisplaySize.x st.DisplaySize.y 0 (-1) 1),
        Call.isBindTexture c = false := by
      intro c hc
      simp only [List.mem_append] at hc
      rcases hc with (hc | hc) | hc
      · exact hr1 c hc
      · exact hr2 c hc
      · exact hs c hc
    obtain ⟨l1, l2⟩ := cmdListsCalls_bindsDirectlyBeforeDraws st.bd.cmdBuf st.DisplaySize
      (ensureCapacity env st.bd.vtxBuffer (drawData.TotalVtxCount * sizeofImDrawVert)).1
      (ensureCapacity env st.bd.idxBuffer (drawData.TotalIdxCount * sizeofImDrawIdx)).1
      drawData.CmdLists 0 0 0
    have hfront := bindsDirectlyBeforeDraws_append _ _
      (bindsDirectlyBeforeDraws_of_noBind _ hpre) (getLast?_noBind _ hpre) l1
    refine bindsDirectlyBeforeDraws_append _ _ hfront ?_ (by simp [bindsDirectlyBeforeDraws,
      Call.isBindTexture])
    intro c hc
    cases hl : (cmdListsCalls st.bd.cmdBuf st.DisplaySize
      (ensureCapacity env st.bd.vtxBuffer (drawData.TotalVtxCount * sizeofImDrawVert)).1
      (ensureCapacity env st.bd.idxBuffer (drawData.TotalIdxCount * sizeofImDrawIdx)).1
      0 0 0 drawData.CmdLists) with
    | nil =>
      rw [hl, List.append_nil] at hc
      exact getLast?_noBind _ hpre c hc
    | cons d ds =>
      rw [List.getLast?_append_of_ne_nil _ (by rw [hl]; simp)] at hc
      exact l2 c hc
  · exact bindsDirectlyBeforeDraws_of_noBind _
      (fun c hc => isBindTexture_of_bindOrDraw? c (frameCalls_skipped env st drawData hrec c hc))

/-- Counterexample to C8 as stated: one drawn command with texture handle 0 forms
one maximal run, yet no `BindTexture` is recorded for it, because
`boundTextureHandle` starts at 0. -/
theorem bindTexture_zero_handle_counterexample :
    (textureRuns (drawnIndexed 65536 zeroHandleQuad.CmdLists)).length = 1
      ∧ recordsFrame Env.sample State.ready zeroHandleQuad
      ∧ bindsAndDraws (frameCalls Env.sample State.ready zeroHandleQuad)
          = [Command.DrawElementsBaseVertex 6 65536 0] := by
  refine ⟨?_, by decide, ?_⟩
  · norm_num [textureRuns, drawnIndexed, indexedCommands, zeroHandleQuad, sampleCmd,
      ImDrawCmd.hasPositiveExtent, List.filter_cons, List.splitBy, List.splitBy.loop]
  · rw [bindsAndDraws_recorded _ _ _ (by decide)]
    norm_num [drawnIndexed, indexedCommands, zeroHandleQuad, sampleCmd,
      ImDrawCmd.hasPositiveExtent, List.filter_cons, texStream, drawCommand, sizeofImDrawIdx,
      ensureCapacity, Env.sample, State.ready]

/-- C8, amended: when `renderDrawData` records the frame, `BindTexture` is issued
exactly once per maximal run of consecutive drawn commands (the lists concatenated,
commands with a degenerate clip left out) that share a texture handle, right before
the first draw call of that run, except that a first run whose handle is 0, the
initial value of `boundTextureHandle`, gets no bind. When the frame is skipped no
bind and no draw call is recorded. In every frame each `BindTexture` is directly
followed by a draw call, with no other call in between. In particular a recorded frame of one list with
two valid-clip commands of the same texture handle other than 0 records exactly one
bind followed by two draw calls. -/
theorem texture_bind_once_per_run (env : Env) (st : State) (drawData : ImDrawData) :
    (bindsAndDraws (frameCalls env st drawData)
      = if recordsFrame env st drawData then
          if (drawnIndexed
                (ensureCapacity env st.bd.idxBuffer
                  (drawData.TotalIdxCount * sizeofImDrawIdx)).1.address
                drawData.CmdLists).head?.map (fun p => p.2.TexID) = some 0 then
            (expectedBindsAndDraws
              (ensureCapacity env st.bd.idxBuffer
                (drawData.TotalIdxCount * sizeofImDrawIdx)).1.address
              drawData.CmdLists).tail
          else
            expectedBindsAndDraws
              (ensureCapacity env st.bd.idxBuffer
                (drawData.TotalIdxCount * sizeofImDrawIdx)).1.address
              drawData.CmdLists
        else [])
    ∧ bindsDirectlyBeforeDraws (frameCalls env st drawData) = true
    ∧ (∀ (a b : ImDrawCmd) (idx : List Nat) (vtx : List ImDrawVert),
        drawData.CmdLists = [⟨[a, b], idx, vtx⟩] →
        a.hasPositiveExtent → b.hasPositiveExtent → a.TexID = b.TexID → a.TexID ≠ 0 →
        recordsFrame env st drawData →
        bindsAndDraws (frameCalls env st drawData)
          = [ Command.BindTexture 0 a.TexID,
              drawCommand ((ensureCapacity env st.bd.idxBuffer
                (drawData.TotalIdxCount * sizeofImDrawIdx)).1.address, a),
              drawCommand ((ensureCapacity env st.bd.idxBuffer
                (drawData.TotalIdxCount * sizeofImDrawIdx)).1.address, b) ]) := by
  refine ⟨?_, frameCalls_bindsDirectlyBeforeDraws env st drawData, ?_⟩
  · by_cases hrec : recordsFrame env st drawData
    · rw [if_pos hrec, bindsAndDraws_recorded env st drawData hrec, texStream_eq_runs]
      rfl
    · rw [if_neg hrec, bindsAndDraws_skipped env st drawData hrec]
  · intro a b idx vtx hl ha hb hT h0 hrec
    have h0' : ¬ (0 = a.TexID) := fun h => h0 h.symm
    have h0b : ¬ (0 = b.TexID) := fun h => h0 (hT.trans h.symm)
    rw [bindsAndDraws_recorded env st drawData hrec, hl]
    simp [drawnIndexed, indexedCommands, ha, hb, texStream, hT, h0b]

/-- Witness of the amended C8: the sample frame of two valid quads with texture
handle 257 records one bind and two draw calls. -/
theorem texture_bind_once_per_run_witness :
    bindsAndDraws (frameCalls Env.sample State.ready twoQuads)
      = [ Command.BindTexture 0 257,
          Command.DrawElementsBaseVertex 6 65536 0,
          Command.DrawElementsBaseVertex 6 65548 0 ] :=
  ((texture_bind_once_per_run Env.sample State.ready twoQuads).2.2
    (sampleCmd ⟨0, 0, 100, 100⟩ 257 0) (sampleCmd ⟨10, 10, 50, 50⟩ 257 6)
    (List.replicate 12 0) (List.replicate 8 ⟨⟨0, 0⟩, ⟨0, 0⟩, 0⟩) rfl
    (by norm_num [ImDrawCmd.hasPositiveExtent, sampleCmd])
    (by norm_num [ImDrawCmd.hasPositiveExtent, sampleCmd])
    rfl (by decide) (by decide)).trans
    (by simp [drawCommand, sampleCmd, sizeofImDrawIdx, ensureCapacity, Env.sample,
      State.ready, State.initial, twoQuads])

/-! ### The resize step -/

theorem ensureCapacity_untouched (env : Env) (b : MemoryBuffer) (r : Nat) (h : r ≤ b.poolSize) :
    ensureCapacity env (some b) r = (b, []) := by
  simp [ensureCapacity, Nat.not_lt.mpr h]

theorem ensureCapacity_poolSize (env : Env) (buffer : Option MemoryBuffer) (r : Nat)
    (halloc : r ≤ (env.newMemoryBuffer r).poolSize) :
    r ≤ (ensureCapacity env buffer r).1.poolSize
      ∧ ∀ b, buffer = some b → b.poolSize ≤ (ensureCapacity env buffer r).1.poolSize := by
  cases buffer with
  | none => exact ⟨by simpa [ensureCapacity] using halloc, fun b hb => by simp at hb⟩
  | some b0 =>
    by_cases hlt : b0.poolSize < r
    · refine ⟨by simpa [ensureCapacity, hlt] using halloc, fun b hb => ?_⟩
      simp only [Option.some.injEq] at hb
      subst hb
      simp only [ensureCapacity, hlt, if_true]
      omega
    · refine ⟨by simp only [ensureCapacity, hlt, if_false]; omega, fun b hb => ?_⟩
      simp only [Option.some.injEq] at hb
      subst hb
      simp [ensureCapacity, hlt]

theorem ensureCapacities_untouched (env : Env) (sizes : List Nat) :
    ∀ b : MemoryBuffer, (∀ s ∈ sizes, s ≤ b.poolSize) →
      ensureCapacities env b sizes = (b, []) := by
  induction sizes with
  | nil => intro b _; rfl
  | cons s sizes ih =>
    intro b h
    have hs : s ≤ b.poolSize := h s (List.mem_cons_self _ _)
    have := ih b (fun t ht => h t (List.mem_cons_of_mem _ ht))
    unfold ensureCapacities at this ⊢
    rw [List.foldl_cons, ensureCapacity_untouched env b s hs]
    simpa using this

theorem renderDrawData_buffers (env : Env) (st : State) (drawData : ImDrawData) :
    ((renderDrawData env st drawData).bd.vtxBuffer = st.bd.vtxBuffer
      ∨ ∃ r, (renderDrawData env st drawData).bd.vtxBuffer
          = some (ensureCapacity env st.bd.vtxBuffer r).1)
    ∧ ((renderDrawData env st drawData).bd.idxBuffer = st.bd.idxBuffer
      ∨ ∃ r, (renderDrawData env st drawData).bd.idxBuffer
          = some (ensureCapacity env st.bd.idxBuffer r).1) := by
  by_cases h1 : drawData.Valid = true
  swap
  · simp [renderDrawData, h1]
  by_cases h2 : drawData.CmdListsCount = 0
  · simp [renderDrawData, h1, h2]
  by_cases h3 : st.bd.isInitialized = true
  swap
  · simp [renderDrawData, h1, h2, h3]
  by_cases h4 : st.bd.isUseTestShader = true
  · refine ⟨Or.inr ⟨6 * sizeofImDrawVert, ?_⟩, Or.inl ?_⟩
    · by_cases hr : (ensureCapacity env st.bd.vtxBuffer (6 * sizeofImDrawVert)).1.ready = true
        <;> simp [renderDrawData, renderTestShader, h1, h2, h3, h4, hr, State.emit]
    · by_cases hr : (ensureCapacity env st.bd.vtxBuffer (6 * sizeofImDrawVert)).1.ready = true
        <;> simp [renderDrawData, renderTestShader, h1, h2, h3, h4, hr, State.emit]
  · refine ⟨Or.inr ⟨drawData.TotalVtxCount * sizeofImDrawVert, ?_⟩,
      Or.inr ⟨drawData.TotalIdxCount * sizeofImDrawIdx, ?_⟩⟩
    · by_cases h5 : ((ensureCapacity env st.bd.vtxBuffer
            (drawData.TotalVtxCount * sizeofImDrawVert)).1.ready
          && (ensureCapacity env st.bd.idxBuffer
            (drawData.TotalIdxCount * sizeofImDrawIdx)).1.ready) = true
        <;> simp [renderDrawData, h1, h2, h3, h4, h5, State.emit]
    · by_cases h5 : ((ensureCapacity env st.bd.vtxBuffer
            (drawData.TotalVtxCount * sizeofImDrawVert)).1.ready
          && (ensureCapacity env st.bd.idxBuffer
            (drawData.TotalIdxCount * sizeofImDrawIdx)).1.ready) = true
        <;> simp [renderDrawData, h1, h2, h3, h4, h5, State.emit]

/-- C10: the resize step never shrinks a buffer. Given that a new allocation of `n`
bytes reports a capacity of at least `n`: from capacity `c` and required size `r`
the capacity afterwards is at least `max c r` (from no buffer, at least `r`); when
`r <= c` the buffer is left untouched, with no finalize and no allocation; after a
step for size `r`, repeating the step with sizes that do not exceed `r` (so with any
non-increasing sequence of sizes) changes nothing; and across `renderDrawData` the
capacity of the vertex buffer and of the index buffer never decreases. -/
theorem ensureCapacity_never_shrinks (env : Env)
    (halloc : ∀ n, n ≤ (env.newMemoryBuffer n).poolSize)
    (buffer : Option MemoryBuffer) (b : MemoryBuffer) (r : Nat) (sizes : List Nat)
    (st : State) (drawData : ImDrawData) :
    max b.poolSize r ≤ (ensureCapacity env (some b) r).1.poolSize
      ∧ r ≤ (ensureCapacity env none r).1.poolSize
      ∧ (r ≤ b.poolSize → ensureCapacity env (some b) r = (b, []))
      ∧ ((∀ s ∈ sizes, s ≤ r) →
          ensureCapacities env (ensureCapacity env buffer r).1 sizes
            = ((ensureCapacity env buffer r).1, []))
      ∧ (List.Chain (fun x y => y ≤ x) r sizes →
          ensureCapacities env (ensureCapacity env buffer r).1 sizes
            = ((ensureCapacity env buffer r).1, []))
      ∧ (st.bd.vtxBuffer = some b →
          ∃ b', (renderDrawData env st drawData).bd.vtxBuffer = some b'
            ∧ b.poolSize ≤ b'.poolSize)
      ∧ (st.bd.idxBuffer = some b →
          ∃ b', (renderDrawData env st drawData).bd.idxBuffer = some b'
            ∧ b.poolSize ≤ b'.poolSize) := by
  have hidem : (∀ s ∈ sizes, s ≤ r) →
      ensureCapacities env (ensureCapacity env buffer r).1 sizes
        = ((ensureCapacity env buffer r).1, []) := fun hs =>
    ensureCapacities_untouched env sizes _
      (fun s h => Nat.le_trans (hs s h) (ensureCapacity_poolSize env buffer r (halloc r)).1)
  refine ⟨?_, (ensureCapacity_poolSize env none r (halloc r)).1,
    ensureCapacity_untouched env b r, hidem, ?_, ?_, ?_⟩
  · exact Nat.max_le.mpr ⟨(ensureCapacity_poolSize env (some b) r (halloc r)).2 b rfl,
      (ensureCapacity_poolSize env (some b) r (halloc r)).1⟩
  · intro hchain
    apply hidem
    have hp := List.chain_iff_pairwise.mp hchain
    intro s hs
    exact List.rel_of_pairwise_cons hp hs
  · intro hb
    rcases (renderDrawData_buffers env st drawData).1 with h | ⟨r', h⟩
    · exact ⟨b, by rw [h, hb], Nat.le_refl _⟩
    · exact ⟨_, h, (ensureCapacity_poolSize env st.bd.vtxBuffer r' (halloc r')).2 b hb⟩
  · intro hb
    rcases (renderDrawData_buffers env st drawData).2 with h | ⟨r', h⟩
    · exact ⟨b, by rw [h, hb], Nat.le_refl _⟩
    · exact ⟨_, h, (ensureCapacity_poolSize env st.bd.idxBuffer r' (halloc r')).2 b hb⟩

/-- Witness of C10 on the sample allocator, which rounds sizes up to whole pages: a
buffer of 4096 bytes asked for 5000 grows to at least 5000, asked for 100 it stays
as it is, and after the growth the sizes 5000, 4097, 300 change nothing. -/
theorem ensureCapacity_never_shrinks_witness :
    max 4096 5000 ≤ (ensureCapacity Env.sample (some ⟨65536, 4096, true⟩) 5000).1.poolSize
      ∧ ensureCapacity Env.sample (some ⟨65536, 8192, true⟩) 100 = (⟨65536, 8192, true⟩, [])
      ∧ ensureCapacities Env.sample
          (ensureCapacity Env.sample (some ⟨65536, 4096, true⟩) 5000).1 [5000, 4097, 300]
          = ((ensureCapacity Env.sample (some ⟨65536, 4096, true⟩) 5000).1, []) :=
  ⟨(ensureCapacity_never_shrinks Env.sample (fun n => by show n ≤ (n + 4095) / 4096 * 4096; omega)
      (some ⟨65536, 4096, true⟩) ⟨65536, 4096, true⟩ 5000 [5000, 4097, 300]
      State.ready twoQuads).1,
   (ensureCapacity_never_shrinks Env.sample (fun n => by show n ≤ (n + 4095) / 4096 * 4096; omega)
      (some ⟨65536, 4096, true⟩) ⟨65536, 8192, true⟩ 100 [5000, 4097, 300]
      State.ready twoQuads).2.2.1 (by decide),
   (ensureCapacity_never_shrinks Env.sample (fun n => by show n ≤ (n + 4095) / 4096 * 4096; omega)
      (some ⟨65536, 4096, true⟩) ⟨65536, 4096, true⟩ 5000 [5000, 4097, 300]
      State.ready twoQuads).2.2.2.2.1 (by simp)⟩

/-! ### The projection matrix -/

theorem clipPosition_ortho (W H : ℚ) (hW : 0 < W) (hH : 0 < H) :
    clipPosition (orthoRH_ZO 0 W H 0 (-1) 1) 0 0 = (-1, 1)
      ∧ clipPosition (orthoRH_ZO 0 W H 0 (-1) 1) W H = (1, -1) := by
  have hW0 : W ≠ 0 := ne_of_gt hW
  have hH0 : H ≠ 0 := ne_of_gt hH
  refine ⟨?_, ?_⟩
  · simp only [clipPosition, orthoRH_ZO, Prod.mk.injEq]
    constructor
    · simp; field_simp
    · simp; field_simp
  · simp only [clipPosition, orthoRH_ZO, Prod.mk.injEq]
    constructor
    · simp; field_simp; ring
    · simp
      rw [div_self hH0, div_neg, neg_mul, div_mul_cancel₀ _ hH0]
      norm_num

theorem renderDrawData_projMatrix (env : Env) (st : State) (drawData : ImDrawData) :
    (renderDrawData env st drawData).projMatrix
      = if recordsFrame env st drawData then
          orthoRH_ZO 0 st.DisplaySize.x st.DisplaySize.y 0 (-1) 1
        else st.projMatrix := by
  by_cases h : recordsFrame env st drawData
  · rw [if_pos h]
    obtain ⟨h1, h2, h3, h4, h5, h6⟩ := h
    simp [renderDrawData, h1, h2, h3, h4, h5, h6, State.emit]
  · rw [if_neg h]
    by_cases h1 : drawData.Valid = true
    swap
    · simp [renderDrawData, h1]
    by_cases h2 : drawData.CmdListsCount = 0
    · simp [renderDrawData, h1, h2]
    by_cases h3 : st.bd.isInitialized = true
    swap
    · simp [renderDrawData, h1, h2, h3]
    by_cases h4 : st.bd.isUseTestShader = true
    · simp only [renderDrawData, h1, h2, h3, h4, Bool.not_true, Bool.false_eq_true, if_false,
        if_true]
      unfold renderTestShader
      simp only [State.emit]
      split <;> rfl
    by_cases h5 : ((ensureCapacity env st.bd.vtxBuffer
          (drawData.TotalVtxCount * sizeofImDrawVert)).1.ready
        && (ensureCapacity env st.bd.idxBuffer
          (drawData.TotalIdxCount * sizeofImDrawIdx)).1.ready) = true
    · exfalso
      simp only [Bool.and_eq_true] at h5
      exact h ⟨h1, h2, h3, by simpa using h4, h5.1, h5.2⟩
    · simp [renderDrawData, h1, h2, h3, h4, h5]

theorem setCrop_DisplaySize (st : State) (window : Ptr) (hinit : st.hasInitImGui = true) :
    (setCrop st window 0 0 1280 720).DisplaySize = ⟨1280, 720⟩ := by
  simp [setCrop, State.emit, hinit, wrapInt32]

theorem started_fields :
    State.started.hasInitImGui = true ∧ State.started.DisplaySize = ⟨1600, 900⟩
      ∧ State.started.projMatrix = orthoRH_ZO 0 1600 900 0 (-1) 1
      ∧ State.started.bd.isInitialized = true := by
  refine ⟨rfl, rfl, rfl, rfl⟩

/-- C11, counterexample: the overlay is started with the 1600x900 default and then
sees `setCrop(window, 0, 0, 1280, 720)`, so the display size is 1280x720; the next
`renderDrawData` gets a valid frame without command lists and returns at the guard
before the matrix is recomputed. The matrix is still the one of 1600x900, which maps
`(1280, 720)` to `(3/5, -3/5)` and not to the corner `(1, -1)`. -/
theorem renderDrawData_stale_matrix_counterexample :
    (setCrop State.started 0 0 0 1280 720).hasInitImGui = true
      ∧ (setCrop State.started 0 0 0 1280 720).bd.isInitialized = true
      ∧ (setCrop State.started 0 0 0 1280 720).DisplaySize = ⟨1280, 720⟩
      ∧ (renderDrawData Env.sample (setCrop State.started 0 0 0 1280 720) emptyFrame).projMatrix
          = orthoRH_ZO 0 1600 900 0 (-1) 1
      ∧ clipPosition (renderDrawData Env.sample (setCrop State.started 0 0 0 1280 720)
          emptyFrame).projMatrix 1280 720 = (3 / 5, -3 / 5) := by
  have hm : (renderDrawData Env.sample (setCrop State.started 0 0 0 1280 720)
      emptyFrame).projMatrix = orthoRH_ZO 0 1600 900 0 (-1) 1 := rfl
  refine ⟨rfl, rfl, setCrop_DisplaySize _ _ rfl, hm, ?_⟩
  rw [hm]
  simp only [clipPosition, orthoRH_ZO, Prod.mk.injEq]
  constructor
  · simp; norm_num
  · simp; norm_num

/-- C11, amended: for every width `W > 0` and height `H > 0` the matrix
`orthoRH_ZO(0, W, H, 0, -1, 1)`, computed over the rationals, maps `(0, 0)` to the
clip-space corner `(-1, 1)` and `(W, H)` to `(1, -1)`. Once the overlay is started,
`setCrop(window, 0, 0, 1280, 720)` makes the display size 1280x720; the next
`renderDrawData` recomputes the matrix with `W = 1280`, `H = 720` and uploads it
when it records a frame, so that `(1280, 720)` and `(0, 0)` map to those corners,
and leaves the matrix as it was when the frame is skipped. -/
theorem projection_maps_display_corners (W H : ℚ) (hW : 0 < W) (hH : 0 < H)
    (env : Env) (st : State) (window : Ptr) (drawData : ImDrawData)
    (hinit : st.hasInitImGui = true) :
    clipPosition (orthoRH_ZO 0 W H 0 (-1) 1) 0 0 = (-1, 1)
      ∧ clipPosition (orthoRH_ZO 0 W H 0 (-1) 1) W H = (1, -1)
      ∧ (setCrop st window 0 0 1280 720).DisplaySize = ⟨1280, 720⟩
      ∧ (if recordsFrame env (setCrop st window 0 0 1280 720) drawData then
          (renderDrawData env (setCrop st window 0 0 1280 720) drawData).projMatrix
              = orthoRH_ZO 0 1280 720 0 (-1) 1
            ∧ Call.record st.bd.cmdBuf (.UpdateUniformBuffer sizeofProjMatrix
                (orthoRH_ZO 0 1280 720 0 (-1) 1))
              ∈ frameCalls env (setCrop st window 0 0 1280 720) drawData
            ∧ clipPosition
                (renderDrawData env (setCrop st window 0 0 1280 720) drawData).projMatrix
                1280 720 = (1, -1)
            ∧ clipPosition
                (renderDrawData env (setCrop st window 0 0 1280 720) drawData).projMatrix
                0 0 = (-1, 1)
        else
          (renderDrawData env (setCrop st window 0 0 1280 720) drawData).projMatrix
            = st.projMatrix) := by
  have hsize := setCrop_DisplaySize st window hinit
  have hbd : (setCrop st window 0 0 1280 720).bd = st.bd := by
    simp [setCrop, State.emit, hinit]
  have hpm : (setCrop st window 0 0 1280 720).projMatrix = st.projMatrix := by
    simp [setCrop, State.emit, hinit]
  refine ⟨(clipPosition_ortho W H hW hH).1, (clipPosition_ortho W H hW hH).2, hsize, ?_⟩
  rw [renderDrawData_projMatrix]
  split
  · rename_i hrec
    rw [hsize]
    refine ⟨rfl, ?_, (clipPosition_ortho 1280 720 (by norm_num) (by norm_num)).2,
      (clipPosition_ortho 1280 720 (by norm_num) (by norm_num)).1⟩
    rw [frameCalls_recorded env _ drawData hrec, hsize, hbd]
    simp [frameSetup]
  · exact hpm

/-- Witness of the amended C11: the 1600x900 matrix maps `(1600, 900)` to `(1, -1)`,
and the sample frame of two quads recorded after the crop recomputes the matrix for
1280x720. -/
theorem projection_maps_display_corners_witness :
    (0 : ℚ) < 1600 ∧ (0 : ℚ) < 900 ∧ State.started.hasInitImGui = true
      ∧ recordsFrame Env.sample (setCrop State.started 0 0 0 1280 720) twoQuads
      ∧ clipPosition (orthoRH_ZO 0 1600 900 0 (-1) 1) 1600 900 = (1, -1)
      ∧ (renderDrawData Env.sample (setCrop State.started 0 0 0 1280 720) twoQuads).projMatrix
          = orthoRH_ZO 0 1280 720 0 (-1) 1 := by
  have h := projection_maps_display_corners 1600 900 (by norm_num) (by norm_num)
    Env.sample State.started 0 twoQuads rfl
  have hrec : recordsFrame Env.sample (setCrop State.started 0 0 0 1280 720) twoQuads := by
    decide
  refine ⟨by norm_num, by norm_num, rfl, hrec, h.2.1, ?_⟩
  have h4 := h.2.2.2
  rw [if_pos hrec] at h4
  exact h4.1

/-! ### The callback queues -/

theorem mem_firstRegistrations (fs : List Callback) :
    ∀ f, f ∈ firstRegistrations fs ↔ f ∈ fs := by
  induction fs with
  | nil => intro f; simp [firstRegistrations]
  | cons g rest ih =>
    intro f
    simp only [firstRegistrations, List.mem_cons, List.mem_filter, ih, decide_eq_true_eq]
    by_cases h : f = g
    · simp [h]
    · simp [h]

theorem nodup_firstRegistrations (fs : List Callback) : (firstRegistrations fs).Nodup := by
  induction fs with
  | nil => simp [firstRegistrations]
  | cons g rest ih =>
    simp only [firstRegistrations, List.nodup_cons, List.mem_filter, decide_eq_true_eq]
    exact ⟨fun h => h.2 rfl, ih.filter _⟩

theorem addDrawFunc_queue (st : State) (f : Callback) :
    (addDrawFunc st f).drawQueue = (if f ∈ st.drawQueue then st.drawQueue else st.drawQueue ++ [f])
      ∧ (addDrawFunc st f).initQueue = st.initQueue := by
  by_cases h : f ∈ st.drawQueue
  · simp [addDrawFunc, XENO_ASSERT, h, State.emit]
  · simp [addDrawFunc, XENO_ASSERT, h]

theorem addInitFunc_queue (st : State) (f : Callback) :
    (addInitFunc st f).initQueue = (if f ∈ st.initQueue then st.initQueue else st.initQueue ++ [f])
      ∧ (addInitFunc st f).drawQueue = st.drawQueue := by
  by_cases h : f ∈ st.initQueue
  · simp [addInitFunc, XENO_ASSERT, h, State.emit]
  · simp [addInitFunc, XENO_ASSERT, h]

/-- Appending the callbacks of `fs` one by one, skipping those already present. -/
theorem foldl_push_unique (fs : List Callback) :
    ∀ q : List Callback,
      fs.foldl (fun q f => if f ∈ q then q else q ++ [f]) q
        = q ++ (firstRegistrations fs).filter (fun g => decide (g ∉ q)) := by
  induction fs with
  | nil => intro q; simp [firstRegistrations]
  | cons f rest ih =>
    intro q
    rw [List.foldl_cons, ih]
    by_cases h : f ∈ q
    · simp only [h, if_true, firstRegistrations, List.filter_cons, not_true_eq_false,
        decide_False, Bool.false_eq_true, if_false, List.filter_filter]
      congr 1
      apply List.filter_congr
      intro x _
      by_cases hx : x ∈ q
      · simp [hx]
      · have : x ≠ f := fun e => hx (e ▸ h)
        simp [hx, this]
    · simp only [h, if_false, firstRegistrations, List.filter_cons, not_false_eq_true,
        decide_True, if_true, List.filter_filter, List.append_assoc, List.singleton_append]
      congr 2
      apply List.filter_congr
      intro x _
      by_cases hx : x ∈ q
      · simp [hx]
      · by_cases hxf : x = f
        · simp [hx, hxf]
        · simp [hx, hxf]

theorem registerAll_queues (regs : List Registration) :
    ∀ st : State,
      (registerAll st regs).drawQueue
          = (drawRegistrations regs).foldl (fun q f => if f ∈ q then q else q ++ [f]) st.drawQueue
        ∧ (registerAll st regs).initQueue
          = (initRegistrations regs).foldl (fun q f => if f ∈ q then q else q ++ [f])
              st.initQueue := by
  induction regs with
  | nil => intro st; simp [registerAll, drawRegistrations, initRegistrations]
  | cons r rest ih =>
    intro st
    obtain ⟨h1, h2⟩ := ih (register st r)
    unfold registerAll at h1 h2 ⊢
    rw [List.foldl_cons, h1, h2]
    cases r with
    | draw f =>
      simp [register, drawRegistrations, initRegistrations, (addDrawFunc_queue st f).1,
        (addDrawFunc_queue st f).2]
    | init f =>
      simp [register, drawRegistrations, initRegistrations, (addInitFunc_queue st f).1,
        (addInitFunc_queue st f).2]
/-- C12: `addDrawFunc(f)` and `addInitFunc(f)` reject the registration when `f` is
already in the respective queue (the queue is unchanged and the failed assertion is
all that happens), and otherwise append `f` as the last element, the earlier
elements staying as they were. Hence after every sequence of registrations that
starts with empty queues each queue lists the registered callbacks in
first-registration order, and a queue without duplicates never gets one. -/
theorem registration_rejects_duplicates (st : State) (f : Callback)
    (regs : List Registration) :
    (f ∈ st.drawQueue →
        (addDrawFunc st f).drawQueue = st.drawQueue
          ∧ (addDrawFunc st f).initQueue = st.initQueue
          ∧ (addDrawFunc st f).trace
              = st.trace ++ [Call.assertFailed "Function has already been added to queue!"])
      ∧ (f ∉ st.drawQueue →
        (addDrawFunc st f).drawQueue = st.drawQueue ++ [f]
          ∧ (addDrawFunc st f).initQueue = st.initQueue
          ∧ (addDrawFunc st f).trace = st.trace)
      ∧ (f ∈ st.initQueue →
        (addInitFunc st f).initQueue = st.initQueue
          ∧ (addInitFunc st f).drawQueue = st.drawQueue
          ∧ (addInitFunc st f).trace
              = st.trace ++ [Call.assertFailed "Function has already been added to queue!"])
      ∧ (f ∉ st.initQueue →
        (addInitFunc st f).initQueue = st.initQueue ++ [f]
          ∧ (addInitFunc st f).drawQueue = st.drawQueue
          ∧ (addInitFunc st f).trace = st.trace)
      ∧ (st.drawQueue = [] →
        (registerAll st regs).drawQueue = firstRegistrations (drawRegistrations regs))
      ∧ (st.initQueue = [] →
        (registerAll st regs).initQueue = firstRegistrations (initRegistrations regs))
      ∧ (st.drawQueue.Nodup → (registerAll st regs).drawQueue.Nodup)
      ∧ (st.initQueue.Nodup → (registerAll st regs).initQueue.Nodup)
      ∧ (firstRegistrations (drawRegistrations regs)).Nodup
      ∧ (∀ g, g ∈ firstRegistrations (drawRegistrations regs) ↔ Registration.draw g ∈ regs)
      ∧ (firstRegistrations (initRegistrations regs)).Nodup
      ∧ (∀ g, g ∈ firstRegistrations (initRegistrations regs)
          ↔ Registration.init g ∈ regs) := by
  have hq := registerAll_queues regs st
  have hnodup : ∀ (q fs : List Callback), q.Nodup →
      (q ++ (firstRegistrations fs).filter (fun g => decide (g ∉ q))).Nodup := by
    intro q fs hqn
    rw [List.nodup_append]
    refine ⟨hqn, (nodup_firstRegistrations fs).filter _, ?_⟩
    intro x hx hx2
    rw [List.mem_filter] at hx2
    simp only [decide_eq_true_eq] at hx2
    exact hx2.2 hx
  refine ⟨?_, ?_, ?_, ?_, ?_, ?_, ?_, ?_, nodup_firstRegistrations _, ?_,
    nodup_firstRegistrations _, ?_⟩
  · intro h
    simp [addDrawFunc, XENO_ASSERT, h, State.emit]
  · intro h
    simp [addDrawFunc, XENO_ASSERT, h]
  · intro h
    simp [addInitFunc, XENO_ASSERT, h, State.emit]
  · intro h
    simp [addInitFunc, XENO_ASSERT, h]
  · intro h
    rw [hq.1, foldl_push_unique, h]
    simp
  · intro h
    rw [hq.2, foldl_push_unique, h]
    simp
  · intro h
    rw [hq.1, foldl_push_unique]
    exact hnodup _ _ h
  · intro h
    rw [hq.2, foldl_push_unique]
    exact hnodup _ _ h
  · intro g
    rw [mem_firstRegistrations]
    simp only [drawRegistrations, List.mem_filterMap]
    constructor
    · rintro ⟨r, hr, hg⟩
      cases r with
      | draw f0 => simp only [Option.some.injEq] at hg; subst hg; exact hr
      | init f0 => simp at hg
    · intro h
      exact ⟨_, h, rfl⟩
  · intro g
    rw [mem_firstRegistrations]
    simp only [initRegistrations, List.mem_filterMap]
    constructor
    · rintro ⟨r, hr, hg⟩
      cases r with
      | draw f0 => simp at hg
      | init f0 => simp only [Option.some.injEq] at hg; subst hg; exact hr
    · intro h
      exact ⟨_, h, rfl⟩

/-- Witness of C12: six registrations with two repeats leave the draw queue
`[4, 9, 7]` and the init queue `[2]`; registering 4 again changes nothing,
registering 7 appends it. -/
theorem registration_rejects_duplicates_witness :
    (registerAll State.initial [.draw 4, .init 2, .draw 9, .draw 4, .init 2, .draw 7]).drawQueue
        = [4, 9, 7]
      ∧ (registerAll State.initial
          [.draw 4, .init 2, .draw 9, .draw 4, .init 2, .draw 7]).initQueue = [2]
      ∧ (addDrawFunc (registerAll State.initial [.draw 4, .draw 9]) 4).drawQueue = [4, 9]
      ∧ (addDrawFunc (registerAll State.initial [.draw 4, .draw 9]) 7).drawQueue = [4, 9, 7] := by
  have h := registration_rejects_duplicates State.initial 0
    [.draw 4, .init 2, .draw 9, .draw 4, .init 2, .draw 7]
  have h2 := registration_rejects_duplicates (registerAll State.initial [.draw 4, .draw 9]) 4 []
  have h3 := registration_rejects_duplicates (registerAll State.initial [.draw 4, .draw 9]) 7 []
  refine ⟨?_, ?_, ?_, ?_⟩
  · rw [h.2.2.2.2.1 rfl]; decide
  · rw [h.2.2.2.2.2.1 rfl]; decide
  · rw [(h2.1 (by decide)).1]; decide
  · rw [(h3.2.1 (by decide)).1]; decide

/-! ### The calls of a frame, case by case -/

theorem cmdBufferCalls_isLoopCall (cmdBuf : Ptr) (DisplaySize : ImVec2)
    (idxBuffer : MemoryBuffer) (idxOffset : Nat) (cmds : List ImDrawCmd) :
    ∀ bound, ∀ c ∈ cmdBufferCalls cmdBuf DisplaySize idxBuffer idxOffset bound cmds,
      Call.isLoopCall cmdBuf c = true := by
  induction cmds with
  | nil => intro bound c hc; simp [cmdBufferCalls] at hc
  | cons cmd cmds ih =>
    intro bound c hc
    unfold cmdBufferCalls at hc
    split at hc
    · exact ih _ c hc
    · simp only [List.mem_append, List.mem_cons, List.mem_singleton, List.not_mem_nil,
        or_false] at hc
      rcases hc with ((hc | hc) | hc) | hc
      · rcases hc with hc | hc <;> subst hc <;> simp [Call.isLoopCall]
      · split at hc
        · simp only [List.mem_singleton] at hc; subst hc; simp [Call.isLoopCall]
        · simp at hc
      · subst hc; simp [Call.isLoopCall]
      · exact ih _ c hc

theorem cmdListsCalls_isLoopCall (cmdBuf : Ptr) (DisplaySize : ImVec2)
    (vtxBuffer idxBuffer : MemoryBuffer) (lists : List ImDrawList) :
    ∀ vtxOffset idxOffset bound,
      ∀ c ∈ cmdListsCalls cmdBuf DisplaySize vtxBuffer idxBuffer vtxOffset idxOffset bound lists,
        Call.isLoopCall cmdBuf c = true := by
  induction lists with
  | nil => intro _ _ _ c hc; simp [cmdListsCalls] at hc
  | cons l lists ih =>
    intro vtxOffset idxOffset bound c hc
    unfold cmdListsCalls at hc
    simp only [List.mem_append, List.mem_cons, List.mem_singleton, List.not_mem_nil,
      or_false] at hc
    rcases hc with (hc | hc) | hc
    · rcases hc with hc | hc | hc <;> subst hc <;> simp [Call.isLoopCall]
    · exact cmdBufferCalls_isLoopCall _ _ _ _ _ _ c hc
    · exact ih _ _ _ c hc

theorem isFrameBoundary_of_isLoopCall (cmdBuf : Ptr) (c : Call)
    (h : Call.isLoopCall cmdBuf c = true) : Call.isFrameBoundary c = false := by
  cases c with
  | record b cmd => cases cmd <;> simp_all [Call.isLoopCall, Call.isFrameBoundary]
  | _ => simp_all [Call.isLoopCall, Call.isFrameBoundary]

theorem isCommand_ensureCapacity (env : Env) (buffer : Option MemoryBuffer) (totalSize : Nat) :
    ∀ c ∈ (ensureCapacity env buffer totalSize).2, Call.isCommand c = false := by
  unfold ensureCapacity
  cases buffer with
  | none => simp [Call.isCommand]
  | some b => by_cases hb : b.poolSize < totalSize <;> simp [hb, Call.isCommand]

theorem renderDrawData_trace (env : Env) (st : State) (drawData : ImDrawData) :
    (renderDrawData env st drawData).trace = st.trace ++ frameCalls env st drawData := by
  obtain ⟨_, _, delta, h, _⟩ := renderDrawData_appends env st drawData
  unfold frameCalls
  rw [h, List.drop_left]

theorem renderDrawData_guarded (env : Env) (st : State) (drawData : ImDrawData)
    (h : drawData.Valid = false ∨ drawData.CmdListsCount = 0 ∨ st.bd.isInitialized = false) :
    renderDrawData env st drawData = st := by
  by_cases h1 : drawData.Valid = true
  swap
  · simp [renderDrawData, h1]
  by_cases h2 : drawData.CmdListsCount = 0
  · simp [renderDrawData, h1, h2]
  by_cases h3 : st.bd.isInitialized = true
  swap
  · simp [renderDrawData, h1, h2, h3]
  rcases h with h | h | h
  · rw [h] at h1; cases h1
  · exact absurd h h2
  · rw [h] at h3; cases h3

theorem frameCalls_guarded (env : Env) (st : State) (drawData : ImDrawData)
    (h : drawData.Valid = false ∨ drawData.CmdListsCount = 0 ∨ st.bd.isInitialized = false) :
    frameCalls env st drawData = [] := by
  unfold frameCalls
  rw [renderDrawData_guarded env st drawData h]
  simp

theorem renderDrawData_testShader (env : Env) (st : State) (drawData : ImDrawData)
    (h1 : drawData.Valid = true) (h2 : drawData.CmdListsCount ≠ 0)
    (h3 : st.bd.isInitialized = true) (h4 : st.bd.isUseTestShader = true) :
    renderDrawData env st drawData = renderTestShader env st := by
  simp [renderDrawData, h1, h2, h3, h4]

theorem frameCalls_testShader (env : Env) (st : State) (drawData : ImDrawData)
    (h1 : drawData.Valid = true) (h2 : drawData.CmdListsCount ≠ 0)
    (h3 : st.bd.isInitialized = true) (h4 : st.bd.isUseTestShader = true) :
    frameCalls env st drawData
      = (ensureCapacity env st.bd.vtxBuffer (6 * sizeofImDrawVert)).2
        ++ (if (ensureCapacity env st.bd.vtxBuffer (6 * sizeofImDrawVert)).1.ready = true then
              testShaderCalls env st (ensureCapacity env st.bd.vtxBuffer (6 * sizeofImDrawVert)).1
            else []) := by
  unfold frameCalls
  rw [renderDrawData_testShader env st drawData h1 h2 h3 h4]
  unfold renderTestShader
  by_cases hr : (ensureCapacity env st.bd.vtxBuffer (6 * sizeofImDrawVert)).1.ready = true
  · simp only [hr, State.emit, Bool.not_true, Bool.false_eq_true, if_false, if_true,
      List.append_assoc, List.drop_left]
    simp [testShaderCalls, setRenderStates]
  · simp only [hr, Bool.not_false, if_true, if_false, List.drop_left, List.append_nil,
      Bool.false_eq_true]

theorem frameCalls_notReady (env : Env) (st : State) (drawData : ImDrawData)
    (h1 : drawData.Valid = true) (h2 : drawData.CmdListsCount ≠ 0)
    (h3 : st.bd.isInitialized = true) (h4 : st.bd.isUseTestShader = false)
    (h5 : (ensureCapacity env st.bd.vtxBuffer
          (drawData.TotalVtxCount * sizeofImDrawVert)).1.ready = false
        ∨ (ensureCapacity env st.bd.idxBuffer
          (drawData.TotalIdxCount * sizeofImDrawIdx)).1.ready = false) :
    frameCalls env st drawData
      = (ensureCapacity env st.bd.vtxBuffer (drawData.TotalVtxCount * sizeofImDrawVert)).2
        ++ (ensureCapacity env st.bd.idxBuffer (drawData.TotalIdxCount * sizeofImDrawIdx)).2 := by
  unfold frameCalls
  have h5' : ((ensureCapacity env st.bd.vtxBuffer
          (drawData.TotalVtxCount * sizeofImDrawVert)).1.ready
        && (ensureCapacity env st.bd.idxBuffer
          (drawData.TotalIdxCount * sizeofImDrawIdx)).1.ready) = false := by
    rcases h5 with h | h <;> simp [h]
  simp [renderDrawData, h1, h2, h3, h4, h5', List.append_assoc]

/-! ### The present hook -/

theorem recordingCalls_append (buf : Ptr) (a b : List Call) :
    recordingCalls buf (a ++ b) = recordingCalls buf a ++ recordingCalls buf b := by
  simp [recordingCalls, List.filterMap_append]

theorem recordingCalls_of_noBoundary (buf : Ptr) (l : List Call)
    (h : ∀ c ∈ l, Call.isFrameBoundary c = false) : recordingCalls buf l = [] := by
  unfold recordingCalls
  rw [List.filterMap_eq_nil_iff]
  intro c hc
  have := h c hc
  cases c with
  | record b cmd => cases cmd <;> simp_all [Call.isFrameBoundary]
  | _ => rfl

theorem isFrameBoundary_of_isCommand (c : Call) (h : Call.isCommand c = false) :
    Call.isFrameBoundary c = false := by
  cases c with
  | record b cmd => simp [Call.isCommand] at h
  | submitCommands q n hd => simp [Call.isCommand] at h
  | _ => rfl

theorem recordingCalls_ensureCapacity (buf : Ptr) (env : Env) (buffer : Option MemoryBuffer)
    (totalSize : Nat) : recordingCalls buf (ensureCapacity env buffer totalSize).2 = [] :=
  recordingCalls_of_noBoundary buf _
    (fun c hc => isFrameBoundary_of_isCommand c (isCommand_ensureCapacity env buffer totalSize c hc))

/-- On any one command buffer a frame opens and closes at most one recording. -/
theorem recordingCalls_frameCalls (buf : Ptr) (env : Env) (st : State) (drawData : ImDrawData) :
    recordingCalls buf (frameCalls env st drawData) = []
      ∨ recordingCalls buf (frameCalls env st drawData)
          = [Command.BeginRecording, Command.EndRecording] := by
  by_cases h1 : drawData.Valid = true
  swap
  · left; rw [frameCalls_guarded env st drawData (Or.inl (by simpa using h1))]; rfl
  by_cases h2 : drawData.CmdListsCount = 0
  · left; rw [frameCalls_guarded env st drawData (Or.inr (Or.inl h2))]; rfl
  by_cases h3 : st.bd.isInitialized = true
  swap
  · left; rw [frameCalls_guarded env st drawData (Or.inr (Or.inr (by simpa using h3)))]; rfl
  by_cases hb : st.bd.cmdBuf = buf
  · by_cases h4 : st.bd.isUseTestShader = true
    · rw [frameCalls_testShader env st drawData h1 h2 h3 h4, recordingCalls_append,
        recordingCalls_ensureCapacity]
      split
      · right; simp [testShaderCalls, setRenderStates, recordingCalls, hb]
      · left; rfl
    · by_cases h : recordsFrame env st drawData
      · right
        rw [frameCalls_recorded env st drawData h]
        simp only [recordingCalls_append, recordingCalls_ensureCapacity, List.nil_append]
        rw [recordingCalls_of_noBoundary buf (cmdListsCalls _ _ _ _ _ _ _ _)
          (fun c hc => isFrameBoundary_of_isLoopCall _ c
            (cmdListsCalls_isLoopCall _ _ _ _ _ _ _ _ c hc))]
        simp [frameSetup, setRenderStates, recordingCalls, hb]
      · left
        have h5 : (ensureCapacity env st.bd.vtxBuffer
              (drawData.TotalVtxCount * sizeofImDrawVert)).1.ready = false
            ∨ (ensureCapacity env st.bd.idxBuffer
              (drawData.TotalIdxCount * sizeofImDrawIdx)).1.ready = false := by
          by_contra hcon
          simp only [not_or, Bool.not_eq_false] at hcon
          exact h ⟨h1, h2, h3, by simpa using h4, hcon.1, hcon.2⟩
        rw [frameCalls_notReady env st drawData h1 h2 h3 (by simpa using h4) h5,
          recordingCalls_append, recordingCalls_ensureCapacity, recordingCalls_ensureCapacity]
        rfl
  · left
    by_cases h4 : st.bd.isUseTestShader = true
    · rw [frameCalls_testShader env st drawData h1 h2 h3 h4, recordingCalls_append,
        recordingCalls_ensureCapacity]
      split
      · simp [testShaderCalls, setRenderStates, recordingCalls, hb]
      · rfl
    · by_cases h : recordsFrame env st drawData
      · rw [frameCalls_recorded env st drawData h]
        simp only [recordingCalls_append, recordingCalls_ensureCapacity, List.nil_append]
        rw [recordingCalls_of_noBoundary buf (cmdListsCalls _ _ _ _ _ _ _ _)
          (fun c hc => isFrameBoundary_of_isLoopCall _ c
            (cmdListsCalls_isLoopCall _ _ _ _ _ _ _ _ c hc))]
        simp [frameSetup, setRenderStates, recordingCalls, hb]
      · have h5 : (ensureCapacity env st.bd.vtxBuffer
              (drawData.TotalVtxCount * sizeofImDrawVert)).1.ready = false
            ∨ (ensureCapacity env st.bd.idxBuffer
              (drawData.TotalIdxCount * sizeofImDrawIdx)).1.ready = false := by
          by_contra hcon
          simp only [not_or, Bool.not_eq_false] at hcon
          exact h ⟨h1, h2, h3, by simpa using h4, hcon.1, hcon.2⟩
        rw [frameCalls_notReady env st drawData h1 h2 h3 (by simpa using h4) h5,
          recordingCalls_append, recordingCalls_ensureCapacity, recordingCalls_ensureCapacity]
        rfl

theorem procDrawMid_fields (env : Env) (st : State) :
    (procDrawMid env st).slots = st.slots
      ∧ (procDrawMid env st).hasInitImGui = st.hasInitImGui
      ∧ (procDrawMid env st).drawQueue = st.drawQueue
      ∧ (procDrawMid env st).trace
          = st.trace ++ ([Call.newFrame, Call.imguiNewFrame] ++ st.drawQueue.map Call.drawFunc
              ++ [Call.imguiRender]) := by
  unfold procDrawMid
  obtain ⟨f1, f2, f3, f4⟩ := foldl_runDrawFunc env (st.emit [.newFrame, .imguiNewFrame]).drawQueue
    (st.emit [.newFrame, .imguiNewFrame])
  simp only [State.emit] at f1 f2 f3 f4 ⊢
  refine ⟨f1, f2, f3, ?_⟩
  rw [f4]
  simp [List.append_assoc]

theorem procDraw_eq (env : Env) (st : State) (drawData : ImDrawData) :
    procDraw env st drawData = renderDrawData env (procDrawMid env st) drawData := rfl

theorem procDraw_trace (env : Env) (st : State) (drawData : ImDrawData) :
    (procDraw env st drawData).trace
      = st.trace ++ ([Call.newFrame, Call.imguiNewFrame] ++ st.drawQueue.map Call.drawFunc
          ++ [Call.imguiRender] ++ frameCalls env (procDrawMid env st) drawData) := by
  rw [procDraw_eq, renderDrawData_trace, (procDrawMid_fields env st).2.2.2]
  simp [List.append_assoc]
theorem isForward_of_isSetTexturePool (c : Call) (h : Call.isSetTexturePool c = true) :
    Call.isForward c = true := by
  cases c <;> simp_all [Call.isSetTexturePool, Call.isForward]

theorem isForward_of_isSetSamplerPool (c : Call) (h : Call.isSetSamplerPool c = true) :
    Call.isForward c = true := by
  cases c <;> simp_all [Call.isSetSamplerPool, Call.isForward]

theorem presentTexture_trace (env : Env) (st : State) (queue window : Ptr) (texIndex : Int)
    (drawData : ImDrawData) :
    (presentTexture env st queue window texIndex drawData).trace
      = st.trace ++ ([Call.record st.__cmdBuf .EndRecording]
        ++ overlayCalls env st drawData
        ++ [ Call.record st.__cmdBuf .BeginRecording,
             Call.commandBufferSetTexturePool st.slots.tempCommandSetTexturePoolFunc
               st.__cmdBuf st.__texturePool,
             Call.commandBufferSetSamplerPool st.slots.tempCommandSetSamplerPoolFunc
               st.__cmdBuf st.__samplerPool,
             Call.record st.__cmdBuf .EndRecording,
             Call.submitCommands queue 1 (env.endRecording st.__cmdBuf),
             Call.record st.__cmdBuf .BeginRecording,
             Call.queuePresentTexture st.slots.tempPresentTexFunc queue window texIndex ]) := by
  unfold overlayCalls
  by_cases hinit : st.hasInitImGui = true
  · have hs := (procDraw_appends env (st.emit [.record st.__cmdBuf .EndRecording]) drawData).1
    have ht := procDraw_trace env (st.emit [.record st.__cmdBuf .EndRecording]) drawData
    simp only [State.emit, hinit] at hs ht
    simp only [presentTexture, State.emit, hinit, if_true, setTexturePool, setSamplerPool, hs, ht]
    simp [List.append_assoc]
  · simp only [Bool.not_eq_true] at hinit
    simp [presentTexture, State.emit, hinit, setTexturePool, setSamplerPool, List.append_assoc]

/-- C13: `presentTexture` is transparent to the host, whatever the draw callbacks of
the overlay pass do to the tracked values. On return the tracked command buffer,
texture pool and sampler pool are the ones of entry; the original set-texture-pool
and set-sampler-pool functions have each been called once, on the entry command
buffer with the entry pool; the `BeginRecording` and `EndRecording` calls on the
host buffer strictly alternate, the first being an `EndRecording` and the last a
`BeginRecording`; and the original present function is called once, as the very
last call, with the arguments of the host. -/
theorem presentTexture_transparent (env : Env) (st : State) (queue window : Ptr)
    (texIndex : Int) (drawData : ImDrawData) :
    (presentTexture env st queue window texIndex drawData).__cmdBuf = st.__cmdBuf
      ∧ (presentTexture env st queue window texIndex drawData).__texturePool = st.__texturePool
      ∧ (presentTexture env st queue window texIndex drawData).__samplerPool = st.__samplerPool
      ∧ (presentTexture env st queue window texIndex drawData).trace
          = st.trace ++ presentCalls env st queue window texIndex drawData
      ∧ (presentCalls env st queue window texIndex drawData).filter Call.isSetTexturePool
          = [Call.commandBufferSetTexturePool st.slots.tempCommandSetTexturePoolFunc
              st.__cmdBuf st.__texturePool]
      ∧ (presentCalls env st queue window texIndex drawData).filter Call.isSetSamplerPool
          = [Call.commandBufferSetSamplerPool st.slots.tempCommandSetSamplerPoolFunc
              st.__cmdBuf st.__samplerPool]
      ∧ alternatesEndBegin
          (recordingCalls st.__cmdBuf (presentCalls env st queue window texIndex drawData)) = true
      ∧ ∃ overlay,
          presentCalls env st queue window texIndex drawData
            = [Call.record st.__cmdBuf .EndRecording] ++ overlay
              ++ [ Call.record st.__cmdBuf .BeginRecording,
                   Call.commandBufferSetTexturePool st.slots.tempCommandSetTexturePoolFunc
                     st.__cmdBuf st.__texturePool,
                   Call.commandBufferSetSamplerPool st.slots.tempCommandSetSamplerPoolFunc
                     st.__cmdBuf st.__samplerPool,
                   Call.record st.__cmdBuf .EndRecording,
                   Call.submitCommands queue 1 (env.endRecording st.__cmdBuf),
                   Call.record st.__cmdBuf .BeginRecording,
                   Call.queuePresentTexture st.slots.tempPresentTexFunc queue window texIndex ]
          ∧ overlay.filter Call.isForward = [] := by
  have ht := presentTexture_trace env st queue window texIndex drawData
  -- the overlay pass makes no forwarding call
  have hov : ∀ S : State, (frameCalls env S drawData).filter Call.isForward = [] := by
    intro S
    obtain ⟨_, _, delta, h, hf⟩ := renderDrawData_appends env S drawData
    have : frameCalls env S drawData = delta := by
      unfold frameCalls; rw [h, List.drop_left]
    rw [this]; exact hf
  have hc : presentCalls env st queue window texIndex drawData
      = [Call.record st.__cmdBuf .EndRecording] ++ overlayCalls env st drawData
        ++ [ Call.record st.__cmdBuf .BeginRecording,
             Call.commandBufferSetTexturePool st.slots.tempCommandSetTexturePoolFunc
               st.__cmdBuf st.__texturePool,
             Call.commandBufferSetSamplerPool st.slots.tempCommandSetSamplerPoolFunc
               st.__cmdBuf st.__samplerPool,
             Call.record st.__cmdBuf .EndRecording,
             Call.submitCommands queue 1 (env.endRecording st.__cmdBuf),
             Call.record st.__cmdBuf .BeginRecording,
             Call.queuePresentTexture st.slots.tempPresentTexFunc queue window texIndex ] := by
    unfold presentCalls
    rw [ht, List.drop_left]
  have hfwd : (overlayCalls env st drawData).filter Call.isForward = [] := by
    unfold overlayCalls
    by_cases hinit : st.hasInitImGui = true
    · simp [hinit, List.filter_append, Call.isForward, List.filter_map, Function.comp_def, hov]
    · simp [hinit]
  have hrec : recordingCalls st.__cmdBuf (overlayCalls env st drawData) = []
      ∨ recordingCalls st.__cmdBuf (overlayCalls env st drawData)
          = [Command.BeginRecording, Command.EndRecording] := by
    unfold overlayCalls
    by_cases hinit : st.hasInitImGui = true
    · have hmap : recordingCalls st.__cmdBuf (st.drawQueue.map Call.drawFunc) = [] := by
        apply recordingCalls_of_noBoundary
        intro c hc
        rw [List.mem_map] at hc
        obtain ⟨f, _, rfl⟩ := hc
        rfl
      rcases recordingCalls_frameCalls st.__cmdBuf env
        (procDrawMid env (st.emit [.record st.__cmdBuf .EndRecording])) drawData with h | h
      · left
        simp only [hinit, if_true, recordingCalls_append, hmap, h]
        simp [recordingCalls]
      · right
        simp only [hinit, if_true, recordingCalls_append, hmap, h]
        simp [recordingCalls]
    · left; simp [hinit, recordingCalls]
  refine ⟨?_, ?_, ?_, ?_, ?_, ?_, ?_, ?_⟩
  · simp [presentTexture, State.emit, setTexturePool, setSamplerPool]
  · simp [presentTexture, State.emit, setTexturePool, setSamplerPool]
  · simp [presentTexture, State.emit, setTexturePool, setSamplerPool]
  · rw [hc]; exact ht
  · rw [hc]
    simp [List.filter_append, Call.isSetTexturePool,
      filter_kind_nil Call.isSetTexturePool
        isForward_of_isSetTexturePool hfwd]
  · rw [hc]
    simp [List.filter_append, Call.isSetSamplerPool,
      filter_kind_nil Call.isSetSamplerPool
        isForward_of_isSetSamplerPool hfwd]
  · rw [hc]
    rcases hrec with h | h
    · simp only [recordingCalls_append, h]
      simp [recordingCalls, alternatesEndBegin]
    · simp only [recordingCalls_append, h]
      simp [recordingCalls, alternatesEndBegin]
  · exact ⟨_, hc, hfwd⟩

/-- The overlay pass can overwrite the tracked values: in the sample run the draw
callback leaves command buffer 99 tracked when `renderDrawData` is reached, and
`presentTexture` still returns with the entry values 21, 22 and 23. -/
theorem presentTexture_restores_clobbered :
    (procDrawMid Env.clobbering
        (State.hostRecording.emit [.record 21 .EndRecording])).__cmdBuf = 99
      ∧ (presentTexture Env.clobbering State.hostRecording 12 30 0 twoQuads).__cmdBuf = 21
      ∧ (presentTexture Env.clobbering State.hostRecording 12 30 0 twoQuads).__texturePool = 22
      ∧ (presentTexture Env.clobbering State.hostRecording 12 30 0 twoQuads).__samplerPool = 23 :=
  ⟨rfl, rfl, rfl, rfl⟩

/-! ### Skipped frames -/

theorem InitBackend_isUseTestShader (env : Env) (st : State) (device queue cmdBuf : Ptr) :
    (InitBackend env st device queue cmdBuf).bd.isUseTestShader = false := by
  unfold InitBackend
  simp only []
  split
  · split <;> rfl
  · rfl

theorem renderDrawData_flags (env : Env) (st : State) (drawData : ImDrawData) :
    (renderDrawData env st drawData).bd.isInitialized = st.bd.isInitialized
      ∧ (renderDrawData env st drawData).bd.isUseTestShader = st.bd.isUseTestShader := by
  by_cases h1 : drawData.Valid = true
  swap
  · simp [renderDrawData, h1]
  by_cases h2 : drawData.CmdListsCount = 0
  · simp [renderDrawData, h1, h2]
  by_cases h3 : st.bd.isInitialized = true
  swap
  · simp [renderDrawData, h1, h2, h3]
  by_cases h4 : st.bd.isUseTestShader = true
  · rw [renderDrawData_testShader env st drawData h1 h2 h3 h4]
    unfold renderTestShader
    simp only [State.emit]
    split <;> exact ⟨rfl, rfl⟩
  by_cases h5 : ((ensureCapacity env st.bd.vtxBuffer
        (drawData.TotalVtxCount * sizeofImDrawVert)).1.ready
      && (ensureCapacity env st.bd.idxBuffer
        (drawData.TotalIdxCount * sizeofImDrawIdx)).1.ready) = true
  · simp [renderDrawData, h1, h2, h3, h4, h5, State.emit]
  · simp [renderDrawData, h1, h2, h3, h4, h5]

theorem InitBackend_isInitialized (env : Env) (st : State) (device queue cmdBuf : Ptr) :
    (InitBackend env st device queue cmdBuf).bd.isInitialized
      = (createShaders env.setup && (setupShaders env.setup && setupFont env.setup)) := by
  unfold InitBackend
  simp only []
  cases createShaders env.setup <;> cases setupShaders env.setup <;>
    cases setupFont env.setup <;> rfl

/-- C14: `renderDrawData` records and submits nothing (no call records a command
into a command buffer, none submits one) when the draw data is invalid, or has no
command list, or the backend is not initialized, or the vertex or the index buffer
is not ready after the resize step; in the first three cases it changes nothing at
all. It always returns, and never changes `isInitialized`. After `InitBackend` the
flag `isInitialized` is set exactly when no step of the shader, pool, texture and
sampler setup has failed, so any failed step leaves it false. -/
theorem renderDrawData_skips_quietly (env : Env) (st : State) (drawData : ImDrawData)
    (S : State) (device queue cmdBuf : Ptr) :
    ((drawData.Valid = false ∨ drawData.CmdListsCount = 0 ∨ st.bd.isInitialized = false) →
        renderDrawData env st drawData = st ∧ frameCalls env st drawData = [])
      ∧ (st.bd.isUseTestShader = false →
          ((ensureCapacity env st.bd.vtxBuffer
              (drawData.TotalVtxCount * sizeofImDrawVert)).1.ready = false
            ∨ (ensureCapacity env st.bd.idxBuffer
              (drawData.TotalIdxCount * sizeofImDrawIdx)).1.ready = false) →
          ∀ c ∈ frameCalls env st drawData, Call.isCommand c = false)
      ∧ (st.bd.isUseTestShader = true →
          (ensureCapacity env st.bd.vtxBuffer (6 * sizeofImDrawVert)).1.ready = false →
          ∀ c ∈ frameCalls env st drawData, Call.isCommand c = false)
      ∧ (renderDrawData env st drawData).trace = st.trace ++ frameCalls env st drawData
      ∧ (renderDrawData env st drawData).bd.isInitialized = st.bd.isInitialized
      ∧ (InitBackend env S device queue cmdBuf).bd.isUseTestShader = false
      ∧ ((InitBackend env S device queue cmdBuf).bd.isInitialized = true ↔
          0 < env.setup.shaderBinarySize
            ∧ env.setup.programInitialize = true ∧ env.setup.shaderMemoryReady = true
            ∧ env.setup.setShaders = true ∧ env.setup.uniformMemoryReady = true
            ∧ env.setup.createSampTexPool = true ∧ env.setup.samplerPoolInitialize = true
            ∧ env.setup.texPoolInitialize = true ∧ env.setup.createFontPool = true
            ∧ env.setup.fontTextureInitialize = true
            ∧ env.setup.fontSamplerInitialize = true) := by
  refine ⟨?_, ?_, ?_, renderDrawData_trace env st drawData,
    (renderDrawData_flags env st drawData).1, InitBackend_isUseTestShader env S device queue cmdBuf,
    ?_⟩
  · intro h
    exact ⟨renderDrawData_guarded env st drawData h, frameCalls_guarded env st drawData h⟩
  · intro h4 h5 c hc
    by_cases hg : drawData.Valid = false ∨ drawData.CmdListsCount = 0
        ∨ st.bd.isInitialized = false
    · rw [frameCalls_guarded env st drawData hg] at hc
      cases hc
    · simp only [not_or, Bool.not_eq_false] at hg
      rw [frameCalls_notReady env st drawData hg.1 hg.2.1 hg.2.2 h4 h5, List.mem_append] at hc
      rcases hc with hc | hc
      · exact isCommand_ensureCapacity _ _ _ c hc
      · exact isCommand_ensureCapacity _ _ _ c hc
  · intro h4 h5 c hc
    by_cases hg : drawData.Valid = false ∨ drawData.CmdListsCount = 0
        ∨ st.bd.isInitialized = false
    · rw [frameCalls_guarded env st drawData hg] at hc
      cases hc
    · simp only [not_or, Bool.not_eq_false] at hg
      rw [frameCalls_testShader env st drawData hg.1 hg.2.1 hg.2.2 h4, h5] at hc
      simp only [Bool.false_eq_true, if_false, List.append_nil] at hc
      exact isCommand_ensureCapacity _ _ _ c hc
  · rw [InitBackend_isInitialized]
    simp only [createShaders, setupShaders, setupFont, Bool.and_eq_true, decide_eq_true_eq]
    cases env.setup.programInitialize <;> cases env.setup.shaderMemoryReady <;>
      cases env.setup.setShaders <;> cases env.setup.uniformMemoryReady <;>
      cases env.setup.createSampTexPool <;> cases env.setup.samplerPoolInitialize <;>
      cases env.setup.texPoolInitialize <;> cases env.setup.createFontPool <;>
      cases env.setup.fontTextureInitialize <;> cases env.setup.fontSamplerInitialize <;>
      simp

/-- Witness of C14: an invalid frame, a frame without lists and a backend whose setup
has failed leave the state as it was; with an allocator out of memory the frame only
makes the two allocation calls. -/
theorem renderDrawData_skips_quietly_witness :
    renderDrawData Env.sample State.ready invalidQuads = State.ready
      ∧ renderDrawData Env.sample State.ready emptyFrame = State.ready
      ∧ renderDrawData Env.sample State.setupFailed twoQuads = State.setupFailed
      ∧ frameCalls Env.outOfMemory State.ready twoQuads
          = [Call.newMemoryBuffer 160, Call.newMemoryBuffer 24]
      ∧ ∀ c ∈ frameCalls Env.outOfMemory State.ready twoQuads, Call.isCommand c = false := by
  refine ⟨?_, ?_, ?_, rfl, ?_⟩
  · exact ((renderDrawData_skips_quietly Env.sample State.ready invalidQuads
      State.initial 0 0 0).1 (Or.inl rfl)).1
  · exact ((renderDrawData_skips_quietly Env.sample State.ready emptyFrame
      State.initial 0 0 0).1 (Or.inr (Or.inl rfl))).1
  · exact ((renderDrawData_skips_quietly Env.sample State.setupFailed twoQuads
      State.initial 0 0 0).1 (Or.inr (Or.inr rfl))).1
  · exact (renderDrawData_skips_quietly Env.outOfMemory State.ready twoQuads
      State.initial 0 0 0).2.1 rfl (Or.inl rfl)

/-! ### Callbacks -/

theorem isBackendCall_ensureCapacity (env : Env) (buffer : Option MemoryBuffer)
    (totalSize : Nat) :
    ∀ c ∈ (ensureCapacity env buffer totalSize).2, Call.isBackendCall c = true := by
  unfold ensureCapacity
  cases buffer with
  | none => simp [Call.isBackendCall]
  | some b => by_cases hb : b.poolSize < totalSize <;> simp [hb, Call.isBackendCall]

theorem isBackendCall_of_isLoopCall (cmdBuf : Ptr) (c : Call)
    (h : Call.isLoopCall cmdBuf c = true) : Call.isBackendCall c = true := by
  cases c with
  | record b cmd => rfl
  | memcpyVtx d v => rfl
  | memcpyIdx d v => rfl
  | _ => simp [Call.isLoopCall] at h

/-- Every call of a frame is a call of the renderer backend. -/
theorem frameCalls_isBackendCall (env : Env) (st : State) (drawData : ImDrawData) :
    ∀ c ∈ frameCalls env st drawData, Call.isBackendCall c = true := by
  intro c hc
  by_cases hg : drawData.Valid = false ∨ drawData.CmdListsCount = 0
      ∨ st.bd.isInitialized = false
  · rw [frameCalls_guarded env st drawData hg] at hc
    cases hc
  simp only [not_or, Bool.not_eq_false] at hg
  by_cases h4 : st.bd.isUseTestShader = true
  · rw [frameCalls_testShader env st drawData hg.1 hg.2.1 hg.2.2 h4, List.mem_append] at hc
    rcases hc with hc | hc
    · exact isBackendCall_ensureCapacity _ _ _ c hc
    · split at hc
      · simp only [testShaderCalls, setRenderStates, List.mem_append, List.mem_cons,
          List.mem_singleton, List.not_mem_nil, or_false] at hc
        rcases hc with (hc | hc) | hc
        · rcases hc with hc | hc | hc | hc | hc | hc <;> subst hc <;> rfl
        · rcases hc with hc | hc | hc | hc | hc | hc | hc <;> subst hc <;> rfl
        · rcases hc with hc | hc | hc <;> subst hc <;> rfl
      · cases hc
  by_cases h : recordsFrame env st drawData
  · rw [frameCalls_recorded env st drawData h] at hc
    simp only [frameSetup, setRenderStates, List.mem_append, List.mem_cons,
      List.mem_singleton, List.not_mem_nil, or_false] at hc
    rcases hc with (((hc | hc) | hc) | hc) | hc
    · exact isBackendCall_ensureCapacity _ _ _ c hc
    · exact isBackendCall_ensureCapacity _ _ _ c hc
    · rcases hc with (hc | hc | hc | hc) | hc
      · subst hc; rfl
      · subst hc; rfl
      · subst hc; rfl
      · subst hc; rfl
      · rcases hc with hc | hc | hc | hc | hc | hc | hc <;> subst hc <;> rfl
    · exact isBackendCall_of_isLoopCall _ c (cmdListsCalls_isLoopCall _ _ _ _ _ _ _ _ c hc)
    · rcases hc with hc | hc <;> subst hc <;> rfl
  · have h5 : (ensureCapacity env st.bd.vtxBuffer
          (drawData.TotalVtxCount * sizeofImDrawVert)).1.ready = false
        ∨ (ensureCapacity env st.bd.idxBuffer
          (drawData.TotalIdxCount * sizeofImDrawIdx)).1.ready = false := by
      by_contra hcon
      simp only [not_or, Bool.not_eq_false] at hcon
      exact h ⟨hg.1, hg.2.1, hg.2.2, by simpa using h4, hcon.1, hcon.2⟩
    rw [frameCalls_notReady env st drawData hg.1 hg.2.1 hg.2.2 (by simpa using h4) h5,
      List.mem_append] at hc
    rcases hc with hc | hc
    · exact isBackendCall_ensureCapacity _ _ _ c hc
    · exact isBackendCall_ensureCapacity _ _ _ c hc

theorem initCalls_append (a b : List Call) : initCalls (a ++ b) = initCalls a ++ initCalls b := by
  simp [initCalls, List.filterMap_append]

theorem drawFuncCalls_append (a b : List Call) :
    drawFuncCalls (a ++ b) = drawFuncCalls a ++ drawFuncCalls b := by
  simp [drawFuncCalls, List.filterMap_append]

theorem frameCalls_noCallback (env : Env) (st : State) (drawData : ImDrawData) :
    initCalls (frameCalls env st drawData) = []
      ∧ drawFuncCalls (frameCalls env st drawData) = []
      ∧ (frameCalls env st drawData).filter Call.isNewFrame = [] := by
  have h := frameCalls_isBackendCall env st drawData
  refine ⟨?_, ?_, ?_⟩
  · unfold initCalls
    rw [List.filterMap_eq_nil_iff]
    intro c hc
    have := h c hc
    cases c <;> simp_all [Call.isBackendCall, Call.initFunc?]
  · unfold drawFuncCalls
    rw [List.filterMap_eq_nil_iff]
    intro c hc
    have := h c hc
    cases c <;> simp_all [Call.isBackendCall, Call.drawFunc?]
  · rw [List.filter_eq_nil_iff]
    intro c hc
    have := h c hc
    cases c <;> simp_all [Call.isBackendCall, Call.isNewFrame]

theorem drawFuncCalls_map (fs : List Callback) : drawFuncCalls (fs.map Call.drawFunc) = fs := by
  induction fs with
  | nil => rfl
  | cons f fs ih => simp_all [drawFuncCalls, Call.drawFunc?]

theorem initCalls_map_drawFunc (fs : List Callback) : initCalls (fs.map Call.drawFunc) = [] := by
  induction fs with
  | nil => rfl
  | cons f fs ih => simp_all [initCalls, Call.initFunc?]

theorem initCalls_map (fs : List Callback) : initCalls (fs.map Call.initFunc) = fs := by
  induction fs with
  | nil => rfl
  | cons f fs ih => simp_all [initCalls, Call.initFunc?]

theorem overlayCalls_callbacks (env : Env) (st : State) (drawData : ImDrawData) :
    initCalls (overlayCalls env st drawData) = []
      ∧ drawFuncCalls (overlayCalls env st drawData)
          = (if st.hasInitImGui = true then st.drawQueue else [])
      ∧ (st.hasInitImGui = false → overlayCalls env st drawData = []) := by
  unfold overlayCalls
  by_cases hinit : st.hasInitImGui = true
  · obtain ⟨f1, f2, _⟩ := frameCalls_noCallback env
      (procDrawMid env (st.emit [.record st.__cmdBuf .EndRecording])) drawData
    simp only [hinit, if_true, initCalls_append, drawFuncCalls_append, f1, f2,
      initCalls_map_drawFunc, drawFuncCalls_map]
    refine ⟨by simp [initCalls, Call.initFunc?], by simp [drawFuncCalls, Call.drawFunc?], ?_⟩
    intro h; cases h
  · simp [hinit, initCalls, drawFuncCalls]
theorem foldl_runDrawFunc_queues (env : Env) (fs : List Callback) :
    ∀ st : State,
      (fs.foldl (runDrawFunc env) st).initQueue = st.initQueue
        ∧ (fs.foldl (runDrawFunc env) st).bd = st.bd := by
  induction fs with
  | nil => intro st; simp
  | cons f fs ih =>
    intro st
    obtain ⟨h1, h2⟩ := ih (runDrawFunc env st f)
    rw [List.foldl_cons]
    exact ⟨by rw [h1]; rfl, by rw [h2]; rfl⟩

theorem renderDrawData_queues (env : Env) (st : State) (drawData : ImDrawData) :
    (renderDrawData env st drawData).initQueue = st.initQueue
      ∧ (renderDrawData env st drawData).drawQueue = st.drawQueue := by
  by_cases h1 : drawData.Valid = true
  swap
  · simp [renderDrawData, h1]
  by_cases h2 : drawData.CmdListsCount = 0
  · simp [renderDrawData, h1, h2]
  by_cases h3 : st.bd.isInitialized = true
  swap
  · simp [renderDrawData, h1, h2, h3]
  by_cases h4 : st.bd.isUseTestShader = true
  · rw [renderDrawData_testShader env st drawData h1 h2 h3 h4]
    unfold renderTestShader
    simp only [State.emit]
    split <;> exact ⟨rfl, rfl⟩
  by_cases h5 : ((ensureCapacity env st.bd.vtxBuffer
        (drawData.TotalVtxCount * sizeofImDrawVert)).1.ready
      && (ensureCapacity env st.bd.idxBuffer
        (drawData.TotalIdxCount * sizeofImDrawIdx)).1.ready) = true
  · simp [renderDrawData, h1, h2, h3, h4, h5, State.emit]
  · simp [renderDrawData, h1, h2, h3, h4, h5]

theorem procDraw_queues (env : Env) (st : State) (drawData : ImDrawData) :
    (procDraw env st drawData).initQueue = st.initQueue
      ∧ (procDraw env st drawData).drawQueue = st.drawQueue := by
  rw [procDraw_eq]
  obtain ⟨r1, r2⟩ := renderDrawData_queues env (procDrawMid env st) drawData
  rw [r1, r2]
  refine ⟨?_, (procDrawMid_fields env st).2.2.1⟩
  unfold procDrawMid
  simp only [State.emit]
  rw [(foldl_runDrawFunc_queues env _ _).1]

theorem presentTexture_fields (env : Env) (st : State) (queue window : Ptr) (texIndex : Int)
    (drawData : ImDrawData) :
    (presentTexture env st queue window texIndex drawData).hasInitImGui = st.hasInitImGui
      ∧ (presentTexture env st queue window texIndex drawData).initQueue = st.initQueue
      ∧ (presentTexture env st queue window texIndex drawData).drawQueue = st.drawQueue := by
  by_cases hinit : st.hasInitImGui = true
  · have h1 := (procDraw_appends env (st.emit [.record st.__cmdBuf .EndRecording]) drawData).2.1
    obtain ⟨h2, h3⟩ := procDraw_queues env (st.emit [.record st.__cmdBuf .EndRecording]) drawData
    simp only [State.emit, hinit] at h1 h2 h3
    simp only [presentTexture, State.emit, hinit, if_true, setTexturePool, setSamplerPool, h1,
      h2, h3, and_self]
  · simp only [Bool.not_eq_true] at hinit
    simp [presentTexture, State.emit, hinit, setTexturePool, setSamplerPool]

theorem presentCalls_eq (env : Env) (st : State) (queue window : Ptr) (texIndex : Int)
    (drawData : ImDrawData) :
    presentCalls env st queue window texIndex drawData
      = [Call.record st.__cmdBuf .EndRecording] ++ overlayCalls env st drawData
        ++ [ Call.record st.__cmdBuf .BeginRecording,
             Call.commandBufferSetTexturePool st.slots.tempCommandSetTexturePoolFunc
               st.__cmdBuf st.__texturePool,
             Call.commandBufferSetSamplerPool st.slots.tempCommandSetSamplerPoolFunc
               st.__cmdBuf st.__samplerPool,
             Call.record st.__cmdBuf .EndRecording,
             Call.submitCommands queue 1 (env.endRecording st.__cmdBuf),
             Call.record st.__cmdBuf .BeginRecording,
             Call.queuePresentTexture st.slots.tempPresentTexFunc queue window texIndex ] := by
  unfold presentCalls
  rw [presentTexture_trace, List.drop_left]

theorem presentCalls_callbacks (env : Env) (st : State) (queue window : Ptr) (texIndex : Int)
    (drawData : ImDrawData) :
    initCalls (presentCalls env st queue window texIndex drawData) = []
      ∧ drawFuncCalls (presentCalls env st queue window texIndex drawData)
          = (if st.hasInitImGui = true then st.drawQueue else [])
      ∧ (st.hasInitImGui = false →
          (presentCalls env st queue window texIndex drawData).filter Call.isNewFrame = []) := by
  obtain ⟨o1, o2, o3⟩ := overlayCalls_callbacks env st drawData
  rw [presentCalls_eq]
  refine ⟨?_, ?_, ?_⟩
  · simp only [initCalls_append, o1]
    simp [initCalls, Call.initFunc?]
  · simp only [drawFuncCalls_append, o2]
    simp [drawFuncCalls, Call.drawFunc?]
  · intro h
    rw [o3 h]
    simp [Call.isNewFrame]

theorem InitImGui_queues (env : Env) (st : State) :
    (InitImGui env st).2.initQueue = st.initQueue
      ∧ (env.IMGUI_XENO_DRAW_DEMO = false → (InitImGui env st).2.drawQueue = st.drawQueue) := by
  unfold InitImGui
  split
  · simp only [InitBackend, State.emit, addDrawFunc, XENO_ASSERT]
    refine ⟨?_, ?_⟩
    · split <;> [split; skip] <;> simp
    · intro hd
      simp [hd]
  · simp [State.emit]

theorem InitImGui_callbacks (env : Env) (st : State) :
    ∃ d, (InitImGui env st).2.trace = st.trace ++ d
      ∧ d.filter Call.isNewFrame = []
      ∧ initCalls d = (if (InitImGui env st).1 = true then st.initQueue else []) := by
  unfold InitImGui
  split
  · by_cases hd : env.IMGUI_XENO_DRAW_DEMO = true
    · simp only [InitBackend, State.emit, addDrawFunc, XENO_ASSERT, hd, if_true]
      split
      · refine ⟨_, by simp only [List.append_assoc]; rfl, ?_, ?_⟩
        · simp [List.filter_append, Call.isNewFrame, List.filter_map, Function.comp_def]
        · simp only [initCalls_append, initCalls_map]
          simp [initCalls, Call.initFunc?]
      · refine ⟨_, by simp only [List.append_assoc]; rfl, ?_, ?_⟩
        · simp [List.filter_append, Call.isNewFrame, List.filter_map, Function.comp_def]
        · simp only [initCalls_append, initCalls_map]
          simp [initCalls, Call.initFunc?]
    · simp only [InitBackend, State.emit, hd, Bool.false_eq_true, if_false]
      refine ⟨_, by simp only [List.append_assoc]; rfl, ?_, ?_⟩
      · simp [List.filter_append, Call.isNewFrame, List.filter_map, Function.comp_def]
      · simp only [initCalls_append, initCalls_map]
        simp [initCalls, Call.initFunc?]
  · exact ⟨[Call.InitImGui false], rfl, by simp [Call.isNewFrame],
      by simp [initCalls, Call.initFunc?]⟩

theorem cmdBufInit_callbacks (env : Env) (st : State) (buffer device : Ptr) :
    (cmdBufInit env st buffer device).2.initQueue = st.initQueue
      ∧ (env.IMGUI_XENO_DRAW_DEMO = false →
          (cmdBufInit env st buffer device).2.drawQueue = st.drawQueue)
      ∧ (st.hasInitImGui = true → (cmdBufInit env st buffer device).2.hasInitImGui = true)
      ∧ ∃ d, (cmdBufInit env st buffer device).2.trace = st.trace ++ d
          ∧ d.filter Call.isNewFrame = []
          ∧ initCalls d
              = (if st.hasInitImGui = false
                    ∧ (cmdBufInit env st buffer device).2.hasInitImGui = true then
                  st.initQueue else []) := by
  by_cases h : st.hasInitImGui = true
  · refine ⟨by simp [cmdBufInit, State.emit, h], fun _ => by simp [cmdBufInit, State.emit, h],
      fun _ => by simp [cmdBufInit, State.emit, h],
      [Call.commandBufferInitialize st.slots.tempBufferInitFuncPtr buffer device],
      by simp [cmdBufInit, State.emit, h], by simp [Call.isNewFrame], ?_⟩
    simp [h, initCalls, Call.initFunc?]
  simp only [Bool.not_eq_true] at h
  by_cases hne : st.commandBufferCount = env.IMGUI_XENO_COMMAND_BUFFER_ID
  swap
  · refine ⟨by simp [cmdBufInit, State.emit, h, hne],
      fun _ => by simp [cmdBufInit, State.emit, h, hne],
      fun h' => (by rw [h] at h'; cases h'),
      [Call.commandBufferInitialize st.slots.tempBufferInitFuncPtr buffer device],
      by simp [cmdBufInit, State.emit, h, hne], by simp [Call.isNewFrame], ?_⟩
    simp [cmdBufInit, State.emit, h, hne, initCalls, Call.initFunc?]
  have hstep : (cmdBufInit env st buffer device).2
      = { (InitImGui env { (st.emit [Call.commandBufferInitialize
              st.slots.tempBufferInitFuncPtr buffer device]) with
            commandBufferCount := wrapInt32 (st.commandBufferCount + 1),
            nvnCmdBuf := buffer }).2 with
          hasInitImGui := (InitImGui env { (st.emit [Call.commandBufferInitialize
              st.slots.tempBufferInitFuncPtr buffer device]) with
            commandBufferCount := wrapInt32 (st.commandBufferCount + 1),
            nvnCmdBuf := buffer }).1 } := by
    simp [cmdBufInit, State.emit, h, hne]
  rw [hstep]
  generalize hS : ({ (st.emit [Call.commandBufferInitialize
              st.slots.tempBufferInitFuncPtr buffer device]) with
            commandBufferCount := wrapInt32 (st.commandBufferCount + 1),
            nvnCmdBuf := buffer } : State) = S
  have hi : S.initQueue = st.initQueue := by rw [← hS]; rfl
  have hdq : S.drawQueue = st.drawQueue := by rw [← hS]; rfl
  have htr : S.trace = st.trace
      ++ [Call.commandBufferInitialize st.slots.tempBufferInitFuncPtr buffer device] := by
    rw [← hS]; rfl
  obtain ⟨q1, q2⟩ := InitImGui_queues env S
  obtain ⟨d, t1, t2, t3⟩ := InitImGui_callbacks env S
  refine ⟨?_, ?_, ?_, ?_⟩
  · show (InitImGui env S).2.initQueue = _
    rw [q1, hi]
  · intro hd
    show (InitImGui env S).2.drawQueue = _
    rw [q2 hd, hdq]
  · intro h'; rw [h] at h'; cases h'
  · refine ⟨Call.commandBufferInitialize st.slots.tempBufferInitFuncPtr buffer device :: d,
      ?_, ?_, ?_⟩
    · show (InitImGui env S).2.trace = _
      rw [t1, htr]
      simp
    · simp [List.filter_cons, Call.isNewFrame, t2]
    · show initCalls (_ :: d) = if st.hasInitImGui = false ∧ (InitImGui env S).1 = true then _
        else _
      have : initCalls (Call.commandBufferInitialize st.slots.tempBufferInitFuncPtr buffer
          device :: d) = initCalls d := by
        simp [initCalls, Call.initFunc?]
      rw [this, t3, hi]
      simp [h]

/-- What one call of the host does to the callback queues and which init callbacks
it invokes. -/
theorem hostStep_spec (env : Env) (st : State) (op : HostCall) :
    (st.hasInitImGui = true → (hostStep env st op).hasInitImGui = true)
      ∧ (hostStep env st op).initQueue
          = (HostCall.initFuncs [op]).foldl (fun q f => if f ∈ q then q else q ++ [f])
              st.initQueue
      ∧ (env.IMGUI_XENO_DRAW_DEMO = false →
          (hostStep env st op).drawQueue
            = (HostCall.drawFuncs [op]).foldl (fun q f => if f ∈ q then q else q ++ [f])
                st.drawQueue)
      ∧ ∃ d, (hostStep env st op).trace = st.trace ++ d
          ∧ (st.hasInitImGui = false → d.filter Call.isNewFrame = [])
          ∧ initCalls d
              = (if st.hasInitImGui = false ∧ (hostStep env st op).hasInitImGui = true then
                  st.initQueue else []) := by
  cases op with
  | addDrawFunc f =>
    have hq := addDrawFunc_queue st f
    have hh : (addDrawFunc st f).hasInitImGui = st.hasInitImGui := by
      by_cases h : f ∈ st.drawQueue <;> simp [addDrawFunc, XENO_ASSERT, h, State.emit]
    refine ⟨fun h => by simp only [hostStep]; rw [hh, h],
      by simp [hostStep, HostCall.initFuncs, hq.2],
      fun _ => by simp [hostStep, HostCall.drawFuncs, hq.1], ?_⟩
    by_cases h : f ∈ st.drawQueue
    · refine ⟨[Call.assertFailed "Function has already been added to queue!"],
        by simp [hostStep, addDrawFunc, XENO_ASSERT, h, State.emit],
        fun _ => by simp [Call.isNewFrame], ?_⟩
      simp only [hostStep, hh]
      by_cases h' : st.hasInitImGui = true <;> simp [h', initCalls, Call.initFunc?]
    · refine ⟨[], by simp [hostStep, addDrawFunc, XENO_ASSERT, h], fun _ => rfl, ?_⟩
      simp only [hostStep, hh]
      by_cases h' : st.hasInitImGui = true <;> simp [h', initCalls]
  | addInitFunc f =>
    have hq := addInitFunc_queue st f
    have hh : (addInitFunc st f).hasInitImGui = st.hasInitImGui := by
      by_cases h : f ∈ st.initQueue <;> simp [addInitFunc, XENO_ASSERT, h, State.emit]
    refine ⟨fun h => by simp only [hostStep]; rw [hh, h],
      by simp [hostStep, HostCall.initFuncs, hq.1],
      fun _ => by simp [hostStep, HostCall.drawFuncs, hq.2], ?_⟩
    by_cases h : f ∈ st.initQueue
    · refine ⟨[Call.assertFailed "Function has already been added to queue!"],
        by simp [hostStep, addInitFunc, XENO_ASSERT, h, State.emit],
        fun _ => by simp [Call.isNewFrame], ?_⟩
      simp only [hostStep, hh]
      by_cases h' : st.hasInitImGui = true <;> simp [h', initCalls, Call.initFunc?]
    · refine ⟨[], by simp [hostStep, addInitFunc, XENO_ASSERT, h], fun _ => rfl, ?_⟩
      simp only [hostStep, hh]
      by_cases h' : st.hasInitImGui = true <;> simp [h', initCalls]
  | cmdBufInit buffer device =>
    obtain ⟨c1, c2, c3, d, c4, c5, c6⟩ := cmdBufInit_callbacks env st buffer device
    exact ⟨c3, by simp [hostStep, HostCall.initFuncs, c1],
      fun hd => by simp [hostStep, HostCall.drawFuncs, c2 hd], d, c4, fun _ => c5, c6⟩
  | presentTexture queue window texIndex drawData =>
    obtain ⟨p1, p2, p3⟩ := presentTexture_fields env st queue window texIndex drawData
    obtain ⟨k1, _, k3⟩ := presentCalls_callbacks env st queue window texIndex drawData
    refine ⟨fun h => by simp only [hostStep]; rw [p1, h],
      by simp [hostStep, HostCall.initFuncs, p2],
      fun _ => by simp [hostStep, HostCall.drawFuncs, p3],
      presentCalls env st queue window texIndex drawData, ?_, k3, ?_⟩
    · simp only [hostStep]
      rw [presentTexture_trace, presentCalls_eq]
    · simp only [hostStep, p1, k1]
      by_cases h' : st.hasInitImGui = true <;> simp [h']
theorem noInitAfterFrame_of_initCalls (l : List Call) (h : initCalls l = []) :
    noInitAfterFrame l = true := by
  induction l with
  | nil => rfl
  | cons c rest ih =>
    have hr : initCalls rest = [] := by
      cases c <;> simp_all [initCalls, Call.initFunc?]
    unfold noInitAfterFrame
    split
    · simp [hr]
    · exact ih hr

theorem noInitAfterFrame_append_left (a b : List Call)
    (h : a.filter Call.isNewFrame = []) :
    noInitAfterFrame (a ++ b) = noInitAfterFrame b := by
  induction a with
  | nil => rfl
  | cons c rest ih =>
    rw [List.filter_cons] at h
    by_cases hc : c.isNewFrame = true
    · simp [hc] at h
    · simp only [hc, Bool.false_eq_true, if_false] at h
      show noInitAfterFrame (c :: (rest ++ b)) = _
      simp only [noInitAfterFrame, hc, Bool.false_eq_true, if_false]
      exact ih h
theorem hostRun_append (env : Env) (st : State) (a b : List HostCall) :
    hostRun env st (a ++ b) = hostRun env (hostRun env st a) b := by
  simp [hostRun, List.foldl_append]

theorem hostRun_cons (env : Env) (st : State) (c : HostCall) (cs : List HostCall) :
    hostRun env st (c :: cs) = hostRun env (hostStep env st c) cs := rfl

theorem hostRun_trace (env : Env) (calls : List HostCall) :
    ∀ st, (hostRun env st calls).trace = st.trace ++ hostCalls env st calls := by
  have hex : ∀ (calls : List HostCall) (st : State),
      ∃ d, (hostRun env st calls).trace = st.trace ++ d := by
    intro calls
    induction calls with
    | nil => intro st; exact ⟨[], by simp [hostRun]⟩
    | cons c cs ih =>
      intro st
      obtain ⟨d2, h2⟩ := ih (hostStep env st c)
      obtain ⟨_, _, _, d1, h1, _⟩ := hostStep_spec env st c
      exact ⟨d1 ++ d2, by rw [hostRun_cons, h2, h1, List.append_assoc]⟩
  intro st
  obtain ⟨d, h⟩ := hex calls st
  unfold hostCalls
  rw [h, List.drop_left]

theorem hostCalls_append (env : Env) (st : State) (a b : List HostCall) :
    hostCalls env st (a ++ b) = hostCalls env st a ++ hostCalls env (hostRun env st a) b := by
  have h1 := hostRun_trace env (a ++ b) st
  rw [hostRun_append, hostRun_trace env b, hostRun_trace env a, List.append_assoc] at h1
  exact (List.append_cancel_left h1).symm

theorem hostCalls_cons (env : Env) (st : State) (c : HostCall) (cs : List HostCall) :
    hostCalls env st (c :: cs) = hostCalls env st [c] ++ hostCalls env (hostStep env st c) cs :=
  hostCalls_append env st [c] cs

/-- The step lemma in terms of the calls appended. -/
theorem hostCalls_single (env : Env) (st : State) (op : HostCall) :
    (st.hasInitImGui = false → (hostCalls env st [op]).filter Call.isNewFrame = [])
      ∧ initCalls (hostCalls env st [op])
          = (if st.hasInitImGui = false ∧ (hostStep env st op).hasInitImGui = true then
              st.initQueue else []) := by
  obtain ⟨_, _, _, d, h1, h2, h3⟩ := hostStep_spec env st op
  have : hostCalls env st [op] = d := by
    unfold hostCalls
    show (hostStep env st op).trace.drop _ = d
    rw [h1, List.drop_left]
  rw [this]
  exact ⟨h2, h3⟩

/-- Once the overlay is started it stays started, and no init callback is invoked
any more. -/
theorem hostRun_started (env : Env) (calls : List HostCall) :
    ∀ st, st.hasInitImGui = true →
      (hostRun env st calls).hasInitImGui = true ∧ initCalls (hostCalls env st calls) = [] := by
  induction calls with
  | nil => intro st h; exact ⟨h, by simp [hostCalls, hostRun, initCalls]⟩
  | cons c cs ih =>
    intro st h
    have hs := (hostStep_spec env st c).1 h
    obtain ⟨i1, i2⟩ := ih (hostStep env st c) hs
    refine ⟨by rw [hostRun_cons]; exact i1, ?_⟩
    rw [hostCalls_cons, initCalls_append, i2, (hostCalls_single env st c).2]
    simp [h]

/-- As long as the overlay is not started, no init callback is invoked and no
per-frame pass runs. -/
theorem hostRun_notStarted (env : Env) (calls : List HostCall) :
    ∀ st, (hostRun env st calls).hasInitImGui = false →
      st.hasInitImGui = false ∧ initCalls (hostCalls env st calls) = []
        ∧ (hostCalls env st calls).filter Call.isNewFrame = [] := by
  induction calls with
  | nil => intro st h; exact ⟨h, by simp [hostCalls, hostRun, initCalls], by simp [hostCalls, hostRun]⟩
  | cons c cs ih =>
    intro st h
    rw [hostRun_cons] at h
    obtain ⟨i1, i2, i3⟩ := ih (hostStep env st c) h
    have h0 : st.hasInitImGui = false := by
      by_contra hcon
      simp only [Bool.not_eq_false] at hcon
      rw [(hostStep_spec env st c).1 hcon] at i1
      cases i1
    obtain ⟨s1, s2⟩ := hostCalls_single env st c
    refine ⟨h0, ?_, ?_⟩
    · rw [hostCalls_cons, initCalls_append, i2, s2, i1]
      simp
    · rw [hostCalls_cons, List.filter_append, i3, s1 h0]
      rfl

/-- The call that starts the overlay, if the overlay is started during the run. -/
theorem hostRun_split (env : Env) (st : State) (h0 : st.hasInitImGui = false) :
    ∀ calls : List HostCall, (hostRun env st calls).hasInitImGui = true →
      ∃ pre op post, calls = pre ++ op :: post
        ∧ (hostRun env st pre).hasInitImGui = false
        ∧ (hostRun env st (pre ++ [op])).hasInitImGui = true := by
  intro calls
  induction calls using List.reverseRecOn with
  | nil => intro h; simp only [hostRun, List.foldl_nil] at h; rw [h0] at h; cases h
  | append_singleton cs c ih =>
    intro h
    by_cases hc : (hostRun env st cs).hasInitImGui = true
    · obtain ⟨pre, op, post, e, p1, p2⟩ := ih hc
      exact ⟨pre, op, post ++ [c], by rw [e]; simp, p1, p2⟩
    · exact ⟨cs, c, [], rfl, by simpa using hc, h⟩

/-- The init callbacks invoked by a run in which the call `op` starts the overlay:
the init queue as it is right before that call. -/
theorem hostRun_initCalls (env : Env) (st : State) (pre post : List HostCall) (op : HostCall)
    (h1 : (hostRun env st pre).hasInitImGui = false)
    (h2 : (hostRun env st (pre ++ [op])).hasInitImGui = true) :
    initCalls (hostCalls env st (pre ++ op :: post)) = (hostRun env st pre).initQueue
      ∧ noInitAfterFrame (hostCalls env st (pre ++ op :: post)) = true := by
  obtain ⟨_, a2, a3⟩ := hostRun_notStarted env pre st h1
  obtain ⟨s1, s2⟩ := hostCalls_single env (hostRun env st pre) op
  have h2' : (hostStep env (hostRun env st pre) op).hasInitImGui = true := by
    rw [hostRun_append] at h2; exact h2
  obtain ⟨_, c2⟩ := hostRun_started env post (hostStep env (hostRun env st pre) op) h2'
  have e : hostCalls env st (pre ++ op :: post)
      = (hostCalls env st pre ++ hostCalls env (hostRun env st pre) [op])
        ++ hostCalls env (hostStep env (hostRun env st pre) op) post := by
    rw [hostCalls_append, hostCalls_cons, List.append_assoc]
  rw [e]
  refine ⟨?_, ?_⟩
  · rw [initCalls_append, initCalls_append, a2, s2, c2]
    simp [h1, h2']
  · rw [noInitAfterFrame_append_left _ _
      (by rw [List.filter_append, a3, s1 h1]; rfl)]
    exact noInitAfterFrame_of_initCalls _ c2
theorem foldl_push_nodup (fs q : List Callback) (h : q.Nodup) :
    (fs.foldl (fun q f => if f ∈ q then q else q ++ [f]) q).Nodup := by
  rw [foldl_push_unique, List.nodup_append]
  refine ⟨h, (nodup_firstRegistrations fs).filter _, ?_⟩
  intro x hx hx2
  rw [List.mem_filter] at hx2
  simp only [decide_eq_true_eq] at hx2
  exact hx2.2 hx

theorem foldl_push_nil (fs : List Callback) :
    fs.foldl (fun q f => if f ∈ q then q else q ++ [f]) [] = firstRegistrations fs := by
  rw [foldl_push_unique]
  simp

theorem hostRun_queues (env : Env) (calls : List HostCall) :
    ∀ st, (hostRun env st calls).initQueue
          = (HostCall.initFuncs calls).foldl (fun q f => if f ∈ q then q else q ++ [f])
              st.initQueue
        ∧ (env.IMGUI_XENO_DRAW_DEMO = false →
            (hostRun env st calls).drawQueue
              = (HostCall.drawFuncs calls).foldl (fun q f => if f ∈ q then q else q ++ [f])
                  st.drawQueue) := by
  induction calls with
  | nil => intro st; simp [hostRun, HostCall.initFuncs, HostCall.drawFuncs]
  | cons c cs ih =>
    intro st
    obtain ⟨i1, i2⟩ := ih (hostStep env st c)
    obtain ⟨_, s1, s2, _⟩ := hostStep_spec env st c
    have e1 : HostCall.initFuncs (c :: cs) = HostCall.initFuncs [c] ++ HostCall.initFuncs cs := by
      simp only [HostCall.initFuncs, ← List.filterMap_append, List.singleton_append]
    have e2 : HostCall.drawFuncs (c :: cs) = HostCall.drawFuncs [c] ++ HostCall.drawFuncs cs := by
      simp only [HostCall.drawFuncs, ← List.filterMap_append, List.singleton_append]
    refine ⟨?_, fun hd => ?_⟩
    · rw [hostRun_cons, i1, s1, e1, List.foldl_append]
    · rw [hostRun_cons, i2 hd, s2 hd, e2, List.foldl_append]

theorem hostStep_hasInitImGui (env : Env) (st : State) (op : HostCall)
    (h1 : st.hasInitImGui = false) (h2 : (hostStep env st op).hasInitImGui = true) :
    ∃ buffer device, op = HostCall.cmdBufInit buffer device := by
  cases op with
  | addDrawFunc f =>
    have hh : (addDrawFunc st f).hasInitImGui = st.hasInitImGui := by
      by_cases h : f ∈ st.drawQueue <;> simp [addDrawFunc, XENO_ASSERT, h, State.emit]
    simp only [hostStep, hh, h1] at h2
    cases h2
  | addInitFunc f =>
    have hh : (addInitFunc st f).hasInitImGui = st.hasInitImGui := by
      by_cases h : f ∈ st.initQueue <;> simp [addInitFunc, XENO_ASSERT, h, State.emit]
    simp only [hostStep, hh, h1] at h2
    cases h2
  | cmdBufInit buffer device => exact ⟨buffer, device, rfl⟩
  | presentTexture queue window texIndex drawData =>
    simp only [hostStep, (presentTexture_fields env st queue window texIndex drawData).1, h1] at h2
    cases h2

/-- C15, counterexample: in the sample run the init callback 42 is registered after
the third command buffer has started the overlay. At the end of the run the overlay
is started, a per-frame pass has run and 42 is in the init queue, yet the only init
callback ever invoked is 41. -/
theorem late_init_callback_counterexample :
    (hostRun Env.sample State.booted lateRegistration).hasInitImGui = true
      ∧ (hostRun Env.sample State.booted lateRegistration).initQueue = [41, 42]
      ∧ Call.newFrame ∈ hostCalls Env.sample State.booted lateRegistration
      ∧ initCalls (hostCalls Env.sample State.booted lateRegistration) = [41]
      ∧ drawFuncCalls (hostCalls Env.sample State.booted lateRegistration) = [51] := by
  refine ⟨rfl, rfl, ?_, rfl, rfl⟩
  decide
/-- C15, amended: for every interleaving of registrations, `cmdBufInit` calls and
`presentTexture` calls, init callbacks are invoked only by the `cmdBufInit` call
that starts the overlay: that call invokes the init queue as it is at that moment,
in queue order, which holds each callback registered before once, and this
happens before the first per-frame pass; a run that never starts the overlay
invokes no init callback and runs no pass, and a callback registered after the
start is never invoked. Every `procDraw`, and so every `presentTexture` of a started
overlay, invokes the draw queue of that moment, each callback once in queue order;
with the demo window off this queue lists the callbacks handed to `addDrawFunc` in
first-registration order. -/
theorem callbacks_invoked (env : Env) (st S : State) (calls pre post : List HostCall)
    (op : HostCall) (queue window : Ptr) (texIndex : Int) (drawData : ImDrawData) :
    ((hostRun env st calls).hasInitImGui = false →
        initCalls (hostCalls env st calls) = []
          ∧ (hostCalls env st calls).filter Call.isNewFrame = [])
      ∧ (calls = pre ++ op :: post → (hostRun env st pre).hasInitImGui = false →
          (hostRun env st (pre ++ [op])).hasInitImGui = true →
          initCalls (hostCalls env st calls) = (hostRun env st pre).initQueue
            ∧ (st.initQueue = [] →
                (hostRun env st pre).initQueue = firstRegistrations (HostCall.initFuncs pre))
            ∧ ∃ buffer device, op = HostCall.cmdBufInit buffer device)
      ∧ (st.hasInitImGui = false → (hostRun env st calls).hasInitImGui = true →
          ∃ pre1 op1 post1, calls = pre1 ++ op1 :: post1
            ∧ (hostRun env st pre1).hasInitImGui = false
            ∧ (hostRun env st (pre1 ++ [op1])).hasInitImGui = true)
      ∧ noInitAfterFrame (hostCalls env st calls) = true
      ∧ (st.initQueue.Nodup → (initCalls (hostCalls env st calls)).Nodup)
      ∧ drawFuncCalls ((procDraw env S drawData).trace.drop S.trace.length) = S.drawQueue
      ∧ drawFuncCalls (presentCalls env S queue window texIndex drawData)
          = (if S.hasInitImGui = true then S.drawQueue else [])
      ∧ (env.IMGUI_XENO_DRAW_DEMO = false → st.drawQueue = [] →
          (hostRun env st calls).drawQueue = firstRegistrations (HostCall.drawFuncs calls)) := by
  have hsplit := hostRun_split env st
  refine ⟨?_, ?_, ?_, ?_, ?_, ?_, ?_, ?_⟩
  · intro h
    exact (hostRun_notStarted env calls st h).2
  · intro e h1 h2
    subst e
    refine ⟨(hostRun_initCalls env st pre post op h1 h2).1, ?_, ?_⟩
    · intro hq
      rw [(hostRun_queues env pre st).1, hq, foldl_push_nil]
    · rw [hostRun_append] at h2
      exact hostStep_hasInitImGui env (hostRun env st pre) op h1 h2
  · intro h0 h
    exact hsplit h0 calls h
  · by_cases h0 : st.hasInitImGui = true
    · exact noInitAfterFrame_of_initCalls _ (hostRun_started env calls st h0).2
    · simp only [Bool.not_eq_true] at h0
      by_cases h : (hostRun env st calls).hasInitImGui = true
      · obtain ⟨p, o, q, e, h1, h2⟩ := hsplit h0 calls h
        rw [e]
        exact (hostRun_initCalls env st p q o h1 h2).2
      · simp only [Bool.not_eq_true] at h
        exact noInitAfterFrame_of_initCalls _ (hostRun_notStarted env calls st h).2.1
  · intro hn
    by_cases h0 : st.hasInitImGui = true
    · rw [(hostRun_started env calls st h0).2]
      exact List.nodup_nil
    · simp only [Bool.not_eq_true] at h0
      by_cases h : (hostRun env st calls).hasInitImGui = true
      · obtain ⟨p, o, q, e, h1, h2⟩ := hsplit h0 calls h
        rw [e, (hostRun_initCalls env st p q o h1 h2).1, (hostRun_queues env p st).1]
        exact foldl_push_nodup _ _ hn
      · simp only [Bool.not_eq_true] at h
        rw [(hostRun_notStarted env calls st h).2.1]
        exact List.nodup_nil
  · rw [procDraw_trace, List.drop_left]
    simp only [drawFuncCalls_append, drawFuncCalls_map,
      (frameCalls_noCallback env (procDrawMid env S) drawData).2.1]
    simp [drawFuncCalls, Call.drawFunc?]
  · exact (presentCalls_callbacks env S queue window texIndex drawData).2.1
  · intro hd hq
    rw [(hostRun_queues env calls st).2 hd, hq, foldl_push_nil]

/-- Witness of the amended C15 on the sample run: the third command buffer starts the
overlay, the init callback 41 registered before it is the one invoked, and the draw
queue is `[51]`. -/
theorem callbacks_invoked_witness :
    (hostRun Env.sample State.booted [.addInitFunc 41, .addDrawFunc 51, .cmdBufInit 5 11,
        .cmdBufInit 6 11]).hasInitImGui = false
      ∧ (hostRun Env.sample State.booted ([.addInitFunc 41, .addDrawFunc 51, .cmdBufInit 5 11,
        .cmdBufInit 6 11] ++ [.cmdBufInit 13 11])).hasInitImGui = true
      ∧ initCalls (hostCalls Env.sample State.booted lateRegistration) = [41]
      ∧ (hostRun Env.sample State.booted lateRegistration).drawQueue = [51] := by
  have h := callbacks_invoked Env.sample State.booted State.ready lateRegistration
    [.addInitFunc 41, .addDrawFunc 51, .cmdBufInit 5 11, .cmdBufInit 6 11]
    [.addInitFunc 42, .presentTexture 12 30 0 twoQuads] (.cmdBufInit 13 11) 12 30 0 twoQuads
  refine ⟨rfl, rfl, ?_, ?_⟩
  · rw [(h.2.1 rfl rfl rfl).1]
    rfl
  · rw [h.2.2.2.2.2.2.2 rfl rfl]
    rfl

/-! ### The descriptor pools -/

theorem wrapInt32_lt (x : Int) : wrapInt32 x < 2147483648 := by
  unfold wrapInt32; omega

theorem wrapInt32_of_fits (x : Int) (h0 : 0 ≤ x) (h1 : x < 2147483648) : wrapInt32 x = x := by
  unfold wrapInt32; omega

/-- C16, counterexample: whatever the two descriptor counts are (at least one each),
for the reported sizes `s = t = 2147483647` the size that `setupFont` requests is
an `int` and so below `2^31`, while the two regions need `s * MaxSampDescriptors
+ t * MaxTexDescriptors` bytes, which is more: the requested pool is smaller than
the sum and the texture region does not lie inside it. With 256 descriptors each,
`s = 8388608` and `t = 32` already give a negative pool size and a negative offset
of the texture region. -/
theorem setupFontPools_overflow_counterexample :
    (∀ m n : Nat, (setupFontPools (m + 1) (n + 1) 2147483647 2147483647).totalPoolSize
        < 2147483647 * ((m + 1 : Nat) : Int) + 2147483647 * ((n + 1 : Nat) : Int))
      ∧ (setupFontPools 256 256 8388608 32).totalPoolSize = -2147475456
      ∧ (setupFontPools 256 256 8388608 32).textureOffset = -2147483648 := by
  refine ⟨?_, by decide, by decide⟩
  intro m n
  have h := wrapInt32_lt (ALIGN_UP (wrapInt32 (wrapInt32 (2147483647 * ((m + 1 : Nat) : Int))
    + wrapInt32 (2147483647 * ((n + 1 : Nat) : Int)))) 0x1000)
  simp only [setupFontPools]
  push_cast at h ⊢
  omega

/-- C16, amended: for reported descriptor sizes `s >= 0` and `t >= 0` whose pool
fits an `int`, that is `s * MaxSampDescriptors + t * MaxTexDescriptors + 0xFFF <
2^31`, `setupFont` requests one pool of `ALIGN_UP(s * MaxSampDescriptors + t *
MaxTexDescriptors, 0x1000)` bytes, a multiple of `0x1000` that is at least the sum
and less than the sum plus `0x1000`; the sampler pool gets the region `[0, s *
MaxSampDescriptors)` and the texture pool the region `[s * MaxSampDescriptors,
s * MaxSampDescriptors + t * MaxTexDescriptors)`, which are disjoint and inside
the pool. -/
theorem setupFontPools_layout (MaxSampDescriptors MaxTexDescriptors : Nat) (s t : Int)
    (hs : 0 ≤ s) (ht : 0 ≤ t)
    (hfit : s * MaxSampDescriptors + t * MaxTexDescriptors + 0xFFF < 2147483648) :
    (setupFontPools MaxSampDescriptors MaxTexDescriptors s t).totalPoolSize
        = ALIGN_UP (s * MaxSampDescriptors + t * MaxTexDescriptors) 0x1000
      ∧ (setupFontPools MaxSampDescriptors MaxTexDescriptors s t).totalPoolSize % 0x1000 = 0
      ∧ s * MaxSampDescriptors + t * MaxTexDescriptors
          ≤ (setupFontPools MaxSampDescriptors MaxTexDescriptors s t).totalPoolSize
      ∧ (setupFontPools MaxSampDescriptors MaxTexDescriptors s t).totalPoolSize
          < s * MaxSampDescriptors + t * MaxTexDescriptors + 0x1000
      ∧ (setupFontPools MaxSampDescriptors MaxTexDescriptors s t).samplerOffset = 0
      ∧ (setupFontPools MaxSampDescriptors MaxTexDescriptors s t).samplerCount
          = MaxSampDescriptors
      ∧ (setupFontPools MaxSampDescriptors MaxTexDescriptors s t).textureOffset
          = s * MaxSampDescriptors
      ∧ (setupFontPools MaxSampDescriptors MaxTexDescriptors s t).textureCount
          = MaxTexDescriptors
      ∧ (setupFontPools MaxSampDescriptors MaxTexDescriptors s t).samplerOffset
            + (setupFontPools MaxSampDescriptors MaxTexDescriptors s t).samplerCount * s
          ≤ (setupFontPools MaxSampDescriptors MaxTexDescriptors s t).textureOffset
      ∧ (setupFontPools MaxSampDescriptors MaxTexDescriptors s t).textureOffset
            + (setupFontPools MaxSampDescriptors MaxTexDescriptors s t).textureCount * t
          ≤ (setupFontPools MaxSampDescriptors MaxTexDescriptors s t).totalPoolSize := by
  have hA : 0 ≤ s * (MaxSampDescriptors : Int) := mul_nonneg hs (Int.ofNat_nonneg _)
  have hB : 0 ≤ t * (MaxTexDescriptors : Int) := mul_nonneg ht (Int.ofNat_nonneg _)
  have c1 : ((MaxSampDescriptors : Int)) * s = s * MaxSampDescriptors := mul_comm _ _
  have c2 : ((MaxTexDescriptors : Int)) * t = t * MaxTexDescriptors := mul_comm _ _
  simp only [setupFontPools, c1, c2]
  generalize s * (MaxSampDescriptors : Int) = A at *
  generalize t * (MaxTexDescriptors : Int) = B at *
  have w1 : wrapInt32 A = A := wrapInt32_of_fits A hA (by omega)
  have w2 : wrapInt32 B = B := wrapInt32_of_fits B hB (by omega)
  have w3 : wrapInt32 (A + B) = A + B := wrapInt32_of_fits _ (by omega) (by omega)
  have a1 : ALIGN_UP (A + B) 0x1000 % 0x1000 = 0 := by unfold ALIGN_UP; omega
  have a2 : A + B ≤ ALIGN_UP (A + B) 0x1000 := by unfold ALIGN_UP; omega
  have a3 : ALIGN_UP (A + B) 0x1000 < A + B + 0x1000 := by unfold ALIGN_UP; omega
  have w4 : wrapInt32 (ALIGN_UP (A + B) 0x1000) = ALIGN_UP (A + B) 0x1000 :=
    wrapInt32_of_fits _ (by omega) (by omega)
  rw [w1, w2, w3, w4]
  refine ⟨rfl, a1, a2, a3, ?_, ?_, ?_, ?_, by omega, by omega⟩ <;> first | rfl | trivial

/-- Witness of the amended C16: descriptor sizes 32 and 24 with 356 descriptors each
need 19936 bytes; the pool requested has 20480 bytes and the texture region starts
at 11392. -/
theorem setupFontPools_layout_witness :
    (0 : Int) ≤ 32 ∧ (0 : Int) ≤ 24
      ∧ (setupFontPools 356 356 32 24).totalPoolSize = 20480
      ∧ (setupFontPools 356 356 32 24).textureOffset = 11392
      ∧ (32 : Int) * (356 : Nat) + 24 * (356 : Nat)
          ≤ (setupFontPools 356 356 32 24).totalPoolSize := by
  have h := setupFontPools_layout 356 356 32 24 (by decide) (by decide) (by decide)
  exact ⟨by decide, by decide, by decide, by decide, h.2.2.1⟩

/-! ### One recording per frame -/

theorem cmdBufferCalls_allClipped (cmdBuf : Ptr) (DisplaySize : ImVec2)
    (idxBuffer : MemoryBuffer) (idxOffset : Nat) (cmds : List ImDrawCmd)
    (h : ∀ cmd ∈ cmds, cmd.clipped) :
    ∀ bound, cmdBufferCalls cmdBuf DisplaySize idxBuffer idxOffset bound cmds = [] := by
  induction cmds with
  | nil => intro _; rfl
  | cons cmd cmds ih =>
    intro bound
    unfold cmdBufferCalls
    rw [if_pos (h cmd (List.mem_cons_self _ _))]
    exact ih (fun c hc => h c (List.mem_cons_of_mem _ hc)) _

theorem cmdListsCalls_allClipped (cmdBuf : Ptr) (DisplaySize : ImVec2)
    (vtxBuffer idxBuffer : MemoryBuffer) (lists : List ImDrawList)
    (h : ∀ l ∈ lists, ∀ cmd ∈ l.CmdBuffer, cmd.clipped) :
    ∀ vtxOffset idxOffset bound,
      ∀ c ∈ cmdListsCalls cmdBuf DisplaySize vtxBuffer idxBuffer vtxOffset idxOffset bound lists,
        Call.isDrawCall c = false := by
  induction lists with
  | nil => intro _ _ _ c hc; simp [cmdListsCalls] at hc
  | cons l lists ih =>
    intro vtxOffset idxOffset bound c hc
    unfold cmdListsCalls at hc
    rw [cmdBufferCalls_allClipped _ _ _ _ _ (h l (List.mem_cons_self _ _))] at hc
    simp only [List.mem_append, List.mem_cons, List.mem_singleton, List.not_mem_nil,
      or_false] at hc
    rcases hc with (hc | hc | hc) | hc
    · subst hc; rfl
    · subst hc; rfl
    · subst hc; rfl
    · exact ih (fun l' hl => h l' (List.mem_cons_of_mem _ hl)) _ _ _ c hc

theorem countP_eq_zero_of_false {p : Call → Bool} {l : List Call}
    (h : ∀ c ∈ l, p c = false) : l.countP p = 0 := by
  rw [List.countP_eq_zero]
  intro c hc
  simp [h c hc]

theorem frameCalls_shape (env : Env) (st : State) (drawData : ImDrawData)
    (h : recordsFrame env st drawData) :
    frameCalls env st drawData
      = ((ensureCapacity env st.bd.vtxBuffer (drawData.TotalVtxCount * sizeofImDrawVert)).2
          ++ (ensureCapacity env st.bd.idxBuffer (drawData.TotalIdxCount * sizeofImDrawIdx)).2)
        ++ Call.record st.bd.cmdBuf .BeginRecording
          :: (([ Call.record st.bd.cmdBuf .BindProgram,
                Call.record st.bd.cmdBuf (.BindUniformBuffer UBOSIZE),
                Call.record st.bd.cmdBuf (.UpdateUniformBuffer sizeofProjMatrix
                  (orthoRH_ZO 0 st.DisplaySize.x st.DisplaySize.y 0 (-1) 1)) ]
              ++ setRenderStates st.bd)
            ++ cmdListsCalls st.bd.cmdBuf st.DisplaySize
                (ensureCapacity env st.bd.vtxBuffer
                  (drawData.TotalVtxCount * sizeofImDrawVert)).1
                (ensureCapacity env st.bd.idxBuffer
                  (drawData.TotalIdxCount * sizeofImDrawIdx)).1
                0 0 0 drawData.CmdLists)
        ++ [ Call.record st.bd.cmdBuf .EndRecording,
             Call.submitCommands st.bd.queue 1 (env.endRecording st.bd.cmdBuf) ] := by
  rw [frameCalls_recorded env st drawData h]
  simp [frameSetup, List.append_assoc]
theorem isCommand_of_isBeginRecording (c : Call) (h : Call.isBeginRecording c = true) :
    Call.isCommand c = true := by
  cases c <;> simp_all [Call.isBeginRecording, Call.isCommand]

theorem isCommand_of_isEndRecording (c : Call) (h : Call.isEndRecording c = true) :
    Call.isCommand c = true := by
  cases c <;> simp_all [Call.isEndRecording, Call.isCommand]

theorem isCommand_of_isSubmit (c : Call) (h : Call.isSubmit c = true) :
    Call.isCommand c = true := by
  cases c <;> simp_all [Call.isSubmit, Call.isCommand]

theorem isCommand_of_isDrawCall (c : Call) (h : Call.isDrawCall c = true) :
    Call.isCommand c = true := by
  cases c <;> simp_all [Call.isDrawCall, Call.isCommand]

theorem isFrameBoundary_of_isBeginRecording (c : Call) (h : Call.isBeginRecording c = true) :
    Call.isFrameBoundary c = true := by
  cases c with
  | record b cmd => cases cmd <;> simp_all [Call.isBeginRecording, Call.isFrameBoundary]
  | _ => simp_all [Call.isBeginRecording]

theorem isFrameBoundary_of_isEndRecording (c : Call) (h : Call.isEndRecording c = true) :
    Call.isFrameBoundary c = true := by
  cases c with
  | record b cmd => cases cmd <;> simp_all [Call.isEndRecording, Call.isFrameBoundary]
  | _ => simp_all [Call.isEndRecording]

theorem isFrameBoundary_of_isSubmit (c : Call) (h : Call.isSubmit c = true) :
    Call.isFrameBoundary c = true := by
  cases c <;> simp_all [Call.isSubmit, Call.isFrameBoundary]

theorem false_of_imp {p q : Call → Bool} (h : ∀ c, p c = true → q c = true) (c : Call)
    (hq : q c = false) : p c = false := by
  by_contra hcon
  simp only [Bool.not_eq_false] at hcon
  rw [h c hcon] at hq
  cases hq

theorem countP_frame (p : Call → Bool) (resize body : List Call) (b e s : Call)
    (hr : ∀ c ∈ resize, p c = false) (hb : ∀ c ∈ body, p c = false) :
    (resize ++ b :: body ++ [e, s]).countP p
      = (if p b = true then 1 else 0) + ((if p e = true then 1 else 0)
          + (if p s = true then 1 else 0)) := by
  simp only [List.countP_append, List.countP_cons, List.countP_nil,
    countP_eq_zero_of_false hr, countP_eq_zero_of_false hb]
  omega
theorem InitImGui_captured (env : Env) (S : State) (h : (InitImGui env S).1 = true) :
    (InitImGui env S).2.bd.queue = S.nvnQueue ∧ (InitImGui env S).2.bd.cmdBuf = S.nvnCmdBuf
      ∧ (InitImGui env S).2.bd.device = S.nvnDevice
      ∧ (InitImGui env S).2.bd.isUseTestShader = false := by
  unfold InitImGui at h ⊢
  split
  · simp only [InitBackend, State.emit, addDrawFunc, XENO_ASSERT]
    refine ⟨?_, ?_, ?_, ?_⟩ <;>
    · split <;> [split; skip] <;> (split <;> [split; skip]) <;> rfl
  · rename_i hn
    simp [hn] at h

/-- C17: when the draw data is valid and has at least one command list, the backend
is initialized (and renders the overlay, not the test quad) and both buffers are
ready after the resize step, the calls of `renderDrawData` are: the resize step,
which records no command; one `BeginRecording`; the binds and draws of the frame,
none of which opens, closes or submits a recording; one `EndRecording`; and one
`SubmitCommands` of the one handle that `EndRecording` returned, to the queue of
the backend, which is the queue captured when the overlay was started. So the frame
has exactly one `BeginRecording`, one `EndRecording` and one `SubmitCommands`. This
holds whatever the clip rectangles are; when every draw command has a degenerate
clip the frame contains no draw call at all. The test-quad switch is off in the
backend record that `InitImGui` creates, and a frame does not change it. -/
theorem frame_recorded_once (env : Env) (st S : State) (drawData : ImDrawData)
    (h : recordsFrame env st drawData) :
    (∃ resize body,
        frameCalls env st drawData
          = resize ++ Call.record st.bd.cmdBuf .BeginRecording :: body
            ++ [ Call.record st.bd.cmdBuf .EndRecording,
                 Call.submitCommands st.bd.queue 1 (env.endRecording st.bd.cmdBuf) ]
          ∧ (∀ c ∈ resize, Call.isCommand c = false)
          ∧ (∀ c ∈ body, Call.isFrameBoundary c = false))
      ∧ (frameCalls env st drawData).countP Call.isBeginRecording = 1
      ∧ (frameCalls env st drawData).countP Call.isEndRecording = 1
      ∧ (frameCalls env st drawData).countP Call.isSubmit = 1
      ∧ ((∀ cmd ∈ drawData.commands, cmd.clipped) →
          (frameCalls env st drawData).countP Call.isDrawCall = 0)
      ∧ ((InitImGui env S).1 = true →
          (InitImGui env S).2.bd.queue = S.nvnQueue
            ∧ (InitImGui env S).2.bd.cmdBuf = S.nvnCmdBuf
            ∧ (InitImGui env S).2.bd.isUseTestShader = false)
      ∧ (renderDrawData env st drawData).bd.isUseTestShader = st.bd.isUseTestShader := by
  have hshape := frameCalls_shape env st drawData h
  have hres : ∀ c ∈ (ensureCapacity env st.bd.vtxBuffer
        (drawData.TotalVtxCount * sizeofImDrawVert)).2
      ++ (ensureCapacity env st.bd.idxBuffer (drawData.TotalIdxCount * sizeofImDrawIdx)).2,
      Call.isCommand c = false := by
    intro c hc
    rw [List.mem_append] at hc
    rcases hc with hc | hc <;> exact isCommand_ensureCapacity _ _ _ c hc
  have hloop : ∀ c ∈ cmdListsCalls st.bd.cmdBuf st.DisplaySize
      (ensureCapacity env st.bd.vtxBuffer (drawData.TotalVtxCount * sizeofImDrawVert)).1
      (ensureCapacity env st.bd.idxBuffer (drawData.TotalIdxCount * sizeofImDrawIdx)).1
      0 0 0 drawData.CmdLists, Call.isFrameBoundary c = false :=
    fun c hc => isFrameBoundary_of_isLoopCall _ c
      (cmdListsCalls_isLoopCall _ _ _ _ _ _ _ _ c hc)
  have hbody : ∀ c ∈ ([ Call.record st.bd.cmdBuf .BindProgram,
        Call.record st.bd.cmdBuf (.BindUniformBuffer UBOSIZE),
        Call.record st.bd.cmdBuf (.UpdateUniformBuffer sizeofProjMatrix
          (orthoRH_ZO 0 st.DisplaySize.x st.DisplaySize.y 0 (-1) 1)) ]
        ++ setRenderStates st.bd)
      ++ cmdListsCalls st.bd.cmdBuf st.DisplaySize
          (ensureCapacity env st.bd.vtxBuffer (drawData.TotalVtxCount * sizeofImDrawVert)).1
          (ensureCapacity env st.bd.idxBuffer (drawData.TotalIdxCount * sizeofImDrawIdx)).1
          0 0 0 drawData.CmdLists, Call.isFrameBoundary c = false := by
    intro c hc
    rw [List.mem_append] at hc
    rcases hc with hc | hc
    · simp only [setRenderStates, List.mem_append, List.mem_cons, List.mem_singleton,
        List.not_mem_nil, or_false] at hc
      rcases hc with (hc | hc | hc) | hc
      · subst hc; rfl
      · subst hc; rfl
      · subst hc; rfl
      · rcases hc with hc | hc | hc | hc | hc | hc | hc <;> subst hc <;> rfl
    · exact hloop c hc
  refine ⟨⟨_, _, hshape, hres, hbody⟩, ?_, ?_, ?_, ?_, ?_,
    (renderDrawData_flags env st drawData).2⟩
  · rw [hshape, countP_frame _ _ _ _ _ _
      (fun c hc => false_of_imp isCommand_of_isBeginRecording c (hres c hc))
      (fun c hc => false_of_imp isFrameBoundary_of_isBeginRecording c (hbody c hc))]
    rfl
  · rw [hshape, countP_frame _ _ _ _ _ _
      (fun c hc => false_of_imp isCommand_of_isEndRecording c (hres c hc))
      (fun c hc => false_of_imp isFrameBoundary_of_isEndRecording c (hbody c hc))]
    rfl
  · rw [hshape, countP_frame _ _ _ _ _ _
      (fun c hc => false_of_imp isCommand_of_isSubmit c (hres c hc))
      (fun c hc => false_of_imp isFrameBoundary_of_isSubmit c (hbody c hc))]
    rfl
  · intro hall
    have hlists : ∀ l ∈ drawData.CmdLists, ∀ cmd ∈ l.CmdBuffer, cmd.clipped := by
      intro l hl cmd hcmd
      apply hall
      simp only [ImDrawData.commands, List.mem_flatMap]
      exact ⟨l, hl, hcmd⟩
    rw [hshape, countP_frame _ _ _ _ _ _
      (fun c hc => false_of_imp isCommand_of_isDrawCall c (hres c hc)) ?_]
    · rfl
    · intro c hc
      rw [List.mem_append] at hc
      rcases hc with hc | hc
      · simp only [setRenderStates, List.mem_append, List.mem_cons, List.mem_singleton,
          List.not_mem_nil, or_false] at hc
        rcases hc with (hc | hc | hc) | hc
        · subst hc; rfl
        · subst hc; rfl
        · subst hc; rfl
        · rcases hc with hc | hc | hc | hc | hc | hc | hc <;> subst hc <;> rfl
      · exact cmdListsCalls_allClipped _ _ _ _ _ hlists _ _ _ c hc
  · intro hi
    exact ⟨(InitImGui_captured env S hi).1, (InitImGui_captured env S hi).2.1,
      (InitImGui_captured env S hi).2.2.2⟩

/-- Witness of C17: the sample frame whose only command has a clip of zero width is
recorded with one `BeginRecording`, one `EndRecording`, one `SubmitCommands` as the
last call, and no draw call. -/
theorem frame_recorded_once_witness :
    recordsFrame Env.sample State.ready degenerateQuad
      ∧ (∀ cmd ∈ degenerateQuad.commands, cmd.clipped)
      ∧ (frameCalls Env.sample State.ready degenerateQuad).countP Call.isBeginRecording = 1
      ∧ (frameCalls Env.sample State.ready degenerateQuad).countP Call.isEndRecording = 1
      ∧ (frameCalls Env.sample State.ready degenerateQuad).countP Call.isSubmit = 1
      ∧ (frameCalls Env.sample State.ready degenerateQuad).countP Call.isDrawCall = 0
      ∧ (frameCalls Env.sample State.ready degenerateQuad).getLast?
          = some (Call.submitCommands 12 1 14) := by
  have hrec : recordsFrame Env.sample State.ready degenerateQuad := by decide
  have hall : ∀ cmd ∈ degenerateQuad.commands, cmd.clipped := by decide
  have h := frame_recorded_once Env.sample State.ready State.booted degenerateQuad hrec
  exact ⟨hrec, hall, h.2.1, h.2.2.1, h.2.2.2.1, h.2.2.2.2.1 hall, rfl⟩

/-! ### The copies into the vertex and index buffers -/

theorem copyPlan_getElem? (sizes : List Nat) :
    ∀ (start i : Nat), (copyPlan start sizes)[i]?
      = sizes[i]?.map (fun size => (start + (sizes.take i).sum, size)) := by
  induction sizes with
  | nil => intro start i; simp [copyPlan]
  | cons s rest ih =>
    intro start i
    cases i with
    | zero => simp [copyPlan]
    | succ j =>
      simp only [copyPlan, List.getElem?_cons_succ, ih, List.take_succ_cons, List.sum_cons]
      cases rest[j]? with
      | none => rfl
      | some v => simp [Nat.add_assoc]

theorem copyPlan_bounds (sizes : List Nat) :
    ∀ start, ∀ p ∈ copyPlan start sizes, start ≤ p.1 ∧ p.1 + p.2 ≤ start + sizes.sum := by
  induction sizes with
  | nil => intro start p hp; simp [copyPlan] at hp
  | cons s rest ih =>
    intro start p hp
    simp only [copyPlan, List.mem_cons] at hp
    rcases hp with hp | hp
    · subst hp
      simp only [List.sum_cons]
      omega
    · obtain ⟨h1, h2⟩ := ih (start + s) p hp
      simp only [List.sum_cons]
      omega

theorem cmdBufferCalls_isCommand (cmdBuf : Ptr) (DisplaySize : ImVec2)
    (idxBuffer : MemoryBuffer) (idxOffset : Nat) (cmds : List ImDrawCmd) :
    ∀ bound, ∀ c ∈ cmdBufferCalls cmdBuf DisplaySize idxBuffer idxOffset bound cmds,
      Call.isCommand c = true := by
  induction cmds with
  | nil => intro bound c hc; simp [cmdBufferCalls] at hc
  | cons cmd cmds ih =>
    intro bound c hc
    unfold cmdBufferCalls at hc
    split at hc
    · exact ih _ c hc
    · simp only [List.mem_append, List.mem_cons, List.mem_singleton, List.not_mem_nil,
        or_false] at hc
      rcases hc with ((hc | hc) | hc) | hc
      · rcases hc with hc | hc <;> subst hc <;> rfl
      · split at hc
        · simp only [List.mem_singleton] at hc; subst hc; rfl
        · simp at hc
      · subst hc; rfl
      · exact ih _ c hc

theorem copies_of_commands (l : List Call) (h : ∀ c ∈ l, Call.isCommand c = true) :
    vtxCopies l = [] ∧ idxCopies l = [] := by
  unfold vtxCopies idxCopies
  rw [List.filterMap_eq_nil_iff, List.filterMap_eq_nil_iff]
  refine ⟨fun c hc => ?_, fun c hc => ?_⟩
  · have := h c hc
    cases c <;> simp_all [Call.isCommand, Call.vtxCopy?]
  · have := h c hc
    cases c <;> simp_all [Call.isCommand, Call.idxCopy?]

theorem copies_append (a b : List Call) :
    vtxCopies (a ++ b) = vtxCopies a ++ vtxCopies b
      ∧ idxCopies (a ++ b) = idxCopies a ++ idxCopies b := by
  simp [vtxCopies, idxCopies, List.filterMap_append]

theorem copies_ensureCapacity (env : Env) (buffer : Option MemoryBuffer) (totalSize : Nat) :
    vtxCopies (ensureCapacity env buffer totalSize).2 = []
      ∧ idxCopies (ensureCapacity env buffer totalSize).2 = [] := by
  unfold ensureCapacity
  cases buffer with
  | none => exact ⟨rfl, rfl⟩
  | some b =>
    by_cases hb : b.poolSize < totalSize <;>
      simp [hb, vtxCopies, idxCopies, Call.vtxCopy?, Call.idxCopy?]

theorem copies_cmdListsCalls (cmdBuf : Ptr) (DisplaySize : ImVec2)
    (vtxBuffer idxBuffer : MemoryBuffer) (lists : List ImDrawList) :
    ∀ vtxOffset idxOffset bound,
      vtxCopies (cmdListsCalls cmdBuf DisplaySize vtxBuffer idxBuffer vtxOffset idxOffset
          bound lists) = copyPlan (vtxBuffer.address + vtxOffset) (vtxSizes lists)
        ∧ idxCopies (cmdListsCalls cmdBuf DisplaySize vtxBuffer idxBuffer vtxOffset idxOffset
          bound lists) = copyPlan (idxBuffer.address + idxOffset) (idxSizes lists) := by
  induction lists with
  | nil => intro _ _ _; exact ⟨rfl, rfl⟩
  | cons l lists ih =>
    intro vtxOffset idxOffset bound
    obtain ⟨i1, i2⟩ := ih (vtxOffset + l.VtxBuffer.length * sizeofImDrawVert)
      (idxOffset + l.IdxBuffer.length * sizeofImDrawIdx) (boundAfter bound l.CmdBuffer)
    obtain ⟨c1, c2⟩ := copies_of_commands _
      (cmdBufferCalls_isCommand cmdBuf DisplaySize idxBuffer idxOffset l.CmdBuffer bound)
    unfold cmdListsCalls
    simp only [(copies_append _ _).1, (copies_append _ _).2, i1, i2, c1, c2, List.append_nil]
    simp [vtxCopies, idxCopies, Call.vtxCopy?, Call.idxCopy?, copyPlan, vtxSizes, idxSizes,
      Nat.add_assoc]

theorem sum_vtxSizes (lists : List ImDrawList) :
    (vtxSizes lists).sum
        = (lists.map (fun cmdList => cmdList.VtxBuffer.length)).sum * sizeofImDrawVert
      ∧ (idxSizes lists).sum
        = (lists.map (fun cmdList => cmdList.IdxBuffer.length)).sum * sizeofImDrawIdx := by
  induction lists with
  | nil => exact ⟨rfl, rfl⟩
  | cons l lists ih =>
    simp only [vtxSizes, idxSizes, List.map_cons, List.sum_cons] at ih ⊢
    rw [ih.1, ih.2]
    exact ⟨by ring, by ring⟩

/-- The copies of a frame: those of the two loops when the frame is recorded, none
when it is skipped. -/
theorem copies_frameCalls (env : Env) (st : State) (drawData : ImDrawData) :
    vtxCopies (frameCalls env st drawData)
        = (if recordsFrame env st drawData then
            copyPlan (ensureCapacity env st.bd.vtxBuffer
              (drawData.TotalVtxCount * sizeofImDrawVert)).1.address (vtxSizes drawData.CmdLists)
          else [])
      ∧ idxCopies (frameCalls env st drawData)
        = (if recordsFrame env st drawData then
            copyPlan (ensureCapacity env st.bd.idxBuffer
              (drawData.TotalIdxCount * sizeofImDrawIdx)).1.address (idxSizes drawData.CmdLists)
          else []) := by
  by_cases h : recordsFrame env st drawData
  · rw [if_pos h, if_pos h, frameCalls_recorded env st drawData h]
    simp only [(copies_append _ _).1, (copies_append _ _).2,
      (copies_ensureCapacity _ _ _).1, (copies_ensureCapacity _ _ _).2,
      (copies_cmdListsCalls _ _ _ _ _ _ _ _).1, (copies_cmdListsCalls _ _ _ _ _ _ _ _).2]
    simp [vtxCopies, idxCopies, frameSetup, setRenderStates, Call.vtxCopy?, Call.idxCopy?]
  · rw [if_neg h, if_neg h]
    by_cases hg : drawData.Valid = false ∨ drawData.CmdListsCount = 0
        ∨ st.bd.isInitialized = false
    · rw [frameCalls_guarded env st drawData hg]
      exact ⟨rfl, rfl⟩
    simp only [not_or, Bool.not_eq_false] at hg
    by_cases h4 : st.bd.isUseTestShader = true
    · rw [frameCalls_testShader env st drawData hg.1 hg.2.1 hg.2.2 h4]
      simp only [(copies_append _ _).1, (copies_append _ _).2,
        (copies_ensureCapacity _ _ _).1, (copies_ensureCapacity _ _ _).2]
      split
      · simp [vtxCopies, idxCopies, testShaderCalls, setRenderStates, Call.vtxCopy?,
          Call.idxCopy?]
      · exact ⟨rfl, rfl⟩
    · have h5 : (ensureCapacity env st.bd.vtxBuffer
            (drawData.TotalVtxCount * sizeofImDrawVert)).1.ready = false
          ∨ (ensureCapacity env st.bd.idxBuffer
            (drawData.TotalIdxCount * sizeofImDrawIdx)).1.ready = false := by
        by_contra hcon
        simp only [not_or, Bool.not_eq_false] at hcon
        exact h ⟨hg.1, hg.2.1, hg.2.2, by simpa using h4, hcon.1, hcon.2⟩
      rw [frameCalls_notReady env st drawData hg.1 hg.2.1 hg.2.2 (by simpa using h4) h5]
      simp only [(copies_append _ _).1, (copies_append _ _).2,
        (copies_ensureCapacity _ _ _).1, (copies_ensureCapacity _ _ _).2]
      exact ⟨rfl, rfl⟩
theorem renderDrawData_recorded_buffers (env : Env) (st : State) (drawData : ImDrawData)
    (h : recordsFrame env st drawData) :
    (renderDrawData env st drawData).bd.vtxBuffer
        = some (ensureCapacity env st.bd.vtxBuffer
            (drawData.TotalVtxCount * sizeofImDrawVert)).1
      ∧ (renderDrawData env st drawData).bd.idxBuffer
        = some (ensureCapacity env st.bd.idxBuffer
            (drawData.TotalIdxCount * sizeofImDrawIdx)).1 := by
  obtain ⟨h1, h2, h3, h4, h5, h6⟩ := h
  simp [renderDrawData, h1, h2, h3, h4, h5, h6, State.emit]

/-- C18: let the totals of the draw data be the sums of the per-list vertex and
index counts, and let a buffer allocated for `n` bytes have a capacity of at least
`n`. Then every copy of `renderDrawData` stays inside the buffer it writes to, the
vertex or index buffer held after the resize step: the copy for list `i` starts at
the buffer address plus the total byte size of the arrays of the lists before it,
and ends at or before the end of the buffer. A skipped frame copies nothing. -/
theorem copies_stay_inside (env : Env) (st : State) (drawData : ImDrawData)
    (hv : drawData.TotalVtxCount
      = (drawData.CmdLists.map (fun cmdList => cmdList.VtxBuffer.length)).sum)
    (hi : drawData.TotalIdxCount
      = (drawData.CmdLists.map (fun cmdList => cmdList.IdxBuffer.length)).sum)
    (halloc : ∀ n, n ≤ (env.newMemoryBuffer n).poolSize) :
    (∀ i, (vtxCopies (frameCalls env st drawData))[i]?
        = if recordsFrame env st drawData then
            (vtxSizes drawData.CmdLists)[i]?.map (fun size =>
              ((ensureCapacity env st.bd.vtxBuffer
                  (drawData.TotalVtxCount * sizeofImDrawVert)).1.address
                + ((vtxSizes drawData.CmdLists).take i).sum, size))
          else none)
      ∧ (∀ i, (idxCopies (frameCalls env st drawData))[i]?
        = if recordsFrame env st drawData then
            (idxSizes drawData.CmdLists)[i]?.map (fun size =>
              ((ensureCapacity env st.bd.idxBuffer
                  (drawData.TotalIdxCount * sizeofImDrawIdx)).1.address
                + ((idxSizes drawData.CmdLists).take i).sum, size))
          else none)
      ∧ (∀ p ∈ vtxCopies (frameCalls env st drawData),
          (ensureCapacity env st.bd.vtxBuffer
              (drawData.TotalVtxCount * sizeofImDrawVert)).1.address ≤ p.1
            ∧ p.1 + p.2
              ≤ (ensureCapacity env st.bd.vtxBuffer
                    (drawData.TotalVtxCount * sizeofImDrawVert)).1.address
                + (ensureCapacity env st.bd.vtxBuffer
                    (drawData.TotalVtxCount * sizeofImDrawVert)).1.poolSize)
      ∧ (∀ p ∈ idxCopies (frameCalls env st drawData),
          (ensureCapacity env st.bd.idxBuffer
              (drawData.TotalIdxCount * sizeofImDrawIdx)).1.address ≤ p.1
            ∧ p.1 + p.2
              ≤ (ensureCapacity env st.bd.idxBuffer
                    (drawData.TotalIdxCount * sizeofImDrawIdx)).1.address
                + (ensureCapacity env st.bd.idxBuffer
                    (drawData.TotalIdxCount * sizeofImDrawIdx)).1.poolSize)
      ∧ (recordsFrame env st drawData →
          (renderDrawData env st drawData).bd.vtxBuffer
              = some (ensureCapacity env st.bd.vtxBuffer
                  (drawData.TotalVtxCount * sizeofImDrawVert)).1
            ∧ (renderDrawData env st drawData).bd.idxBuffer
              = some (ensureCapacity env st.bd.idxBuffer
                  (drawData.TotalIdxCount * sizeofImDrawIdx)).1) := by
  obtain ⟨cv, ci⟩ := copies_frameCalls env st drawData
  have capV := (ensureCapacity_poolSize env st.bd.vtxBuffer
    (drawData.TotalVtxCount * sizeofImDrawVert) (halloc _)).1
  have capI := (ensureCapacity_poolSize env st.bd.idxBuffer
    (drawData.TotalIdxCount * sizeofImDrawIdx) (halloc _)).1
  have sumV : (vtxSizes drawData.CmdLists).sum = drawData.TotalVtxCount * sizeofImDrawVert := by
    rw [(sum_vtxSizes drawData.CmdLists).1, hv]
  have sumI : (idxSizes drawData.CmdLists).sum = drawData.TotalIdxCount * sizeofImDrawIdx := by
    rw [(sum_vtxSizes drawData.CmdLists).2, hi]
  refine ⟨?_, ?_, ?_, ?_, renderDrawData_recorded_buffers env st drawData⟩
  · intro i
    rw [cv]
    split
    · exact copyPlan_getElem? _ _ _
    · rfl
  · intro i
    rw [ci]
    split
    · exact copyPlan_getElem? _ _ _
    · rfl
  · intro p hp
    rw [cv] at hp
    split at hp
    · obtain ⟨b1, b2⟩ := copyPlan_bounds _ _ p hp
      rw [sumV] at b2
      exact ⟨b1, by omega⟩
    · cases hp
  · intro p hp
    rw [ci] at hp
    split at hp
    · obtain ⟨b1, b2⟩ := copyPlan_bounds _ _ p hp
      rw [sumI] at b2
      exact ⟨b1, by omega⟩
    · cases hp

/-- Witness of C18: the sample frame of two lists copies 80 and 60 bytes of vertices
to the offsets 0 and 80, and 12 and 6 bytes of indices to the offsets 0 and 12, of
buffers of 4096 bytes. -/
theorem copies_stay_inside_witness :
    recordsFrame Env.sample State.ready twoLists
      ∧ vtxCopies (frameCalls Env.sample State.ready twoLists) = [(65536, 80), (65616, 60)]
      ∧ idxCopies (frameCalls Env.sample State.ready twoLists) = [(65536, 12), (65548, 6)]
      ∧ (ensureCapacity Env.sample State.ready.bd.vtxBuffer (7 * sizeofImDrawVert)).1.poolSize
          = 4096
      ∧ ∀ p ∈ vtxCopies (frameCalls Env.sample State.ready twoLists),
          65536 ≤ p.1 ∧ p.1 + p.2 ≤ 65536 + 4096 := by
  have halloc : ∀ n, n ≤ (Env.sample.newMemoryBuffer n).poolSize := by
    intro n
    show n ≤ (n + 4095) / 4096 * 4096
    omega
  have h := copies_stay_inside Env.sample State.ready twoLists rfl rfl halloc
  exact ⟨by decide, by decide, by decide, rfl, h.2.2.1⟩

end ImguiXeno
